import Mathlib

/-!
# MIPS32 EJTAG debug core: PrAcc engine, breakpoint unit, algorithm runner

A shallow embedding of `src/target/mips32_pracc.c` and `src/target/mips32.c`.

Conventions of the embedding

* `uint32_t` values are natural numbers; where the C code can wrap, the
  arithmetic is written with an explicit `% 2 ^ 32`.
* A C function that returns a status returns an `Int` here, with the data it
  leaves behind next to it.
* Indexing an array outside its bounds is undefined in C.  The embedding makes
  that outcome explicit (`fault`) instead of inventing a value.
* The target is the environment.  The EJTAG scans it answers are given as a
  script of requests, one per iteration of the PrAcc loop.
-/

namespace OpenOCD

/-! ## Status codes and the PrAcc region map -/

/-- Modelled from the spec: the status code `Ok` of the error taxonomy.  The
header that defines the status codes is not among the sources; `ERROR_OK` is
zero, every other code is a non-zero integer. -/
def ERROR_OK : Int := 0

/-- Modelled from the spec: status returned when the EJTAG device does not
behave as expected (error kind `Fail`, unreachable address in PrAcc). -/
def ERROR_JTAG_DEVICE_ERROR : Int := -107

/-- Modelled from the spec: error kind `Timeout`. -/
def ERROR_TARGET_TIMEOUT : Int := -302

/-- Modelled from the spec: error kind `NotHalted`. -/
def ERROR_TARGET_NOT_HALTED : Int := -304

/-- Modelled from the spec: status for a target that is not a MIPS32 target. -/
def ERROR_TARGET_INVALID : Int := -300

/-- Modelled from the spec: error kind `InvalidArguments`. -/
def ERROR_INVALID_ARGUMENTS : Int := -601

/-- Modelled from the spec: error kind `ResourceNotAvailable`. -/
def ERROR_TARGET_RESOURCE_NOT_AVAILABLE : Int := -308

/-- Modelled from the spec: `PRACC_TEXT=0xFF200200`, the debug vector. -/
def MIPS32_PRACC_TEXT : Nat := 0xFF200200

/-- Modelled from the spec: `PRACC_STACK=0xFF204000`. -/
def MIPS32_PRACC_STACK : Nat := 0xFF204000

/-- Modelled from the spec: `PRACC_PARAM_IN=0xFF202000`. -/
def MIPS32_PRACC_PARAM_IN : Nat := 0xFF202000

/-- Modelled from the spec: `PRACC_PARAM_OUT=0xFF202800`. -/
def MIPS32_PRACC_PARAM_OUT : Nat := 0xFF202800

/-! ## The PrAcc context and the target's requests -/

/-- The `struct mips32_pracc_context` of the source.  The three buffers are the
caller's arrays (their length is the number of words really allocated, the
`num_` and `_len` fields are what the caller declared); `stack` is the 32-word
array and `stack_offset` the C `int` next to it.  The `ejtag_info` handle is the
transport and is represented by the request script instead. -/
structure mips32_pracc_context where
  local_iparam : List Nat
  num_iparam : Nat
  local_oparam : List Nat
  num_oparam : Nat
  code : List Nat
  code_len : Nat
  stack : List Nat
  stack_offset : Int
  deriving DecidableEq, Repr

/-- What the EJTAG scans of one loop iteration shift in from the target:
`pracc` and `prnw` are the two bits of the control word the code tests
(`EJTAG_CTRL_PRACC`, `EJTAG_CTRL_PRNW`), `address` is the word of the address
register and `data` the word of the data register (meaningful for a processor
write only). -/
structure PraccRequest where
  pracc : Bool
  prnw : Bool
  address : Nat
  data : Nat
  deriving DecidableEq, Repr

/-- Result of a C function of the engine: it returned `retval` and left `val`,
or it indexed an array outside its bounds. -/
inductive Exec (α : Type) where
  | ret (retval : Int) (val : α)
  | fault
  deriving DecidableEq, Repr

/-- The function `wait_for_pracc_rw`: one control scan; the loop in the source
returns on its first pass whatever the bit is. -/
def wait_for_pracc_rw (r : PraccRequest) : Int :=
  if r.pracc then ERROR_OK else ERROR_JTAG_DEVICE_ERROR

/-- The function `mips32_pracc_exec_read`: resolve the word the processor reads
at `address`.  The result carries the context and the word shifted out through
the data register (none on the error path). -/
def mips32_pracc_exec_read (ctx : mips32_pracc_context) (address : Nat) :
    Exec (mips32_pracc_context × Option Nat) :=
  if MIPS32_PRACC_PARAM_IN ≤ address
      ∧ address ≤ (MIPS32_PRACC_PARAM_IN + ctx.num_iparam * 4) % 2 ^ 32 then
    match ctx.local_iparam[(address - MIPS32_PRACC_PARAM_IN) / 4]? with
    | some data => .ret ERROR_OK (ctx, some data)
    | none => .fault
  else if MIPS32_PRACC_PARAM_OUT ≤ address
      ∧ address ≤ (MIPS32_PRACC_PARAM_OUT + ctx.num_oparam * 4) % 2 ^ 32 then
    match ctx.local_oparam[(address - MIPS32_PRACC_PARAM_OUT) / 4]? with
    | some data => .ret ERROR_OK (ctx, some data)
    | none => .fault
  else if MIPS32_PRACC_TEXT ≤ address
      ∧ address ≤ (MIPS32_PRACC_TEXT + ctx.code_len * 4) % 2 ^ 32 then
    match ctx.code[(address - MIPS32_PRACC_TEXT) / 4]? with
    | some data => .ret ERROR_OK (ctx, some data)
    | none => .fault
  else if address = MIPS32_PRACC_STACK then
    if 0 ≤ ctx.stack_offset - 1 then
      match ctx.stack[(ctx.stack_offset - 1).toNat]? with
      | some data =>
        .ret ERROR_OK ({ ctx with stack_offset := ctx.stack_offset - 1 }, some data)
      | none => .fault
    else .fault
  else
    .ret ERROR_JTAG_DEVICE_ERROR (ctx, none)

/-- The function `mips32_pracc_exec_write`: `data` is the word scanned from the
data register; it is stored according to `address`. -/
def mips32_pracc_exec_write (ctx : mips32_pracc_context) (address data : Nat) :
    Exec mips32_pracc_context :=
  if MIPS32_PRACC_PARAM_IN ≤ address
      ∧ address ≤ (MIPS32_PRACC_PARAM_IN + ctx.num_iparam * 4) % 2 ^ 32 then
    if (address - MIPS32_PRACC_PARAM_IN) / 4 < ctx.local_iparam.length then
      .ret ERROR_OK
        { ctx with local_iparam :=
            ctx.local_iparam.set ((address - MIPS32_PRACC_PARAM_IN) / 4) data }
    else .fault
  else if MIPS32_PRACC_PARAM_OUT ≤ address
      ∧ address ≤ (MIPS32_PRACC_PARAM_OUT + ctx.num_oparam * 4) % 2 ^ 32 then
    if (address - MIPS32_PRACC_PARAM_OUT) / 4 < ctx.local_oparam.length then
      .ret ERROR_OK
        { ctx with local_oparam :=
            ctx.local_oparam.set ((address - MIPS32_PRACC_PARAM_OUT) / 4) data }
    else .fault
  else if address = MIPS32_PRACC_STACK then
    if 0 ≤ ctx.stack_offset ∧ ctx.stack_offset.toNat < ctx.stack.length then
      .ret ERROR_OK
        { ctx with stack := ctx.stack.set ctx.stack_offset.toNat data,
                   stack_offset := ctx.stack_offset + 1 }
    else .fault
  else
    .ret ERROR_JTAG_DEVICE_ERROR ctx

/-- Local state of the loop of `mips32_pracc_exec`: the context, the `pass`
counter and the words shifted out to the target so far (oldest first). -/
structure PraccLoop where
  ctx : mips32_pracc_context
  pass : Nat
  sent : List Nat
  deriving DecidableEq, Repr

/-- Outcome of one iteration of the loop. -/
inductive PraccStep where
  | next (st : PraccLoop)
  | stop (retval : Int) (st : PraccLoop)
  | fault
  deriving DecidableEq, Repr

/-- The effect of `(address == MIPS32_PRACC_TEXT) && (pass++)` on `pass` when
the test does not leave the loop: the counter is incremented exactly when the
address is the debug vector. -/
def pracc_pass (pass address : Nat) : Nat :=
  if address = MIPS32_PRACC_TEXT then pass + 1 else pass

/-- One iteration of the `while (1)` loop of `mips32_pracc_exec`, serving the
request `r`.  Leaving the loop by `break` returns `ERROR_OK` (the stack sanity
check after the loop only logs). -/
def pracc_body (cycle : Int) (st : PraccLoop) (r : PraccRequest) : PraccStep :=
  if wait_for_pracc_rw r ≠ ERROR_OK then
    .stop (wait_for_pracc_rw r) st
  else if r.prnw then
    match mips32_pracc_exec_write st.ctx r.address r.data with
    | .fault => .fault
    | .ret retval ctx =>
      if retval ≠ ERROR_OK then .stop retval { st with ctx := ctx }
      else if cycle = 0 then .stop ERROR_OK { st with ctx := ctx }
      else .next { st with ctx := ctx }
  else if r.address = MIPS32_PRACC_TEXT ∧ st.pass ≠ 0 then
    .stop ERROR_OK { st with pass := st.pass + 1 }
  else
    match mips32_pracc_exec_read st.ctx r.address with
    | .fault => .fault
    | .ret retval (ctx, word) =>
      if retval ≠ ERROR_OK then
        .stop retval { st with ctx := ctx, pass := pracc_pass st.pass r.address }
      else if cycle = 0 then
        .stop ERROR_OK
          { ctx := ctx, pass := pracc_pass st.pass r.address, sent := st.sent ++ word.toList }
      else
        .next
          { ctx := ctx, pass := pracc_pass st.pass r.address, sent := st.sent ++ word.toList }

/-- Where a run of the loop over a request script ends: still polling when the
script is used up, returned with a status (and the unread rest of the script),
or undefined. -/
inductive PraccProgress where
  | running (st : PraccLoop)
  | returned (retval : Int) (st : PraccLoop) (rest : List PraccRequest)
  | fault
  deriving DecidableEq, Repr

/-- The `while (1)` loop of `mips32_pracc_exec` over a script of requests. -/
def pracc_loop (cycle : Int) : PraccLoop → List PraccRequest → PraccProgress
  | st, [] => .running st
  | st, r :: rs =>
    match pracc_body cycle st r with
    | .next st1 => pracc_loop cycle st1 rs
    | .stop retval st1 => .returned retval st1 rs
    | .fault => .fault

/-- The context `mips32_pracc_exec` builds from its arguments.  The stack array
is not initialised in C; no word of it is read before it has been written. -/
def pracc_init (code_len : Nat) (code : List Nat) (num_param_in : Nat)
    (param_in : List Nat) (num_param_out : Nat) (param_out : List Nat) : PraccLoop :=
  { ctx := { local_iparam := param_in, num_iparam := num_param_in,
             local_oparam := param_out, num_oparam := num_param_out,
             code := code, code_len := code_len,
             stack := List.replicate 32 0, stack_offset := 0 },
    pass := 0, sent := [] }

/-- The function `mips32_pracc_exec`, run against the request script `reqs`. -/
def mips32_pracc_exec (reqs : List PraccRequest) (code_len : Nat) (code : List Nat)
    (num_param_in : Nat) (param_in : List Nat) (num_param_out : Nat)
    (param_out : List Nat) (cycle : Int) : PraccProgress :=
  pracc_loop cycle
    (pracc_init code_len code num_param_in param_in num_param_out param_out) reqs

/-! ## Injected snippets and the memory operations built on `mips32_pracc_exec` -/

/-- The MIPS32 instruction encoders and 16-bit helpers used to write the
snippets (`MIPS32_LW`, `UPPER16`, ...).  The header that defines these macros is
not among the sources, so they are a parameter of every snippet. -/
structure Mips32Asm where
  MTC0 : Nat → Nat → Nat → Nat
  MFC0 : Nat → Nat → Nat → Nat
  LUI : Nat → Nat → Nat
  ORI : Nat → Nat → Nat → Nat
  ADDI : Nat → Nat → Nat → Nat
  SW : Nat → Nat → Nat → Nat
  SH : Nat → Nat → Nat → Nat
  SB : Nat → Nat → Nat → Nat
  LW : Nat → Nat → Nat → Nat
  LHU : Nat → Nat → Nat → Nat
  LBU : Nat → Nat → Nat → Nat
  BEQ : Nat → Nat → Nat → Nat
  BNE : Nat → Nat → Nat → Nat
  B : Nat → Nat
  NOP : Nat
  UPPER16 : Nat → Nat
  LOWER16 : Nat → Nat
  NEG16 : Nat → Nat

/-- Result of a memory operation run against a request script: it returned
`retval` leaving `val`, having shifted out `sent` and left `rest` of the script
unread; or the script ended while the PrAcc loop was still polling; or an array
was indexed outside its bounds. -/
inductive MemOp (α : Type) where
  | ret (retval : Int) (val : α) (sent : List Nat) (rest : List PraccRequest)
  | running
  | fault
  deriving DecidableEq, Repr

/-- The array `code` of `mips32_pracc_read_mem32`. -/
def mips32_pracc_read_mem32_code (asm : Mips32Asm) : List Nat :=
  [ asm.MTC0 15 31 0,
    asm.LUI 15 (asm.UPPER16 MIPS32_PRACC_STACK),
    asm.ORI 15 15 (asm.LOWER16 MIPS32_PRACC_STACK),
    asm.SW 8 0 15,
    asm.SW 9 0 15,
    asm.SW 10 0 15,
    asm.SW 11 0 15,
    asm.LUI 8 (asm.UPPER16 MIPS32_PRACC_PARAM_IN),
    asm.ORI 8 8 (asm.LOWER16 MIPS32_PRACC_PARAM_IN),
    asm.LW 9 0 8,
    asm.LW 10 4 8,
    asm.LUI 11 (asm.UPPER16 MIPS32_PRACC_PARAM_OUT),
    asm.ORI 11 11 (asm.LOWER16 MIPS32_PRACC_PARAM_OUT),
    asm.NOP,
    asm.BEQ 0 10 9,
    asm.NOP,
    asm.LW 8 0 9,
    asm.SW 8 0 11,
    asm.ADDI 10 10 (asm.NEG16 1),
    asm.ADDI 9 9 4,
    asm.ADDI 11 11 4,
    asm.NOP,
    asm.B (asm.NEG16 9),
    asm.NOP,
    asm.LW 11 0 15,
    asm.LW 10 0 15,
    asm.LW 9 0 15,
    asm.LW 8 0 15,
    asm.MFC0 15 31 0,
    asm.NOP,
    asm.B (asm.NEG16 31),
    asm.NOP ]

/-- The array `code` of `mips32_pracc_read_u32`. -/
def mips32_pracc_read_u32_code (asm : Mips32Asm) : List Nat :=
  [ asm.MTC0 15 31 0,
    asm.LUI 15 (asm.UPPER16 MIPS32_PRACC_STACK),
    asm.ORI 15 15 (asm.LOWER16 MIPS32_PRACC_STACK),
    asm.SW 8 0 15,
    asm.LW 8 (asm.NEG16 (MIPS32_PRACC_STACK - MIPS32_PRACC_PARAM_IN)) 15,
    asm.LW 8 0 8,
    asm.SW 8 (asm.NEG16 (MIPS32_PRACC_STACK - MIPS32_PRACC_PARAM_OUT)) 15,
    asm.LW 8 0 15,
    asm.B (asm.NEG16 9),
    asm.MFC0 15 31 0,
    asm.NOP ]

/-- The array `code` of `mips32_pracc_read_mem16`. -/
def mips32_pracc_read_mem16_code (asm : Mips32Asm) : List Nat :=
  [ asm.MTC0 15 31 0,
    asm.LUI 15 (asm.UPPER16 MIPS32_PRACC_STACK),
    asm.ORI 15 15 (asm.LOWER16 MIPS32_PRACC_STACK),
    asm.SW 8 0 15,
    asm.SW 9 0 15,
    asm.SW 10 0 15,
    asm.SW 11 0 15,
    asm.LUI 8 (asm.UPPER16 MIPS32_PRACC_PARAM_IN),
    asm.ORI 8 8 (asm.LOWER16 MIPS32_PRACC_PARAM_IN),
    asm.LW 9 0 8,
    asm.LW 10 4 8,
    asm.LUI 11 (asm.UPPER16 MIPS32_PRACC_PARAM_OUT),
    asm.ORI 11 11 (asm.LOWER16 MIPS32_PRACC_PARAM_OUT),
    asm.NOP,
    asm.BEQ 0 10 9,
    asm.NOP,
    asm.LHU 8 0 9,
    asm.SW 8 0 11,
    asm.ADDI 10 10 (asm.NEG16 1),
    asm.ADDI 9 9 2,
    asm.ADDI 11 11 4,
    asm.NOP,
    asm.B (asm.NEG16 9),
    asm.NOP,
    asm.LW 11 0 15,
    asm.LW 10 0 15,
    asm.LW 9 0 15,
    asm.LW 8 0 15,
    asm.MFC0 15 31 0,
    asm.NOP,
    asm.B (asm.NEG16 31),
    asm.NOP ]

/-- The array `code` of `mips32_pracc_read_mem8`. -/
def mips32_pracc_read_mem8_code (asm : Mips32Asm) : List Nat :=
  [ asm.MTC0 15 31 0,
    asm.LUI 15 (asm.UPPER16 MIPS32_PRACC_STACK),
    asm.ORI 15 15 (asm.LOWER16 MIPS32_PRACC_STACK),
    asm.SW 8 0 15,
    asm.SW 9 0 15,
    asm.SW 10 0 15,
    asm.SW 11 0 15,
    asm.LUI 8 (asm.UPPER16 MIPS32_PRACC_PARAM_IN),
    asm.ORI 8 8 (asm.LOWER16 MIPS32_PRACC_PARAM_IN),
    asm.LW 9 0 8,
    asm.LW 10 4 8,
    asm.LUI 11 (asm.UPPER16 MIPS32_PRACC_PARAM_OUT),
    asm.ORI 11 11 (asm.LOWER16 MIPS32_PRACC_PARAM_OUT),
    asm.NOP,
    asm.BEQ 0 10 9,
    asm.NOP,
    asm.LBU 8 0 9,
    asm.SW 8 0 11,
    asm.ADDI 10 10 (asm.NEG16 1),
    asm.ADDI 9 9 1,
    asm.ADDI 11 11 4,
    asm.NOP,
    asm.B (asm.NEG16 9),
    asm.NOP,
    asm.LW 11 0 15,
    asm.LW 10 0 15,
    asm.LW 9 0 15,
    asm.LW 8 0 15,
    asm.MFC0 15 31 0,
    asm.NOP,
    asm.B (asm.NEG16 31),
    asm.NOP ]

/-- The array `code` of `mips32_pracc_write_mem32`. -/
def mips32_pracc_write_mem32_code (asm : Mips32Asm) : List Nat :=
  [ asm.MTC0 15 31 0,
    asm.LUI 15 (asm.UPPER16 MIPS32_PRACC_STACK),
    asm.ORI 15 15 (asm.LOWER16 MIPS32_PRACC_STACK),
    asm.SW 8 0 15,
    asm.SW 9 0 15,
    asm.SW 10 0 15,
    asm.SW 11 0 15,
    asm.ADDI 8 15 (asm.NEG16 (MIPS32_PRACC_STACK - MIPS32_PRACC_PARAM_IN)),
    asm.LW 9 0 8,
    asm.LW 10 4 8,
    asm.ADDI 8 8 8,
    asm.LW 11 0 8,
    asm.SW 11 0 9,
    asm.ADDI 9 9 4,
    asm.BNE 10 9 (asm.NEG16 4),
    asm.ADDI 8 8 4,
    asm.LW 11 0 15,
    asm.LW 10 0 15,
    asm.LW 9 0 15,
    asm.LW 8 0 15,
    asm.B (asm.NEG16 21),
    asm.MFC0 15 31 0,
    asm.NOP ]

/-- The array `code` of `mips32_pracc_write_u32`. -/
def mips32_pracc_write_u32_code (asm : Mips32Asm) : List Nat :=
  [ asm.MTC0 15 31 0,
    asm.LUI 15 (asm.UPPER16 MIPS32_PRACC_STACK),
    asm.ORI 15 15 (asm.LOWER16 MIPS32_PRACC_STACK),
    asm.SW 8 0 15,
    asm.SW 9 0 15,
    asm.LW 8 (asm.NEG16 ((MIPS32_PRACC_STACK - MIPS32_PRACC_PARAM_IN) - 4)) 15,
    asm.LW 9 (asm.NEG16 (MIPS32_PRACC_STACK - MIPS32_PRACC_PARAM_IN)) 15,
    asm.SW 8 0 9,
    asm.LW 9 0 15,
    asm.LW 8 0 15,
    asm.B (asm.NEG16 11),
    asm.MFC0 15 31 0,
    asm.NOP ]

/-- The array `code` of `mips32_pracc_write_mem16`. -/
def mips32_pracc_write_mem16_code (asm : Mips32Asm) : List Nat :=
  [ asm.MTC0 15 31 0,
    asm.LUI 15 (asm.UPPER16 MIPS32_PRACC_STACK),
    asm.ORI 15 15 (asm.LOWER16 MIPS32_PRACC_STACK),
    asm.SW 8 0 15,
    asm.SW 9 0 15,
    asm.SW 10 0 15,
    asm.SW 11 0 15,
    asm.LUI 8 (asm.UPPER16 MIPS32_PRACC_PARAM_IN),
    asm.ORI 8 8 (asm.LOWER16 MIPS32_PRACC_PARAM_IN),
    asm.LW 9 0 8,
    asm.LW 10 4 8,
    asm.ADDI 8 8 8,
    asm.NOP,
    asm.BEQ 0 10 9,
    asm.NOP,
    asm.LW 11 0 8,
    asm.SH 11 0 9,
    asm.ADDI 10 10 (asm.NEG16 1),
    asm.ADDI 9 9 2,
    asm.ADDI 8 8 4,
    asm.NOP,
    asm.B (asm.NEG16 9),
    asm.NOP,
    asm.LW 11 0 15,
    asm.LW 10 0 15,
    asm.LW 9 0 15,
    asm.LW 8 0 15,
    asm.MFC0 15 31 0,
    asm.NOP,
    asm.B (asm.NEG16 30),
    asm.NOP ]

/-- The array `code` of `mips32_pracc_write_mem8`. -/
def mips32_pracc_write_mem8_code (asm : Mips32Asm) : List Nat :=
  [ asm.MTC0 15 31 0,
    asm.LUI 15 (asm.UPPER16 MIPS32_PRACC_STACK),
    asm.ORI 15 15 (asm.LOWER16 MIPS32_PRACC_STACK),
    asm.SW 8 0 15,
    asm.SW 9 0 15,
    asm.SW 10 0 15,
    asm.SW 11 0 15,
    asm.LUI 8 (asm.UPPER16 MIPS32_PRACC_PARAM_IN),
    asm.ORI 8 8 (asm.LOWER16 MIPS32_PRACC_PARAM_IN),
    asm.LW 9 0 8,
    asm.LW 10 4 8,
    asm.ADDI 8 8 8,
    asm.NOP,
    asm.BEQ 0 10 9,
    asm.NOP,
    asm.LW 11 0 8,
    asm.SB 11 0 9,
    asm.ADDI 10 10 (asm.NEG16 1),
    asm.ADDI 9 9 1,
    asm.ADDI 8 8 4,
    asm.NOP,
    asm.B (asm.NEG16 9),
    asm.NOP,
    asm.LW 11 0 15,
    asm.LW 10 0 15,
    asm.LW 9 0 15,
    asm.LW 8 0 15,
    asm.MFC0 15 31 0,
    asm.NOP,
    asm.B (asm.NEG16 30),
    asm.NOP ]

/-- Turn the outcome of `mips32_pracc_exec` into the outcome of the calling
memory operation, whose status and buffer are computed by `k` from the status
and final loop state of the call. -/
def MemOp.ofExec {α : Type} (p : PraccProgress) (k : Int → PraccLoop → Int × α) : MemOp α :=
  match p with
  | .returned retval st rest => .ret (k retval st).1 (k retval st).2 st.sent rest
  | .running _ => .running
  | .fault => .fault

/-- The loop of `mips32_pracc_read_mem32`: `count` words still to read, `addr`
and `bytesread` as in the source, `buf` the caller's array, `sent` the words
shifted out by the earlier blocks. -/
def mips32_pracc_read_mem32_loop (asm : Mips32Asm) (count : Nat) (reqs : List PraccRequest)
    (addr : Nat) (buf : List Nat) (bytesread : Nat) (sent : List Nat) : MemOp (List Nat) :=
  if _h : 0 < count then
    let blocksize := if count > 0x400 then 0x400 else count
    let param_in := [addr, blocksize]
    match mips32_pracc_exec reqs (mips32_pracc_read_mem32_code asm).length
        (mips32_pracc_read_mem32_code asm) param_in.length param_in blocksize
        (buf.drop bytesread) 1 with
    | .fault => .fault
    | .running _ => .running
    | .returned retval st rest =>
      if retval ≠ ERROR_OK then
        .ret retval (buf.take bytesread ++ st.ctx.local_oparam) (sent ++ st.sent) rest
      else
        mips32_pracc_read_mem32_loop asm (count - blocksize) rest
          ((addr + blocksize) % 2 ^ 32) (buf.take bytesread ++ st.ctx.local_oparam)
          (bytesread + blocksize) (sent ++ st.sent)
  else
    .ret ERROR_OK buf sent reqs
termination_by count
decreasing_by
  simp only [gt_iff_lt]
  split <;> omega

/-- The function `mips32_pracc_read_mem32`. -/
def mips32_pracc_read_mem32 (asm : Mips32Asm) (reqs : List PraccRequest)
    (addr count : Nat) (buf : List Nat) : MemOp (List Nat) :=
  mips32_pracc_read_mem32_loop asm count reqs addr buf 0 []

/-- The function `mips32_pracc_read_u32`.  The caller's `buf` is the output
buffer; the declared number of output parameters is `sizeof(uint32_t)`. -/
def mips32_pracc_read_u32 (asm : Mips32Asm) (reqs : List PraccRequest)
    (addr : Nat) (buf : List Nat) : MemOp (List Nat) :=
  let param_in := [addr]
  MemOp.ofExec
    (mips32_pracc_exec reqs (mips32_pracc_read_u32_code asm).length
      (mips32_pracc_read_u32_code asm) param_in.length param_in 4 buf 1)
    (fun retval st => (retval, st.ctx.local_oparam))

/-- The function `mips32_pracc_read_mem16`.  The local array `param_out` has
`count` words (their initial contents, indeterminate in C, are taken as 0); the
status of `mips32_pracc_exec` is not looked at; the words are copied to `buf` as
16-bit values. -/
def mips32_pracc_read_mem16 (asm : Mips32Asm) (reqs : List PraccRequest)
    (addr count : Nat) (buf : List Nat) : MemOp (List Nat) :=
  let blocksize := if count > 0x400 then 0x400 else count
  let param_in := [addr, blocksize]
  MemOp.ofExec
    (mips32_pracc_exec reqs (mips32_pracc_read_mem16_code asm).length
      (mips32_pracc_read_mem16_code asm) param_in.length param_in count
      (List.replicate count 0) 1)
    (fun _ st =>
      (ERROR_OK, (st.ctx.local_oparam.take count).map (fun w => w % 2 ^ 16) ++ buf.drop count))

/-- The function `mips32_pracc_read_mem8`.  As `mips32_pracc_read_mem16`, with
8-bit values. -/
def mips32_pracc_read_mem8 (asm : Mips32Asm) (reqs : List PraccRequest)
    (addr count : Nat) (buf : List Nat) : MemOp (List Nat) :=
  let blocksize := if count > 0x400 then 0x400 else count
  let param_in := [addr, blocksize]
  MemOp.ofExec
    (mips32_pracc_exec reqs (mips32_pracc_read_mem8_code asm).length
      (mips32_pracc_read_mem8_code asm) param_in.length param_in count
      (List.replicate count 0) 1)
    (fun _ st =>
      (ERROR_OK, (st.ctx.local_oparam.take count).map (fun w => w % 2 ^ 8) ++ buf.drop count))

/-- The function `mips32_pracc_write_mem32`.  The status of
`mips32_pracc_exec` is not looked at. -/
def mips32_pracc_write_mem32 (asm : Mips32Asm) (reqs : List PraccRequest)
    (addr count : Nat) (buf : List Nat) : MemOp Unit :=
  let param_in := addr :: ((addr + count * 4) % 2 ^ 32) :: buf.take count
  MemOp.ofExec
    (mips32_pracc_exec reqs (mips32_pracc_write_mem32_code asm).length
      (mips32_pracc_write_mem32_code asm) (count + 2) param_in 0 [] 1)
    (fun _ _ => (ERROR_OK, ()))

/-- The function `mips32_pracc_write_u32`.  The status of `mips32_pracc_exec`
is not looked at. -/
def mips32_pracc_write_u32 (asm : Mips32Asm) (reqs : List PraccRequest)
    (addr word : Nat) : MemOp Unit :=
  let param_in := [addr, word]
  MemOp.ofExec
    (mips32_pracc_exec reqs (mips32_pracc_write_u32_code asm).length
      (mips32_pracc_write_u32_code asm) param_in.length param_in 0 [] 1)
    (fun _ _ => (ERROR_OK, ()))

/-- The function `mips32_pracc_write_mem16`.  The status of
`mips32_pracc_exec` is not looked at. -/
def mips32_pracc_write_mem16 (asm : Mips32Asm) (reqs : List PraccRequest)
    (addr count : Nat) (buf : List Nat) : MemOp Unit :=
  let param_in := addr :: count :: buf.take count
  MemOp.ofExec
    (mips32_pracc_exec reqs (mips32_pracc_write_mem16_code asm).length
      (mips32_pracc_write_mem16_code asm) (count + 2) param_in 0 [] 1)
    (fun _ _ => (ERROR_OK, ()))

/-- The function `mips32_pracc_write_mem8`.  It returns the status of
`mips32_pracc_exec`. -/
def mips32_pracc_write_mem8 (asm : Mips32Asm) (reqs : List PraccRequest)
    (addr count : Nat) (buf : List Nat) : MemOp Unit :=
  let param_in := addr :: count :: buf.take count
  MemOp.ofExec
    (mips32_pracc_exec reqs (mips32_pracc_write_mem8_code asm).length
      (mips32_pracc_write_mem8_code asm) (count + 2) param_in 0 [] 1)
    (fun retval _ => (retval, ()))

/-! ## Request scripts used to state the properties -/

/-- A processor read (instruction fetch or load) at `address`. -/
def pracc_load (address : Nat) : PraccRequest :=
  { pracc := true, prnw := false, address := address, data := 0 }

/-- A processor write (store) of `data` at `address`. -/
def pracc_store (address data : Nat) : PraccRequest :=
  { pracc := true, prnw := true, address := address, data := data }

/-- The fetch of code word `k` of the snippet. -/
def pracc_fetch (k : Nat) : PraccRequest :=
  pracc_load (MIPS32_PRACC_TEXT + 4 * k)

/-- A control scan that shows no processor access pending. -/
def pracc_idle : PraccRequest :=
  { pracc := false, prnw := false, address := 0, data := 0 }

/-- The exchanges of the single-word read scenario: the target fetches ten code
words starting at the debug vector, reads `PARAM_IN[0]`, writes `w` to
`PARAM_OUT[0]` and fetches the debug vector a second time. -/
def read_u32_scenario (w : Nat) : List PraccRequest :=
  (List.range 10).map pracc_fetch
    ++ [pracc_load MIPS32_PRACC_PARAM_IN, pracc_store MIPS32_PRACC_PARAM_OUT w, pracc_fetch 0]

/-- The exchanges the snippet of `mips32_pracc_read_u32` produces when a MIPS32
core runs it, stack traffic included: the store of `$8` (holding `r8`) to
`PRACC_STACK` follows the fetch of word 3, the load of `PARAM_IN[0]` the fetch
of word 4, the store of `w` to `PARAM_OUT[0]` the fetch of word 6, the reload of
`$8` the fetch of word 7; the branch and its delay slot are words 8 and 9. -/
def read_u32_trace (r8 w : Nat) : List PraccRequest :=
  [ pracc_fetch 0, pracc_fetch 1, pracc_fetch 2, pracc_fetch 3,
    pracc_store MIPS32_PRACC_STACK r8,
    pracc_fetch 4, pracc_load MIPS32_PRACC_PARAM_IN,
    pracc_fetch 5, pracc_fetch 6, pracc_store MIPS32_PRACC_PARAM_OUT w,
    pracc_fetch 7, pracc_load MIPS32_PRACC_STACK,
    pracc_fetch 8, pracc_fetch 9, pracc_fetch 0 ]

/-- Number of served processor writes at `PRACC_STACK` in a script. -/
def pracc_stack_writes (reqs : List PraccRequest) : Nat :=
  reqs.countP (fun r => r.pracc && r.prnw && decide (r.address = MIPS32_PRACC_STACK))

/-- Number of served processor reads at `PRACC_STACK` in a script. -/
def pracc_stack_reads (reqs : List PraccRequest) : Nat :=
  reqs.countP (fun r => r.pracc && !r.prnw && decide (r.address = MIPS32_PRACC_STACK))

/-- The words shifted out to the target in a run, whatever its end. -/
def PraccProgress.sent : PraccProgress → List Nat
  | .running st => st.sent
  | .returned _ st _ => st.sent
  | .fault => []

/-! ## `mips32.c`: register cache, breakpoint unit, algorithm runner -/

/-- The `enum target_state` of the target object. -/
inductive target_state where
  | TARGET_UNKNOWN
  | TARGET_RUNNING
  | TARGET_HALTED
  | TARGET_RESET
  | TARGET_DEBUG_RUNNING
  deriving DecidableEq, Repr

/-- The `enum mips32_isa_mode`. -/
inductive mips32_isa_mode where
  | MIPS32_ISA_MIPS32
  | MIPS32_ISA_MIPS16E
  deriving DecidableEq, Repr

/-- Number of entries of the core register cache, `MIPS32NUMCOREREGS`. -/
def MIPS32NUMCOREREGS : Nat := 38

/-- Index of `pc` in the register cache (the last of the 38 names of
`mips32_core_reg_list`). -/
def MIPS32_PC : Nat := 37

/-- Modelled from the spec: the magic number that marks a MIPS32 target; its
value plays no role. -/
def MIPS32_COMMON_MAGIC : Nat := 0xB320B320

/-- Modelled from the spec: `IBA1=0xFF300100`, address register of the first
instruction breakpoint. -/
def EJTAG_IBA1 : Nat := 0xFF300100

/-- Modelled from the spec: `DBA1=0xFF300200`, address register of the first
data breakpoint. -/
def EJTAG_DBA1 : Nat := 0xFF300200

/-- Addresses and bit masks of the EJTAG registers the code names
(`EJTAG_DCR`, `EJTAG_IBS`, `EJTAG_DBS`, `EJTAG_DCR_IB`, `EJTAG_DCR_DB`,
`EJTAG_DCR_INTE`).  The header that defines them is not among the sources, so
they are a parameter. -/
structure EjtagRegs where
  EJTAG_DCR : Nat
  EJTAG_IBS : Nat
  EJTAG_DBS : Nat
  EJTAG_DCR_IB : Nat
  EJTAG_DCR_DB : Nat
  EJTAG_DCR_INTE : Nat
  deriving DecidableEq, Repr

/-- One entry of the register cache (`struct reg`): the 32-bit value, the
`dirty` and `valid` flags, the size in bits and the name. -/
structure reg where
  name : String
  value : Nat
  dirty : Bool
  valid : Bool
  size : Nat
  deriving DecidableEq, Repr, Inhabited

/-- A hardware comparator (`struct mips32_comparator`). -/
structure mips32_comparator where
  used : Int
  bp_value : Nat
  reg_address : Nat
  deriving DecidableEq, Repr

/-- The target object with its MIPS32 block (`struct target` and
`struct mips32_common`), restricted to the fields the code reads or writes.
`world` stands for everything else the target-specific operations may depend
on (the hardware behind the transport). -/
structure mips32_target (W : Type) where
  state : target_state
  common_magic : Nat
  isa_mode : mips32_isa_mode
  core_regs : List Nat
  reg_list : List reg
  bp_scanned : Int
  num_inst_bpoints : Int
  num_data_bpoints : Int
  num_inst_bpoints_avail : Int
  num_data_bpoints_avail : Int
  inst_break_list : List mips32_comparator
  data_break_list : List mips32_comparator
  world : W
  deriving DecidableEq, Repr

/-- An access to target memory made through `target_read_u32` or
`target_write_u32`. -/
inductive BusOp where
  | read (address : Nat)
  | write (address value : Nat)
  deriving DecidableEq, Repr

/-- The target seen through `target_read_u32` and `target_write_u32`: the
status and value a read at an address gives, the status of a write. -/
structure TargetBus where
  read_u32 : Nat → Int × Nat
  write_u32 : Nat → Nat → Int

/-- What `mips32_configure_break_unit` leaves: its status, the target object
and the accesses it made, oldest first. -/
structure BreakUnitResult (W : Type) where
  retval : Int
  target : mips32_target W
  log : List BusOp
  deriving DecidableEq, Repr

/-- The comparator list built by `calloc` and the loop that follows it:
`n` zeroed entries, entry `i` with register address `base + 0x100 * i`. -/
def mips32_comparator_list (base n : Nat) : List mips32_comparator :=
  (List.range n).map (fun i => { used := 0, bp_value := 0, reg_address := base + 0x100 * i })

/-- The function `mips32_configure_break_unit`. -/
def mips32_configure_break_unit {W : Type} (e : EjtagRegs) (bus : TargetBus)
    (t : mips32_target W) : BreakUnitResult W :=
  if t.bp_scanned ≠ 0 then
    { retval := ERROR_OK, target := t, log := [] }
  else
    let log0 := [BusOp.read e.EJTAG_DCR]
    if (bus.read_u32 e.EJTAG_DCR).1 ≠ ERROR_OK then
      { retval := (bus.read_u32 e.EJTAG_DCR).1, target := t, log := log0 }
    else
      let dcr := (bus.read_u32 e.EJTAG_DCR).2
      -- instruction breakpoints
      let afterIB : BreakUnitResult W :=
        if dcr &&& e.EJTAG_DCR_IB ≠ 0 then
          let log1 := log0 ++ [BusOp.read e.EJTAG_IBS]
          if (bus.read_u32 e.EJTAG_IBS).1 ≠ ERROR_OK then
            { retval := (bus.read_u32 e.EJTAG_IBS).1, target := t, log := log1 }
          else
            let n := ((bus.read_u32 e.EJTAG_IBS).2 >>> 24) &&& 0x0F
            let t1 := { t with num_inst_bpoints := n, num_inst_bpoints_avail := n,
                               inst_break_list := mips32_comparator_list EJTAG_IBA1 n }
            { retval := bus.write_u32 e.EJTAG_IBS 0, target := t1,
              log := log1 ++ [BusOp.write e.EJTAG_IBS 0] }
        else
          { retval := ERROR_OK, target := t, log := log0 }
      if afterIB.retval ≠ ERROR_OK then afterIB
      else
        -- data breakpoints
        let afterDB : BreakUnitResult W :=
          if dcr &&& e.EJTAG_DCR_DB ≠ 0 then
            let log2 := afterIB.log ++ [BusOp.read e.EJTAG_DBS]
            if (bus.read_u32 e.EJTAG_DBS).1 ≠ ERROR_OK then
              { retval := (bus.read_u32 e.EJTAG_DBS).1, target := afterIB.target, log := log2 }
            else
              let n := ((bus.read_u32 e.EJTAG_DBS).2 >>> 24) &&& 0x0F
              let t2 := { afterIB.target with
                            num_data_bpoints := n, num_data_bpoints_avail := n,
                            data_break_list := mips32_comparator_list EJTAG_DBA1 n }
              { retval := bus.write_u32 e.EJTAG_DBS 0, target := t2,
                log := log2 ++ [BusOp.write e.EJTAG_DBS 0] }
          else afterIB
        if afterDB.retval ≠ ERROR_OK then afterDB
        else { afterDB with retval := ERROR_OK,
                            target := { afterDB.target with bp_scanned := 1 } }

/-- Direction of an algorithm parameter (`enum param_direction`). -/
inductive param_direction where
  | PARAM_IN
  | PARAM_OUT
  | PARAM_IN_OUT
  deriving DecidableEq, Repr

/-- A memory parameter of an algorithm (`struct mem_param`). -/
structure mem_param where
  address : Nat
  size : Nat
  value : List Nat
  direction : param_direction
  deriving DecidableEq, Repr

/-- A register parameter of an algorithm (`struct reg_param`); `value` is the
32-bit content of its buffer. -/
structure reg_param where
  reg_name : String
  size : Nat
  value : Nat
  direction : param_direction
  deriving DecidableEq, Repr

/-- The `struct mips32_algorithm` handed to the runner. -/
structure mips32_algorithm where
  common_magic : Nat
  isa_mode : mips32_isa_mode
  deriving DecidableEq, Repr

/-- The target operations `mips32.c` calls and does not define: each takes the
target object and returns a status with the target object it leaves (resume and
the polling inside `target_wait_state` run the target-specific debug entry,
which rewrites the register cache). -/
structure TargetOps (W : Type) where
  target_resume : mips32_target W → Int → Nat → Int → Int → Int × mips32_target W
  target_wait_state : mips32_target W → target_state → Int → Int × mips32_target W
  target_halt : mips32_target W → Int × mips32_target W
  target_write_buffer : mips32_target W → Nat → Nat → List Nat → Int × mips32_target W
  target_read_buffer : mips32_target W → Nat → Nat → Int × List Nat × mips32_target W

/-- What `mips32_run_algorithm` leaves: status, target object and the
parameter records with the values read back. -/
structure AlgoResult (W : Type) where
  retval : Int
  target : mips32_target W
  mem_params : List mem_param
  reg_params : List reg_param
  deriving DecidableEq, Repr

/-- The function `mips32_read_core_reg`: copy `core_regs[num]` into the cache
entry and mark it valid and clean. -/
def mips32_read_core_reg {W : Type} (t : mips32_target W) (num : Nat) :
    Int × mips32_target W :=
  if num ≥ MIPS32NUMCOREREGS then (ERROR_INVALID_ARGUMENTS, t)
  else
    (ERROR_OK,
      { t with
          reg_list := t.reg_list.set num
            { (t.reg_list.getD num default) with
                value := t.core_regs.getD num 0, valid := true, dirty := false } })

/-- The function `mips32_set_core_reg` on cache entry `num`. -/
def mips32_set_core_reg {W : Type} (t : mips32_target W) (num value : Nat) :
    Int × mips32_target W :=
  if t.state ≠ .TARGET_HALTED then (ERROR_TARGET_NOT_HALTED, t)
  else
    (ERROR_OK,
      { t with
          reg_list := t.reg_list.set num
            { (t.reg_list.getD num default) with value := value, dirty := true, valid := true } })

/-- Modelled from the spec: `register_get_by_name`, the lookup of a register of
the cache by its name (the register module is not among the sources); the
result is the index of the entry, or nothing when no entry has that name. -/
def register_get_by_name (reg_list : List reg) (name : String) : Option Nat :=
  (List.range reg_list.length).find? (fun i => (reg_list.getD i default).name = name)

/-- One pass of the loop "refresh core register cache" of
`mips32_run_algorithm`: read the entry when it is not valid, then save its value
in `context`. -/
def mips32_refresh_step {W : Type} (acc : mips32_target W × List Nat) (i : Nat) :
    mips32_target W × List Nat :=
  let t1 := if (acc.1.reg_list.getD i default).valid = false
            then (mips32_read_core_reg acc.1 i).2 else acc.1
  (t1, acc.2 ++ [(t1.reg_list.getD i default).value])

/-- The loop "refresh core register cache": the target with its cache
refreshed, and the array `context`. -/
def mips32_refresh {W : Type} (t : mips32_target W) : mips32_target W × List Nat :=
  (List.range MIPS32NUMCOREREGS).foldl mips32_refresh_step (t, [])

/-- The loop that writes the memory parameters to the target. -/
def mips32_write_mem_params {W : Type} (ops : TargetOps W) :
    List mem_param → mips32_target W → Int × mips32_target W
  | [], t => (ERROR_OK, t)
  | p :: ps, t =>
    if (ops.target_write_buffer t p.address p.size p.value).1 ≠ ERROR_OK then
      ops.target_write_buffer t p.address p.size p.value
    else
      mips32_write_mem_params ops ps (ops.target_write_buffer t p.address p.size p.value).2

/-- The loop that puts the register parameters into the cache.  The status of
`mips32_set_core_reg` is not looked at. -/
def mips32_set_reg_params {W : Type} :
    List reg_param → mips32_target W → Int × mips32_target W
  | [], t => (ERROR_OK, t)
  | p :: ps, t =>
    match register_get_by_name t.reg_list p.reg_name with
    | none => (ERROR_INVALID_ARGUMENTS, t)
    | some num =>
      if (t.reg_list.getD num default).size ≠ p.size then (ERROR_INVALID_ARGUMENTS, t)
      else mips32_set_reg_params ps (mips32_set_core_reg t num p.value).2

/-- The function `mips32_run_and_wait`. -/
def mips32_run_and_wait {W : Type} (ops : TargetOps W) (t : mips32_target W)
    (entry_point : Nat) (timeout_ms : Int) (exit_point : Nat) : Int × mips32_target W :=
  if (ops.target_resume t 0 entry_point 0 1).1 ≠ ERROR_OK then
    ops.target_resume t 0 entry_point 0 1
  else
    let t1 := (ops.target_resume t 0 entry_point 0 1).2
    let w := ops.target_wait_state t1 .TARGET_HALTED timeout_ms
    if w.1 ≠ ERROR_OK ∨ w.2.state ≠ .TARGET_HALTED then
      if (ops.target_halt w.2).1 ≠ ERROR_OK then ops.target_halt w.2
      else
        let t3 := (ops.target_halt w.2).2
        if (ops.target_wait_state t3 .TARGET_HALTED 500).1 ≠ ERROR_OK then
          ops.target_wait_state t3 .TARGET_HALTED 500
        else (ERROR_TARGET_TIMEOUT, (ops.target_wait_state t3 .TARGET_HALTED 500).2)
    else
      let pc := (w.2.reg_list.getD MIPS32_PC default).value
      if exit_point ≠ 0 ∧ pc ≠ exit_point then (ERROR_TARGET_TIMEOUT, w.2)
      else (ERROR_OK, w.2)

/-- The loop that reads the memory parameters back (all but `PARAM_OUT`). -/
def mips32_read_mem_params {W : Type} (ops : TargetOps W) :
    List mem_param → mips32_target W → Int × mips32_target W × List mem_param
  | [], t => (ERROR_OK, t, [])
  | p :: ps, t =>
    if p.direction ≠ .PARAM_OUT then
      let r := ops.target_read_buffer t p.address p.size
      if r.1 ≠ ERROR_OK then (r.1, r.2.2, { p with value := r.2.1 } :: ps)
      else
        let rest := mips32_read_mem_params ops ps r.2.2
        (rest.1, rest.2.1, { p with value := r.2.1 } :: rest.2.2)
    else
      let rest := mips32_read_mem_params ops ps t
      (rest.1, rest.2.1, p :: rest.2.2)

/-- The loop that reads the register parameters back (all but `PARAM_OUT`). -/
def mips32_read_reg_params (reg_list : List reg) : List reg_param → Int × List reg_param
  | [] => (ERROR_OK, [])
  | p :: ps =>
    if p.direction ≠ .PARAM_OUT then
      match register_get_by_name reg_list p.reg_name with
      | none => (ERROR_INVALID_ARGUMENTS, p :: ps)
      | some num =>
        if (reg_list.getD num default).size ≠ p.size then (ERROR_INVALID_ARGUMENTS, p :: ps)
        else
          let rest := mips32_read_reg_params reg_list ps
          (rest.1, { p with value := (reg_list.getD num default).value } :: rest.2)
    else
      let rest := mips32_read_reg_params reg_list ps
      (rest.1, p :: rest.2)

/-- One pass of the loop "restore everything we saved before": an entry whose
value differs from `context[i]` gets that value back and is marked valid and
dirty. -/
def mips32_restore_step (context : List Nat) (reg_list : List reg) (i : Nat) : List reg :=
  if (reg_list.getD i default).value ≠ context.getD i 0 then
    reg_list.set i
      { (reg_list.getD i default) with value := context.getD i 0, valid := true, dirty := true }
  else reg_list

/-- The loop "restore everything we saved before". -/
def mips32_restore (context : List Nat) (reg_list : List reg) : List reg :=
  (List.range MIPS32NUMCOREREGS).foldl (mips32_restore_step context) reg_list

/-- The part of `mips32_run_algorithm` before the restore loop: checks, refresh
of the cache, parameters in, the run itself, parameters out.  The result is the
state at that point together with the array `context`. -/
def mips32_run_algorithm_run {W : Type} (ops : TargetOps W) (t : mips32_target W)
    (mem_params : List mem_param) (reg_params : List reg_param)
    (entry_point exit_point : Nat) (timeout_ms : Int) (info : mips32_algorithm) :
    AlgoResult W × List Nat :=
  if t.common_magic ≠ MIPS32_COMMON_MAGIC then
    (⟨ERROR_TARGET_INVALID, t, mem_params, reg_params⟩, [])
  else if t.state ≠ .TARGET_HALTED then
    (⟨ERROR_TARGET_NOT_HALTED, t, mem_params, reg_params⟩, [])
  else
    let context := (mips32_refresh t).2
    let w := mips32_write_mem_params ops mem_params (mips32_refresh t).1
    if w.1 ≠ ERROR_OK then (⟨w.1, w.2, mem_params, reg_params⟩, context)
    else
      let s := mips32_set_reg_params reg_params w.2
      if s.1 ≠ ERROR_OK then (⟨s.1, s.2, mem_params, reg_params⟩, context)
      else
        let r := mips32_run_and_wait ops { s.2 with isa_mode := info.isa_mode }
                   entry_point timeout_ms exit_point
        if r.1 ≠ ERROR_OK then (⟨r.1, r.2, mem_params, reg_params⟩, context)
        else
          let m := mips32_read_mem_params ops mem_params r.2
          if m.1 ≠ ERROR_OK then (⟨m.1, m.2.1, m.2.2, reg_params⟩, context)
          else
            let g := mips32_read_reg_params m.2.1.reg_list reg_params
            (⟨g.1, m.2.1, m.2.2, g.2⟩, context)

/-- The function `mips32_run_algorithm`: on every error the function returns at
once; otherwise the register cache is restored from `context`, `isa_mode` is set
back to its value on entry and the status is `ERROR_OK`. -/
def mips32_run_algorithm {W : Type} (ops : TargetOps W) (t : mips32_target W)
    (mem_params : List mem_param) (reg_params : List reg_param)
    (entry_point exit_point : Nat) (timeout_ms : Int) (info : mips32_algorithm) :
    AlgoResult W :=
  let r := mips32_run_algorithm_run ops t mem_params reg_params entry_point exit_point
             timeout_ms info
  if r.1.retval ≠ ERROR_OK then r.1
  else
    { r.1 with retval := ERROR_OK,
               target := { r.1.target with
                             reg_list := mips32_restore r.2 r.1.target.reg_list,
                             isa_mode := t.isa_mode } }

/-- A halted MIPS32 target whose register cache has its 38 entries, all valid
and holding 0. -/
def algorithm_target : mips32_target Unit :=
  { state := .TARGET_HALTED, common_magic := MIPS32_COMMON_MAGIC,
    isa_mode := .MIPS32_ISA_MIPS32, core_regs := List.replicate 38 0,
    reg_list := List.replicate 38
      { name := "r", value := 0, dirty := false, valid := true, size := 32 },
    bp_scanned := 0, num_inst_bpoints := 0, num_data_bpoints := 0,
    num_inst_bpoints_avail := 0, num_data_bpoints_avail := 0, inst_break_list := [],
    data_break_list := [], world := () }

/-- Target operations of a run that comes back halted: the resume leaves the
cache as the debug entry reads it back, with `v2` in register 2 and `pc` in the
PC entry; when `halts` is false the target is still running after the wait. -/
def algorithm_ops (v2 pc : Nat) (halts : Bool) : TargetOps Unit :=
  { target_resume := fun t _ _ _ _ =>
      (ERROR_OK,
        { t with
            state := .TARGET_RUNNING,
            reg_list := (t.reg_list.set 2
                { name := "r", value := v2, dirty := false, valid := true, size := 32 }).set
              MIPS32_PC { name := "r", value := pc, dirty := false, valid := true, size := 32 } }),
    target_wait_state := fun t _ _ =>
      (ERROR_OK, if halts then { t with state := .TARGET_HALTED } else t),
    target_halt := fun t => (ERROR_OK, { t with state := .TARGET_HALTED }),
    target_write_buffer := fun t _ _ _ => (ERROR_OK, t),
    target_read_buffer := fun t _ _ => (ERROR_OK, [], t) }

/-! ## `cortex_a9.c`: the debug access port and the instruction channel -/

/-- Status `ERROR_FAIL`. -/
def ERROR_FAIL : Int := -4

/-- The AP used for memory accesses, `swjdp_memoryap`. -/
def swjdp_memoryap : Nat := 0

/-- The AP used for the debug registers, `swjdp_debugap`. -/
def swjdp_debugap : Nat := 1

/-- Register offsets of the CPUDBG block and the bits of DSCR and DRCR.  They
come from a header that is not among the sources and are parameters. -/
structure CpuDbg where
  CPUDBG_DSCR : Nat
  CPUDBG_DRCR : Nat
  CPUDBG_ITR : Nat
  CPUDBG_DTRRX : Nat
  CPUDBG_DTRTX : Nat
  CPUDBG_BVR_BASE : Nat
  CPUDBG_BCR_BASE : Nat
  DSCR_CORE_HALTED : Nat
  DSCR_CORE_RESTARTED : Nat
  DSCR_ITR_EN : Nat
  DSCR_INSTR_COMP : Nat
  DSCR_DTR_RX_FULL : Nat
  DSCR_DTR_TX_FULL : Nat
  DSCR_HALT_DBG_MODE : Nat
  DRCR_HALT : Nat
  DRCR_RESTART : Nat
  DRCR_CLEAR_EXCEPTIONS : Nat

/-- The opcode builders of `arm_opcodes.h`, which is not among the sources:
parameters. -/
structure ArmOpcodes where
  ARMV4_5_MRC : Nat → Nat → Nat → Nat → Nat → Nat → Nat
  ARMV4_5_MCR : Nat → Nat → Nat → Nat → Nat → Nat → Nat
  ARMV4_5_MSR_GP : Nat → Nat → Nat → Nat
  ARMV5_BKPT : Nat → Nat
  ARMV5_T_BKPT : Nat → Nat

/-- What the transport answers to one operation: its status, the word a read
delivers, and whether the test `timeval_ms() > then + 1000` that follows the
operation in a polling loop finds the second elapsed. -/
structure DapReply where
  retval : Int
  value : Nat
  late : Bool
  deriving DecidableEq, Repr

/-- A transport operation as it went over the wire: a read with the word it
delivered, or a write. -/
inductive DapOp where
  | read (address value : Nat)
  | write (address value : Nat)
  deriving DecidableEq, Repr

/-- The `enum arm_state` of the core. -/
inductive arm_state where
  | ARM_STATE_ARM
  | ARM_STATE_THUMB
  | ARM_STATE_JAZELLE
  | ARM_STATE_THUMB_EE
  deriving DecidableEq, Repr

/-- The events `cortex_a9.c` hands to `target_call_event_callbacks`. -/
inductive target_event where
  | TARGET_EVENT_HALTED
  | TARGET_EVENT_DEBUG_HALTED
  | TARGET_EVENT_RESUMED
  | TARGET_EVENT_DEBUG_RESUMED
  deriving DecidableEq, Repr

/-- The values of `target->debug_reason` that `cortex_a9_halt` and
`cortex_a9_resume` assign; `other` stands for the rest. -/
inductive target_debug_reason where
  | DBG_REASON_DBGRQ
  | DBG_REASON_NOTHALTED
  | other
  deriving DecidableEq, Repr

/-- The kinds of breakpoint register pair, `BRP_NORMAL` and `BRP_CONTEXT`. -/
inductive cortex_a9_brp_type where
  | BRP_NORMAL
  | BRP_CONTEXT
  deriving DecidableEq, Repr

/-- A breakpoint register pair (`struct cortex_a9_brp`). -/
structure cortex_a9_brp where
  used : Int
  type : cortex_a9_brp_type
  value : Nat
  control : Nat
  BRPn : Nat
  deriving DecidableEq, Repr

/-- The target object with its Cortex-A9 block (`struct target`,
`struct cortex_a9_common`, the DAP), restricted to the fields the code reads or
writes.  `apsel` is the AP selected in the DAP; `replies` is what the transport
will answer to the operations to come and `log` the operations made so far,
oldest first; `events` are the events fired and `dpm_log` the calls of
`instr_write_data_r0` (opcode, data), oldest first; `world` stands for
everything else. -/
structure cortex_a9_target (W : Type) where
  state : target_state
  debug_reason : target_debug_reason
  apsel : Nat
  replies : List DapReply
  log : List DapOp
  debug_base : Nat
  cpudbg_dscr : Nat
  core_state : arm_state
  pc : reg
  events : List target_event
  brp_num : Int
  brp_num_context : Int
  brp_num_available : Int
  brp_list : List cortex_a9_brp
  i_cache_enabled : Bool
  d_u_cache_enabled : Bool
  dpm_log : List (Nat × Nat)
  world : W

/-- Result of a C function that talks to the target: it returned `retval` and
left `val`; or the replies of the transport ran out before it returned; or it
indexed an array outside its bounds. -/
inductive DapRun (α : Type) where
  | ret (retval : Int) (val : α)
  | starved
  | fault

/-- Continue with `k` after a call that returned. -/
def DapRun.andThen {α β : Type} (r : DapRun α) (k : Int → α → DapRun β) : DapRun β :=
  match r with
  | .ret retval val => k retval val
  | .starved => .starved
  | .fault => .fault

/-- Modelled from the spec: `dap_ap_select`, which makes `apsel` the AP that
the following transport operations address (the DAP module is not among the
sources). -/
def dap_ap_select {W : Type} (t : cortex_a9_target W) (apsel : Nat) : cortex_a9_target W :=
  { t with apsel := apsel }

/-- Modelled from the spec: `dap_ap_get_select`, the AP currently selected. -/
def dap_ap_get_select {W : Type} (t : cortex_a9_target W) : Nat :=
  t.apsel

/-- One read over the transport (`mem_ap_read_atomic_u32`): status, the word
delivered, the reading of the clock test that may follow, and the target with
the operation logged. -/
def mem_ap_read_atomic_u32 {W : Type} (t : cortex_a9_target W) (address : Nat) :
    DapRun (Nat × Bool × cortex_a9_target W) :=
  match t.replies with
  | [] => .starved
  | r :: rest =>
    .ret r.retval
      (r.value, r.late, { t with replies := rest, log := t.log ++ [.read address r.value] })

/-- One write over the transport (`mem_ap_write_atomic_u32`). -/
def mem_ap_write_atomic_u32 {W : Type} (t : cortex_a9_target W) (address value : Nat) :
    DapRun (cortex_a9_target W) :=
  match t.replies with
  | [] => .starved
  | r :: rest =>
    .ret r.retval { t with replies := rest, log := t.log ++ [.write address value] }

/-- One write over the transport (`mem_ap_write_u32`). -/
def mem_ap_write_u32 {W : Type} (t : cortex_a9_target W) (address value : Nat) :
    DapRun (cortex_a9_target W) :=
  mem_ap_write_atomic_u32 t address value

/-- The first loop of `cortex_a9_exec_opcode`,
`while ((dscr & DSCR_INSTR_COMP) == 0)`: at most `fuel` passes. -/
def cortex_a9_exec_opcode_wait {W : Type} (c : CpuDbg) :
    Nat → cortex_a9_target W → Nat → DapRun (Nat × cortex_a9_target W)
  | 0, _, _ => .starved
  | fuel + 1, t, dscr =>
    if dscr &&& c.DSCR_INSTR_COMP = 0 then
      (mem_ap_read_atomic_u32 t ((t.debug_base + c.CPUDBG_DSCR) % 2 ^ 32)).andThen
        fun retval r =>
          if retval ≠ ERROR_OK then .ret retval (dscr, r.2.2)
          else if r.2.1 then .ret ERROR_FAIL (r.1, r.2.2)
          else cortex_a9_exec_opcode_wait c fuel r.2.2 r.1
    else .ret ERROR_OK (dscr, t)

/-- The second loop of `cortex_a9_exec_opcode`,
`do ... while ((dscr & DSCR_INSTR_COMP) == 0)`: at most `fuel` passes. -/
def cortex_a9_exec_opcode_done {W : Type} (c : CpuDbg) :
    Nat → cortex_a9_target W → Nat → DapRun (Nat × cortex_a9_target W)
  | 0, _, _ => .starved
  | fuel + 1, t, dscr =>
    (mem_ap_read_atomic_u32 t ((t.debug_base + c.CPUDBG_DSCR) % 2 ^ 32)).andThen
      fun retval r =>
        if retval ≠ ERROR_OK then .ret retval (dscr, r.2.2)
        else if r.2.1 then .ret ERROR_FAIL (r.1, r.2.2)
        else if r.1 &&& c.DSCR_INSTR_COMP = 0 then cortex_a9_exec_opcode_done c fuel r.2.2 r.1
        else .ret ERROR_OK (r.1, r.2.2)

/-- The function `cortex_a9_exec_opcode`.  `dscr_p` is `none` for a NULL
pointer; the value returned with the target is what `*dscr_p` holds on return.
Each pass of a loop makes one transport operation, so a loop that is given one
pass more than there are replies left never stops for lack of passes. -/
def cortex_a9_exec_opcode {W : Type} (c : CpuDbg) (t : cortex_a9_target W)
    (opcode : Nat) (dscr_p : Option Nat) : DapRun (Option Nat × cortex_a9_target W) :=
  (cortex_a9_exec_opcode_wait c (t.replies.length + 1) t (dscr_p.getD 0)).andThen
    fun retval w =>
      if retval ≠ ERROR_OK then .ret retval (dscr_p, w.2)
      else
        (mem_ap_write_u32 w.2 ((w.2.debug_base + c.CPUDBG_ITR) % 2 ^ 32) opcode).andThen
          fun retval t1 =>
            if retval ≠ ERROR_OK then .ret retval (dscr_p, t1)
            else
              (cortex_a9_exec_opcode_done c (t1.replies.length + 1) t1 w.1).andThen
                fun retval d =>
                  if retval ≠ ERROR_OK then .ret retval (dscr_p, d.2)
                  else .ret retval (dscr_p.map (fun _ => d.1), d.2)

/-- The function `cortex_a9_dap_write_coreregister_u32`. -/
def cortex_a9_dap_write_coreregister_u32 {W : Type} (c : CpuDbg) (a : ArmOpcodes)
    (t : cortex_a9_target W) (value : Nat) (regnum : Int) : DapRun (cortex_a9_target W) :=
  let Rd := (regnum % 256).toNat
  (mem_ap_read_atomic_u32 t ((t.debug_base + c.CPUDBG_DSCR) % 2 ^ 32)).andThen
    fun retval r =>
      if retval ≠ ERROR_OK then .ret retval r.2.2
      else
        -- Check that DCCRX is not full
        (if r.1 &&& c.DSCR_DTR_RX_FULL ≠ 0 then
            cortex_a9_exec_opcode c r.2.2 (a.ARMV4_5_MRC 14 0 0 0 5 0) (some r.1)
          else .ret retval (some r.1, r.2.2)).andThen
          fun retval p =>
            if retval ≠ ERROR_OK then .ret retval p.2
            else if Rd > 17 then .ret retval p.2
            else
              (mem_ap_write_u32 p.2 ((p.2.debug_base + c.CPUDBG_DTRRX) % 2 ^ 32) value).andThen
                fun retval t1 =>
                  if retval ≠ ERROR_OK then .ret retval t1
                  else if Rd < 15 then
                    (cortex_a9_exec_opcode c t1 (a.ARMV4_5_MRC 14 0 Rd 0 5 0) p.1).andThen
                      fun retval q => .ret retval q.2
                  else if Rd = 15 then
                    (cortex_a9_exec_opcode c t1 (a.ARMV4_5_MRC 14 0 0 0 5 0) p.1).andThen
                      fun retval q =>
                        if retval ≠ ERROR_OK then .ret retval q.2
                        else
                          (cortex_a9_exec_opcode c q.2 0xE1A0F000 q.1).andThen
                            fun retval q1 => .ret retval q1.2
                  else
                    (cortex_a9_exec_opcode c t1 (a.ARMV4_5_MRC 14 0 0 0 5 0) p.1).andThen
                      fun retval q =>
                        if retval ≠ ERROR_OK then .ret retval q.2
                        else
                          (cortex_a9_exec_opcode c q.2 (a.ARMV4_5_MSR_GP 0 0xF (Rd &&& 1))
                              q.1).andThen
                            fun retval q1 =>
                              if retval ≠ ERROR_OK then .ret retval q1.2
                              else if Rd = 16 then
                                -- "Prefetch flush" after modifying execution status in CPSR
                                (cortex_a9_exec_opcode c q1.2 (a.ARMV4_5_MCR 15 0 0 7 5 4)
                                    q1.1).andThen
                                  fun retval q2 => .ret retval q2.2
                              else .ret retval q1.2

/-- The opcodes written to ITR among the operations of a log, oldest first. -/
def itr_writes (itr : Nat) (log : List DapOp) : List Nat :=
  log.filterMap fun op =>
    match op with
    | .write address value => if address = itr then some value else none
    | .read _ _ => none

/-- An instance of the parameters `CpuDbg`: the register offsets and bits of
the ARMv7 debug architecture. -/
def armv7_cpudbg : CpuDbg :=
  { CPUDBG_DSCR := 0x088, CPUDBG_DRCR := 0x090, CPUDBG_ITR := 0x084, CPUDBG_DTRRX := 0x080,
    CPUDBG_DTRTX := 0x08C, CPUDBG_BVR_BASE := 0x100, CPUDBG_BCR_BASE := 0x140,
    DSCR_CORE_HALTED := 0x1, DSCR_CORE_RESTARTED := 0x2, DSCR_ITR_EN := 0x2000,
    DSCR_INSTR_COMP := 0x1000000, DSCR_DTR_RX_FULL := 0x40000000,
    DSCR_DTR_TX_FULL := 0x20000000, DSCR_HALT_DBG_MODE := 0x4000,
    DRCR_HALT := 1, DRCR_RESTART := 2, DRCR_CLEAR_EXCEPTIONS := 4 }

/-- An instance of the parameters `ArmOpcodes`: the ARM encodings of the
instructions. -/
def arm_encodings : ArmOpcodes :=
  { ARMV4_5_MRC := fun CP op1 Rd CRn CRm op2 =>
      0xee100010 ||| CRm ||| (op2 <<< 5) ||| (CP <<< 8) ||| (Rd <<< 12) ||| (CRn <<< 16)
        ||| (op1 <<< 21),
    ARMV4_5_MCR := fun CP op1 Rd CRn CRm op2 =>
      0xee000010 ||| CRm ||| (op2 <<< 5) ||| (CP <<< 8) ||| (Rd <<< 12) ||| (CRn <<< 16)
        ||| (op1 <<< 21),
    ARMV4_5_MSR_GP := fun Rm Field R => 0xe120f000 ||| Rm ||| (Field <<< 16) ||| (R <<< 22),
    ARMV5_BKPT := fun Im => 0xe1200070 ||| ((Im &&& 0xfff0) <<< 8) ||| (Im &&& 0xf),
    ARMV5_T_BKPT := fun Im => (0xbe00 ||| Im) ||| ((0xbe00 ||| Im) <<< 16) }

/-- A halted Cortex-A9 target at debug base `0x80000000` with the memory AP
selected, six breakpoint register pairs, none in use, and the given replies of
the transport to come. -/
def a9_target (replies : List DapReply) : cortex_a9_target Unit :=
  { state := .TARGET_HALTED, debug_reason := .other, apsel := swjdp_memoryap,
    replies := replies, log := [], debug_base := 0x80000000, cpudbg_dscr := 0,
    core_state := .ARM_STATE_ARM,
    pc := { name := "pc", value := 0x8000, dirty := false, valid := true, size := 32 },
    events := [], brp_num := 6, brp_num_context := 2, brp_num_available := 6,
    brp_list := (List.range 6).map
      (fun i => { used := 0, type := .BRP_NORMAL, value := 0, control := 0, BRPn := i }),
    i_cache_enabled := true, d_u_cache_enabled := true, dpm_log := [], world := () }

/-! ## `cortex_a9.c`: run control -/

/-- The routines of `cortex_a9.c` and of the target layer that run the DPM
layer, the register cache or the work areas, none of which is among the
sources: parameters.  `cortex_a9_debug_entry` and `cortex_a9_restore_context`
return a status and the target they leave; freeing the work areas touches
nothing this file models. -/
structure A9Hooks (W : Type) where
  cortex_a9_debug_entry : cortex_a9_target W → DapRun (cortex_a9_target W)
  cortex_a9_restore_context : cortex_a9_target W → Int → DapRun (cortex_a9_target W)
  target_free_all_working_areas : W → W
  register_cache_invalidate : cortex_a9_target W → cortex_a9_target W

/-- Modelled from the spec: the macro `DSCR_RUN_MODE`, the two run-mode bits
`CORE_HALTED` and `CORE_RESTARTED` of a DSCR value (the header that defines it
is not among the sources). -/
def DSCR_RUN_MODE (c : CpuDbg) (dscr : Nat) : Nat :=
  dscr &&& (c.DSCR_CORE_HALTED ||| c.DSCR_CORE_RESTARTED)

/-- The function `cortex_a9_poll`.  `prev_target_state` is a local copy, so of
the two tests on it inside "We have a halting debug event" at most one holds:
they are written here as one chain. -/
def cortex_a9_poll {W : Type} (c : CpuDbg) (hk : A9Hooks W) (t : cortex_a9_target W) :
    DapRun (cortex_a9_target W) :=
  let prev_target_state := t.state
  let saved_apsel := dap_ap_get_select t
  (mem_ap_read_atomic_u32 (dap_ap_select t swjdp_debugap)
      ((t.debug_base + c.CPUDBG_DSCR) % 2 ^ 32)).andThen
    fun retval r =>
      if retval ≠ ERROR_OK then .ret retval (dap_ap_select r.2.2 saved_apsel)
      else
        let t1 := { r.2.2 with cpudbg_dscr := r.1 }
        if DSCR_RUN_MODE c r.1 = (c.DSCR_CORE_HALTED ||| c.DSCR_CORE_RESTARTED) then
          if prev_target_state ≠ .TARGET_HALTED then
            -- We have a halting debug event
            let t2 := { t1 with state := .TARGET_HALTED }
            if prev_target_state = .TARGET_RUNNING ∨ prev_target_state = .TARGET_RESET then
              (hk.cortex_a9_debug_entry t2).andThen fun retval t3 =>
                if retval ≠ ERROR_OK then .ret retval t3
                else
                  .ret retval
                    (dap_ap_select
                      { t3 with events := t3.events ++ [.TARGET_EVENT_HALTED] } saved_apsel)
            else if prev_target_state = .TARGET_DEBUG_RUNNING then
              (hk.cortex_a9_debug_entry t2).andThen fun retval t3 =>
                if retval ≠ ERROR_OK then .ret retval t3
                else
                  .ret retval
                    (dap_ap_select
                      { t3 with events := t3.events ++ [.TARGET_EVENT_DEBUG_HALTED] }
                      saved_apsel)
            else .ret retval (dap_ap_select t2 saved_apsel)
          else .ret retval (dap_ap_select t1 saved_apsel)
        else if DSCR_RUN_MODE c r.1 = c.DSCR_CORE_RESTARTED then
          .ret retval (dap_ap_select { t1 with state := .TARGET_RUNNING } saved_apsel)
        else
          .ret retval (dap_ap_select { t1 with state := .TARGET_UNKNOWN } saved_apsel)

/-- The loop `for (;;)` of `cortex_a9_halt` with what follows it: a failed read
goes to `out`, a DSCR with `CORE_HALTED` leaves the loop, sets the debug reason
and reaches `out`; the timeout returns at once.  At most `fuel` passes. -/
def cortex_a9_halt_loop {W : Type} (c : CpuDbg) (saved_apsel : Nat) :
    Nat → cortex_a9_target W → DapRun (cortex_a9_target W)
  | 0, _ => .starved
  | fuel + 1, t =>
    (mem_ap_read_atomic_u32 t ((t.debug_base + c.CPUDBG_DSCR) % 2 ^ 32)).andThen
      fun retval r =>
        if retval ≠ ERROR_OK then .ret retval (dap_ap_select r.2.2 saved_apsel)
        else if r.1 &&& c.DSCR_CORE_HALTED ≠ 0 then
          .ret retval
            (dap_ap_select { r.2.2 with debug_reason := .DBG_REASON_DBGRQ } saved_apsel)
        else if r.2.1 then .ret ERROR_FAIL r.2.2
        else cortex_a9_halt_loop c saved_apsel fuel r.2.2

/-- The function `cortex_a9_halt`. -/
def cortex_a9_halt {W : Type} (c : CpuDbg) (t : cortex_a9_target W) :
    DapRun (cortex_a9_target W) :=
  let saved_apsel := dap_ap_get_select t
  (mem_ap_write_atomic_u32 (dap_ap_select t swjdp_debugap)
      ((t.debug_base + c.CPUDBG_DRCR) % 2 ^ 32) c.DRCR_HALT).andThen
    fun retval t1 =>
      if retval ≠ ERROR_OK then .ret retval (dap_ap_select t1 saved_apsel)
      else
        (mem_ap_read_atomic_u32 t1 ((t1.debug_base + c.CPUDBG_DSCR) % 2 ^ 32)).andThen
          fun retval r =>
            if retval ≠ ERROR_OK then .ret retval (dap_ap_select r.2.2 saved_apsel)
            else
              (mem_ap_write_atomic_u32 r.2.2 ((r.2.2.debug_base + c.CPUDBG_DSCR) % 2 ^ 32)
                  (r.1 ||| c.DSCR_HALT_DBG_MODE)).andThen
                fun retval t2 =>
                  if retval ≠ ERROR_OK then .ret retval (dap_ap_select t2 saved_apsel)
                  else cortex_a9_halt_loop c saved_apsel (t2.replies.length + 1) t2

/-- The loop `for (;;)` of `cortex_a9_resume`: every exit but the `break` on
`CORE_RESTARTED` is a return.  At most `fuel` passes. -/
def cortex_a9_resume_loop {W : Type} (c : CpuDbg) :
    Nat → cortex_a9_target W → DapRun (cortex_a9_target W)
  | 0, _ => .starved
  | fuel + 1, t =>
    (mem_ap_read_atomic_u32 t ((t.debug_base + c.CPUDBG_DSCR) % 2 ^ 32)).andThen
      fun retval r =>
        if retval ≠ ERROR_OK then .ret retval r.2.2
        else if r.1 &&& c.DSCR_CORE_RESTARTED ≠ 0 then .ret ERROR_OK r.2.2
        else if r.2.1 then .ret ERROR_FAIL r.2.2
        else cortex_a9_resume_loop c fuel r.2.2

/-- The part of `cortex_a9_resume` after `cortex_a9_restore_context`: "Restart
core and wait for it to be started". -/
def cortex_a9_resume_restart {W : Type} (c : CpuDbg) (hk : A9Hooks W) (saved_apsel : Nat)
    (t : cortex_a9_target W) (debug_execution : Int) : DapRun (cortex_a9_target W) :=
  (mem_ap_read_atomic_u32 t ((t.debug_base + c.CPUDBG_DSCR) % 2 ^ 32)).andThen
    fun retval r =>
      if retval ≠ ERROR_OK then .ret retval r.2.2
      else
        (mem_ap_write_atomic_u32 r.2.2 ((r.2.2.debug_base + c.CPUDBG_DSCR) % 2 ^ 32)
            (r.1 &&& (0xFFFFFFFF ^^^ c.DSCR_ITR_EN))).andThen
          fun retval t1 =>
            if retval ≠ ERROR_OK then .ret retval t1
            else
              (mem_ap_write_atomic_u32 t1 ((t1.debug_base + c.CPUDBG_DRCR) % 2 ^ 32)
                  (c.DRCR_RESTART ||| c.DRCR_CLEAR_EXCEPTIONS)).andThen
                fun retval t2 =>
                  if retval ≠ ERROR_OK then .ret retval t2
                  else
                    (cortex_a9_resume_loop c (t2.replies.length + 1) t2).andThen
                      fun retval t3 =>
                        if retval ≠ ERROR_OK then .ret retval t3
                        else
                          let t4 := hk.register_cache_invalidate
                            { t3 with debug_reason := .DBG_REASON_NOTHALTED,
                                      state := .TARGET_RUNNING }
                          if debug_execution = 0 then
                            .ret ERROR_OK
                              (dap_ap_select
                                { t4 with state := .TARGET_RUNNING,
                                          events := t4.events ++ [.TARGET_EVENT_RESUMED] }
                                saved_apsel)
                          else
                            .ret ERROR_OK
                              (dap_ap_select
                                { t4 with state := .TARGET_DEBUG_RUNNING,
                                          events := t4.events ++ [.TARGET_EVENT_DEBUG_RESUMED] }
                                saved_apsel)

/-- The function `cortex_a9_resume`. -/
def cortex_a9_resume {W : Type} (c : CpuDbg) (hk : A9Hooks W) (t : cortex_a9_target W)
    (current : Int) (address : Nat) (handle_breakpoints debug_execution : Int) :
    DapRun (cortex_a9_target W) :=
  let saved_apsel := dap_ap_get_select t
  let t0 := if debug_execution = 0
            then { dap_ap_select t swjdp_debugap with
                     world := hk.target_free_all_working_areas t.world }
            else dap_ap_select t swjdp_debugap
  -- current = 1: continue on current pc, otherwise continue at <address>
  let resume_pc := if current = 0 then address else t0.pc.value
  let masked : Option Nat :=
    match t0.core_state with
    | .ARM_STATE_ARM => some (resume_pc &&& 0xFFFFFFFC)
    | .ARM_STATE_THUMB => some (resume_pc ||| 0x1)
    | .ARM_STATE_THUMB_EE => some (resume_pc ||| 0x1)
    | .ARM_STATE_JAZELLE => none
  match masked with
  | none => .ret ERROR_FAIL t0
  | some resume_pc =>
    (hk.cortex_a9_restore_context
        { t0 with pc := { t0.pc with value := resume_pc, dirty := true, valid := true } }
        handle_breakpoints).andThen
      fun retval t1 =>
        if retval ≠ ERROR_OK then .ret retval t1
        else cortex_a9_resume_restart c hk saved_apsel t1 debug_execution

/-- Hooks that do nothing and succeed, but for a debug entry that returns the
status `entry`. -/
def a9_hooks (entry : Int) : A9Hooks Unit :=
  { cortex_a9_debug_entry := fun t => .ret entry t,
    cortex_a9_restore_context := fun t _ => .ret ERROR_OK t,
    target_free_all_working_areas := fun t => t,
    register_cache_invalidate := fun t => t }

/-! ## `cortex_a9.c`: breakpoints -/

/-- The `enum breakpoint_type`. -/
inductive breakpoint_type where
  | BKPT_HARD
  | BKPT_SOFT
  deriving DecidableEq, Repr

/-- A breakpoint record (`struct breakpoint`), restricted to the fields the
code reads or writes; `orig_instr` is the byte buffer. -/
structure breakpoint where
  address : Nat
  length : Nat
  type : breakpoint_type
  set : Int
  orig_instr : List Nat
  deriving DecidableEq, Repr

/-- The memory accessors `target->type->read_memory` and
`target->type->write_memory` (address, size, count, buffer), which end in
transport routines that are not among the sources: parameters.  They act on the
part of the target this file does not model and return a status, and for a
read the `size * count` bytes read. -/
structure A9Memory (W : Type) where
  read_memory : W → Nat → Nat → Nat → Int × List Nat × W
  write_memory : W → Nat → Nat → Nat → List Nat → Int × W

/-- The four bytes `buf_set_u32(code, 0, 32, value)` leaves in `code`. -/
def buf_set_u32 (value : Nat) : List Nat :=
  [value % 256, value / 256 % 256, value / 65536 % 256, value / 16777216 % 256]

/-- The function `cortex_a9_dap_write_memap_register_u32`. -/
def cortex_a9_dap_write_memap_register_u32 {W : Type} (t : cortex_a9_target W)
    (address value : Nat) : DapRun (cortex_a9_target W) :=
  mem_ap_write_atomic_u32 t address value

/-- The search loop of `cortex_a9_set_breakpoint`,
`while (brp_list[brp_i].used && (brp_i < cortex_a9->brp_num)) brp_i++`, run on
the entries from index `brp_i` on: the entry is read before `brp_i` is compared
with `brp_num`, and there is no result when the index is past the last entry of
the table. -/
def cortex_a9_find_brp (brp_num : Int) : List cortex_a9_brp → Nat → Option Nat
  | [], _ => none
  | brp :: rest, brp_i =>
    if brp.used ≠ 0 ∧ (brp_i : Int) < brp_num then cortex_a9_find_brp brp_num rest (brp_i + 1)
    else some brp_i

/-- The function `cortex_a9_set_breakpoint`.  `byte_addr_select` is at most 12
and `control` is below `2 ^ 23`, so neither is cut by its C type. -/
def cortex_a9_set_breakpoint {W : Type} (c : CpuDbg) (a : ArmOpcodes) (m : A9Memory W)
    (t : cortex_a9_target W) (bp : breakpoint) (matchmode : Nat) :
    DapRun (cortex_a9_target W × breakpoint) :=
  if bp.set ≠ 0 then .ret ERROR_OK (t, bp)
  else
    match bp.type with
    | .BKPT_HARD =>
      match cortex_a9_find_brp t.brp_num t.brp_list 0 with
      | none => .fault
      | some brp_i =>
        if (brp_i : Int) ≥ t.brp_num then .ret ERROR_TARGET_RESOURCE_NOT_AVAILABLE (t, bp)
        else
          let bp1 := { bp with set := (brp_i : Int) + 1 }
          let byte_addr_select := if bp.length = 2 then 3 <<< (bp.address &&& 0x02) else 0x0F
          let control := ((matchmode &&& 0x7) <<< 20) ||| (byte_addr_select <<< 5)
                            ||| (3 <<< 1) ||| 1
          match t.brp_list[brp_i]? with
          | none => .fault
          | some brp =>
            let brp1 := { brp with used := 1, value := bp.address &&& 0xFFFFFFFC,
                                   control := control }
            let t1 := { t with brp_list := t.brp_list.set brp_i brp1 }
            (cortex_a9_dap_write_memap_register_u32 t1
                ((t1.debug_base + c.CPUDBG_BVR_BASE + 4 * brp1.BRPn) % 2 ^ 32)
                brp1.value).andThen
              fun retval t2 =>
                if retval ≠ ERROR_OK then .ret retval (t2, bp1)
                else
                  (cortex_a9_dap_write_memap_register_u32 t2
                      ((t2.debug_base + c.CPUDBG_BCR_BASE + 4 * brp1.BRPn) % 2 ^ 32)
                      brp1.control).andThen
                    fun retval t3 =>
                      if retval ≠ ERROR_OK then .ret retval (t3, bp1)
                      else .ret ERROR_OK (t3, bp1)
    | .BKPT_SOFT =>
      let code := if bp.length = 2 then buf_set_u32 (a.ARMV5_T_BKPT 0x11)
                  else buf_set_u32 (a.ARMV5_BKPT 0x11)
      let rd := m.read_memory t.world (bp.address &&& 0xFFFFFFFE) bp.length 1
      if rd.1 ≠ ERROR_OK then .ret rd.1 ({ t with world := rd.2.2 }, bp)
      else
        let bp1 := { bp with orig_instr := rd.2.1 }
        let wr := m.write_memory rd.2.2 (bp.address &&& 0xFFFFFFFE) bp.length 1 code
        if wr.1 ≠ ERROR_OK then .ret wr.1 ({ t with world := wr.2 }, bp1)
        else .ret ERROR_OK ({ t with world := wr.2 }, { bp1 with set := 0x11 })

/-- The function `cortex_a9_unset_breakpoint`. -/
def cortex_a9_unset_breakpoint {W : Type} (c : CpuDbg) (m : A9Memory W)
    (t : cortex_a9_target W) (bp : breakpoint) : DapRun (cortex_a9_target W × breakpoint) :=
  if bp.set = 0 then .ret ERROR_OK (t, bp)
  else
    match bp.type with
    | .BKPT_HARD =>
      let brp_i : Int := bp.set - 1
      if brp_i < 0 ∨ brp_i ≥ t.brp_num then .ret ERROR_OK (t, bp)
      else
        match t.brp_list[brp_i.toNat]? with
        | none => .fault
        | some brp =>
          let brp1 := { brp with used := 0, value := 0, control := 0 }
          let t1 := { t with brp_list := t.brp_list.set brp_i.toNat brp1 }
          (cortex_a9_dap_write_memap_register_u32 t1
              ((t1.debug_base + c.CPUDBG_BCR_BASE + 4 * brp1.BRPn) % 2 ^ 32)
              brp1.control).andThen
            fun retval t2 =>
              if retval ≠ ERROR_OK then .ret retval (t2, bp)
              else
                (cortex_a9_dap_write_memap_register_u32 t2
                    ((t2.debug_base + c.CPUDBG_BVR_BASE + 4 * brp1.BRPn) % 2 ^ 32)
                    brp1.value).andThen
                  fun retval t3 =>
                    if retval ≠ ERROR_OK then .ret retval (t3, bp)
                    else .ret ERROR_OK (t3, { bp with set := 0 })
    | .BKPT_SOFT =>
      -- restore original instruction (kept in target endianness)
      let wr := if bp.length = 4
                then m.write_memory t.world (bp.address &&& 0xFFFFFFFE) 4 1 bp.orig_instr
                else m.write_memory t.world (bp.address &&& 0xFFFFFFFE) 2 1 bp.orig_instr
      if wr.1 ≠ ERROR_OK then .ret wr.1 ({ t with world := wr.2 }, bp)
      else .ret ERROR_OK ({ t with world := wr.2 }, { bp with set := 0 })

/-- The function `cortex_a9_add_breakpoint`. -/
def cortex_a9_add_breakpoint {W : Type} (c : CpuDbg) (a : ArmOpcodes) (m : A9Memory W)
    (t : cortex_a9_target W) (bp : breakpoint) : DapRun (cortex_a9_target W × breakpoint) :=
  if bp.type = .BKPT_HARD ∧ t.brp_num_available < 1 then
    .ret ERROR_TARGET_RESOURCE_NOT_AVAILABLE (t, bp)
  else
    let t1 := if bp.type = .BKPT_HARD
              then { t with brp_num_available := t.brp_num_available - 1 } else t
    cortex_a9_set_breakpoint c a m t1 bp 0x00

/-- The function `cortex_a9_remove_breakpoint`.  The status of
`cortex_a9_unset_breakpoint` is not looked at. -/
def cortex_a9_remove_breakpoint {W : Type} (c : CpuDbg) (m : A9Memory W)
    (t : cortex_a9_target W) (bp : breakpoint) : DapRun (cortex_a9_target W × breakpoint) :=
  if bp.set ≠ 0 then
    (cortex_a9_unset_breakpoint c m t bp).andThen fun _ r =>
      if bp.type = .BKPT_HARD then
        .ret ERROR_OK ({ r.1 with brp_num_available := r.1.brp_num_available + 1 }, r.2)
      else .ret ERROR_OK r
  else .ret ERROR_OK (t, bp)

/-- The part "Setup Breakpoint Register Pairs" of `cortex_a9_examine_first`,
for the value `didr` read from DIDR. -/
def cortex_a9_examine_first_brp {W : Type} (t : cortex_a9_target W) (didr : Nat) :
    cortex_a9_target W :=
  let brp_num : Int := (((didr >>> 24) &&& 0x0F) + 1 : Nat)
  let brp_num_context : Int := (((didr >>> 20) &&& 0x0F) + 1 : Nat)
  { t with
      brp_num := brp_num, brp_num_context := brp_num_context, brp_num_available := brp_num,
      brp_list := (List.range brp_num.toNat).map fun (i : Nat) =>
        { used := 0,
          type := if (i : Int) < brp_num - brp_num_context then .BRP_NORMAL else .BRP_CONTEXT,
          value := 0, control := 0, BRPn := i } }

/-- The number of slots of a table that are not in use. -/
def brp_free (brp_list : List cortex_a9_brp) : Nat :=
  (brp_list.filter fun brp => brp.used = 0).length

/-- The slot accounting: the table has `brp_num` slots and `brp_num_available`
is the number of them that are not in use. -/
def brp_accounting {W : Type} (t : cortex_a9_target W) : Prop :=
  (t.brp_list.length : Int) = t.brp_num ∧ t.brp_num_available = (brp_free t.brp_list : Int)

instance {W : Type} (t : cortex_a9_target W) : Decidable (brp_accounting t) := by
  unfold brp_accounting
  exact inferInstance

/-- Accessors of a memory of bytes that always succeed: the world is the
memory. -/
def flat_memory : A9Memory (Nat → Nat) :=
  { read_memory := fun w address size count =>
      (ERROR_OK, (List.range (size * count)).map (fun i => w (address + i)), w),
    write_memory := fun w address size count buffer =>
      (ERROR_OK, fun x =>
        if address ≤ x ∧ x < address + size * count then buffer.getD (x - address) 0 else w x) }

/-- Accessors that read nothing and succeed, on a target without memory. -/
def no_memory : A9Memory Unit :=
  { read_memory := fun w _ _ _ => (ERROR_OK, [], w),
    write_memory := fun w _ _ _ _ => (ERROR_OK, w) }

/-- A halted Cortex-A9 target over a memory of bytes, with no replies of the
transport to come. -/
def a9_flat_target (memory : Nat → Nat) : cortex_a9_target (Nat → Nat) :=
  { state := .TARGET_HALTED, debug_reason := .other, apsel := swjdp_memoryap,
    replies := [], log := [], debug_base := 0x80000000, cpudbg_dscr := 0,
    core_state := .ARM_STATE_ARM,
    pc := { name := "pc", value := 0x8000, dirty := false, valid := true, size := 32 },
    events := [], brp_num := 0, brp_num_context := 0, brp_num_available := 0,
    brp_list := [], i_cache_enabled := true, d_u_cache_enabled := true, dpm_log := [],
    world := memory }

/-! ## `cortex_a9.c`: writes to physical memory -/

/-- The buffer writes of the DAP module and the operations of the DPM that
`cortex_a9_write_phys_memory` calls through `armv7a->armv4_5_common.dpm`:
parameters.  Each acts on the part of the target this file does not model and
returns a status; the buffer writes take buffer, byte count and address, and
`instr_write_data_r0` takes opcode and data. -/
structure A9Dpm (W : Type) where
  mem_ap_write_buf_u32 : W → List Nat → Nat → Nat → Int × W
  mem_ap_write_buf_u16 : W → List Nat → Nat → Nat → Int × W
  mem_ap_write_buf_u8 : W → List Nat → Nat → Nat → Int × W
  prepare : W → Int × W
  instr_write_data_r0 : W → Nat → Nat → Int × W
  finish : W → Int × W

/-- One of the two loops of `cortex_a9_write_phys_memory`,
`for (cacheline = address; cacheline < address + size * count; cacheline += 64)`,
with `bound` the value of `address + size * count`; every call of
`instr_write_data_r0` is put in `dpm_log`.  At most `fuel` passes: there is no
result when they do not suffice. -/
def cortex_a9_invalidate_lines {W : Type} (d : A9Dpm W) (opcode bound : Nat) :
    Nat → cortex_a9_target W → Nat → Option (Int × cortex_a9_target W)
  | 0, _, _ => none
  | fuel + 1, t, cacheline =>
    if cacheline < bound then
      let r := d.instr_write_data_r0 t.world opcode cacheline
      let t1 := { t with world := r.2, dpm_log := t.dpm_log ++ [(opcode, cacheline)] }
      if r.1 ≠ ERROR_OK then some (r.1, t1)
      else cortex_a9_invalidate_lines d opcode bound fuel t1 ((cacheline + 64) % 2 ^ 32)
    else some (ERROR_OK, t)

/-- The function `cortex_a9_write_phys_memory`; `buffer` is `none` for a NULL
pointer, and each loop is given at most `fuel` passes. -/
def cortex_a9_write_phys_memory {W : Type} (a : ArmOpcodes) (d : A9Dpm W) (fuel : Nat)
    (t : cortex_a9_target W) (address size count : Nat) (buffer : Option (List Nat)) :
    Option (Int × cortex_a9_target W) :=
  let w : Int × cortex_a9_target W :=
    match buffer with
    | none => (ERROR_INVALID_ARGUMENTS, t)
    | some buffer =>
      if count ≠ 0 then
        let saved_apsel := dap_ap_get_select t
        let t0 := dap_ap_select t swjdp_memoryap
        let r : Int × W :=
          if size = 4 then d.mem_ap_write_buf_u32 t0.world buffer ((4 * count) % 2 ^ 32) address
          else if size = 2 then
            d.mem_ap_write_buf_u16 t0.world buffer ((2 * count) % 2 ^ 32) address
          else if size = 1 then d.mem_ap_write_buf_u8 t0.world buffer count address
          else (ERROR_INVALID_ARGUMENTS, t0.world)
        (r.1, dap_ap_select { t0 with world := r.2 } saved_apsel)
      else (ERROR_INVALID_ARGUMENTS, t)
  if w.1 = ERROR_OK ∧ w.2.state = .TARGET_HALTED then
    let p := d.prepare w.2.world
    let t1 := { w.2 with world := p.2 }
    if p.1 ≠ ERROR_OK then some (p.1, t1)
    else
      let bound := (address + (size * count) % 2 ^ 32) % 2 ^ 32
      -- invalidate I-Cache
      let i : Option (Int × cortex_a9_target W) :=
        if t1.i_cache_enabled then
          cortex_a9_invalidate_lines d (a.ARMV4_5_MCR 15 0 0 7 5 1) bound fuel t1 address
        else some (p.1, t1)
      match i with
      | none => none
      | some ri =>
        if ri.1 ≠ ERROR_OK then some ri
        else
          -- invalidate D-Cache
          let dc : Option (Int × cortex_a9_target W) :=
            if ri.2.d_u_cache_enabled then
              cortex_a9_invalidate_lines d (a.ARMV4_5_MCR 15 0 0 7 6 1) bound fuel ri.2 address
            else some ri
          match dc with
          | none => none
          | some rd =>
            if rd.1 ≠ ERROR_OK then some rd
            else some (rd.1, { rd.2 with world := (d.finish rd.2.world).2 })
  else some w

/-- DPM operations and buffer writes that succeed and change nothing. -/
def a9_dpm : A9Dpm Unit :=
  { mem_ap_write_buf_u32 := fun w _ _ _ => (ERROR_OK, w),
    mem_ap_write_buf_u16 := fun w _ _ _ => (ERROR_OK, w),
    mem_ap_write_buf_u8 := fun w _ _ _ => (ERROR_OK, w),
    prepare := fun w => (ERROR_OK, w),
    instr_write_data_r0 := fun w _ _ => (ERROR_OK, w),
    finish := fun w => (ERROR_OK, w) }

/-! ## `mips32.c`: interrupts, checksum and blank check -/

/-- The function `mips32_enable_interrupts`: its status and the accesses it
made, oldest first. -/
def mips32_enable_interrupts (e : EjtagRegs) (bus : TargetBus) (enable : Int) :
    Int × List BusOp :=
  -- read debug control register
  if (bus.read_u32 e.EJTAG_DCR).1 ≠ ERROR_OK then
    ((bus.read_u32 e.EJTAG_DCR).1, [.read e.EJTAG_DCR])
  else
    let dcr := (bus.read_u32 e.EJTAG_DCR).2
    let update : Option Nat :=
      if enable ≠ 0 then
        if dcr &&& e.EJTAG_DCR_INTE = 0 then some (dcr ||| e.EJTAG_DCR_INTE) else none
      else
        if dcr &&& e.EJTAG_DCR_INTE ≠ 0 then some (dcr &&& (0xFFFFFFFF ^^^ e.EJTAG_DCR_INTE))
        else none
    match update with
    | some dcr1 =>
      if bus.write_u32 e.EJTAG_DCR dcr1 ≠ ERROR_OK then
        (bus.write_u32 e.EJTAG_DCR dcr1, [.read e.EJTAG_DCR, .write e.EJTAG_DCR dcr1])
      else (ERROR_OK, [.read e.EJTAG_DCR, .write e.EJTAG_DCR dcr1])
    | none => (ERROR_OK, [.read e.EJTAG_DCR])

/-- The routines of the target layer that `mips32_checksum_memory` and
`mips32_blank_check_memory` call and `mips32.c` does not define: parameters.
`target_alloc_working_area` takes the size and gives a status and the address
of the area; `target_run_algorithm` takes the memory and register parameters,
entry point, exit point, timeout and algorithm information and gives a status
and the register parameters with the values read back. -/
structure AlgoHost (W : Type) where
  target_alloc_working_area : W → Nat → Int × Nat × W
  target_write_u32 : W → Nat → Nat → Int × W
  target_run_algorithm : W → List mem_param → List reg_param → Nat → Nat → Int →
    mips32_algorithm → Int × List reg_param × W
  target_free_working_area : W → Nat → W

/-- The array `mips_crc_code` of `mips32_checksum_memory`. -/
def mips_crc_code : List Nat :=
  [ 0x248C0000, 0x24AA0000, 0x2404FFFF, 0x10000010, 0x240B0000,
    0x81850000, 0x218C0001, 0x00052E00, 0x3C0204C1, 0x00852026, 0x34471DB7, 0x00003021,
    0x00044040, 0x24C60001, 0x28840000, 0x01074826, 0x0124400B, 0x28C30008, 0x1460FFF9,
    0x01002021,
    0x154BFFF0, 0x256B0001, 0x7000003F ]

/-- The array `erase_check_code` of `mips32_blank_check_memory`. -/
def erase_check_code : List Nat :=
  [ 0x80880000, 0x00C83024, 0x24A5FFFF, 0x14A0FFFC, 0x24840001, 0x7000003F ]

/-- The loop that copies a snippet to the working area at `address`, word `i`
to `address + i*sizeof(uint32_t)`; the status of `target_write_u32` is not
looked at. -/
def mips32_upload_code {W : Type} (h : AlgoHost W) (address : Nat) :
    List Nat → Nat → W → W
  | [], _, w => w
  | word :: words, i, w =>
    mips32_upload_code h address words (i + 1)
      (h.target_write_u32 w ((address + i * 4) % 2 ^ 32) word).2

/-- The function `mips32_checksum_memory`: its status, the value written to
`*checksum` (nothing when it is not written) and what is left of the target. -/
def mips32_checksum_memory {W : Type} (h : AlgoHost W) (w : W) (address count : Nat) :
    Int × Option Nat × W :=
  -- make sure we have a working area
  let a := h.target_alloc_working_area w (4 * mips_crc_code.length)
  if a.1 ≠ ERROR_OK then (ERROR_TARGET_RESOURCE_NOT_AVAILABLE, none, a.2.2)
  else
    let crc_algorithm := a.2.1
    let w1 := mips32_upload_code h crc_algorithm mips_crc_code 0 a.2.2
    let mips32_info : mips32_algorithm :=
      { common_magic := MIPS32_COMMON_MAGIC, isa_mode := .MIPS32_ISA_MIPS32 }
    let reg_params : List reg_param :=
      [ { reg_name := "a0", size := 32, value := address, direction := .PARAM_IN_OUT },
        { reg_name := "a1", size := 32, value := count, direction := .PARAM_OUT } ]
    let timeout : Int := 20000 * (1 + (count / (1024 * 1024) : Nat))
    let r := h.target_run_algorithm w1 [] reg_params crc_algorithm
      ((crc_algorithm + (4 * mips_crc_code.length - 4)) % 2 ^ 32) timeout mips32_info
    if r.1 ≠ ERROR_OK then (0, none, h.target_free_working_area r.2.2 crc_algorithm)
    else
      (ERROR_OK, some (r.2.1.getD 0 ⟨"", 0, 0, .PARAM_IN⟩).value,
        h.target_free_working_area r.2.2 crc_algorithm)

/-- The function `mips32_blank_check_memory`: its status, the value written to
`*blank` (nothing when it is not written) and what is left of the target. -/
def mips32_blank_check_memory {W : Type} (h : AlgoHost W) (w : W) (address count : Nat) :
    Int × Option Nat × W :=
  -- make sure we have a working area
  let a := h.target_alloc_working_area w (4 * erase_check_code.length)
  if a.1 ≠ ERROR_OK then (ERROR_TARGET_RESOURCE_NOT_AVAILABLE, none, a.2.2)
  else
    let erase_check_algorithm := a.2.1
    let w1 := mips32_upload_code h erase_check_algorithm erase_check_code 0 a.2.2
    let mips32_info : mips32_algorithm :=
      { common_magic := MIPS32_COMMON_MAGIC, isa_mode := .MIPS32_ISA_MIPS32 }
    let reg_params : List reg_param :=
      [ { reg_name := "a0", size := 32, value := address, direction := .PARAM_OUT },
        { reg_name := "a1", size := 32, value := count, direction := .PARAM_OUT },
        { reg_name := "a2", size := 32, value := 0xff, direction := .PARAM_IN_OUT } ]
    let r := h.target_run_algorithm w1 [] reg_params erase_check_algorithm
      ((erase_check_algorithm + (4 * erase_check_code.length - 2)) % 2 ^ 32) 10000 mips32_info
    if r.1 ≠ ERROR_OK then (0, none, h.target_free_working_area r.2.2 erase_check_algorithm)
    else
      (ERROR_OK, some (r.2.1.getD 2 ⟨"", 0, 0, .PARAM_IN⟩).value,
        h.target_free_working_area r.2.2 erase_check_algorithm)

/-- A target layer that gives the working area at `area` and whose algorithm
runner returns the status `run` with the parameters as they were; the world is
the list of the runs asked for (entry point, exit point), oldest first. -/
def algo_host (area : Nat) (run : Int) : AlgoHost (List (Nat × Nat)) :=
  { target_alloc_working_area := fun w _ => (ERROR_OK, area, w),
    target_write_u32 := fun w _ _ => (ERROR_OK, w),
    target_run_algorithm := fun w _ reg_params entry_point exit_point _ _ =>
      (run, reg_params, w ++ [(entry_point, exit_point)]),
    target_free_working_area := fun w _ => w }

/-- The debug stack of a context is within its array: 32 words, the offset
between 0 and 32. -/
def pracc_stack_ok (ctx : mips32_pracc_context) : Prop :=
  0 ≤ ctx.stack_offset ∧ ctx.stack_offset ≤ 32 ∧ ctx.stack.length = 32

instance (ctx : mips32_pracc_context) : Decidable (pracc_stack_ok ctx) := by
  unfold pracc_stack_ok
  exact inferInstance

/-! # Theorems -/

/-! ## The PrAcc loop: general facts -/

/-- Running the loop over a concatenated script: the second part is served from
the state the first part leaves, unless the first part already ended the run. -/
theorem pracc_loop_append (cycle : Int) (xs ys : List PraccRequest) (st : PraccLoop) :
    pracc_loop cycle st (xs ++ ys) =
      match pracc_loop cycle st xs with
      | .running st1 => pracc_loop cycle st1 ys
      | .returned retval st1 rest => .returned retval st1 (rest ++ ys)
      | .fault => .fault := by
  induction xs generalizing st with
  | nil => simp [pracc_loop]
  | cons x xs ih =>
    simp only [List.cons_append, pracc_loop]
    cases h : pracc_body cycle st x with
    | next st1 => simp [ih]
    | stop retval st1 => simp
    | fault => simp

/-- The read of the debug vector with `pass = 0` is answered with `code[0]`. -/
theorem pracc_body_first_text (cycle : Int) (hc : cycle ≠ 0) (st : PraccLoop)
    (r : PraccRequest) (hr : r.pracc = true) (hw : r.prnw = false)
    (ha : r.address = MIPS32_PRACC_TEXT) (hp : st.pass = 0) (c0 : Nat)
    (h0 : st.ctx.code[0]? = some c0)
    (hfit : MIPS32_PRACC_TEXT + st.ctx.code_len * 4 < 2 ^ 32) :
    pracc_body cycle st r = .next { ctx := st.ctx, pass := 1, sent := st.sent ++ [c0] } := by
  have h1 : (MIPS32_PRACC_TEXT + st.ctx.code_len * 4) % 4294967296
      = MIPS32_PRACC_TEXT + st.ctx.code_len * 4 := Nat.mod_eq_of_lt (by simpa using hfit)
  have h2 : ¬ (MIPS32_PRACC_PARAM_IN ≤ MIPS32_PRACC_TEXT) := by decide
  have h3 : ¬ (MIPS32_PRACC_PARAM_OUT ≤ MIPS32_PRACC_TEXT) := by decide
  simp [pracc_body, pracc_pass, wait_for_pracc_rw, mips32_pracc_exec_read, hr, hw, ha, hp,
    h1, h2, h3, h0, hc, ERROR_OK]

/-- A read of the debug vector with `pass` non-zero leaves the loop with
`ERROR_OK`; nothing is shifted out and the context is untouched. -/
theorem pracc_body_second_text (cycle : Int) (st : PraccLoop)
    (r : PraccRequest) (hr : r.pracc = true) (hw : r.prnw = false)
    (ha : r.address = MIPS32_PRACC_TEXT) (hp : st.pass ≠ 0) :
    pracc_body cycle st r = .stop ERROR_OK { st with pass := st.pass + 1 } := by
  simp [pracc_body, wait_for_pracc_rw, hr, hw, ha, hp, ERROR_OK]

/-- A processor write never changes the declared sizes nor the code. -/
theorem mips32_pracc_exec_write_frame (ctx ctx1 : mips32_pracc_context) (a d : Nat)
    (retval : Int) (h : mips32_pracc_exec_write ctx a d = .ret retval ctx1) :
    ctx1.code = ctx.code ∧ ctx1.code_len = ctx.code_len
      ∧ ctx1.num_iparam = ctx.num_iparam ∧ ctx1.num_oparam = ctx.num_oparam := by
  unfold mips32_pracc_exec_write at h
  split_ifs at h <;> cases h <;> simp

/-- A processor read never changes the declared sizes nor the code. -/
theorem mips32_pracc_exec_read_frame (ctx ctx1 : mips32_pracc_context) (a : Nat)
    (retval : Int) (w : Option Nat)
    (h : mips32_pracc_exec_read ctx a = .ret retval (ctx1, w)) :
    ctx1.code = ctx.code ∧ ctx1.code_len = ctx.code_len
      ∧ ctx1.num_iparam = ctx.num_iparam ∧ ctx1.num_oparam = ctx.num_oparam := by
  unfold mips32_pracc_exec_read at h
  split_ifs at h <;> (try split at h) <;> cases h <;> simp

/-- One iteration keeps the code and the declared sizes, never lowers `pass`,
and changes `pass` only on a read of the debug vector. -/
theorem pracc_body_frame (cycle : Int) (st st1 : PraccLoop) (r : PraccRequest)
    (h : pracc_body cycle st r = .next st1) :
    st1.ctx.code = st.ctx.code ∧ st1.ctx.code_len = st.ctx.code_len
      ∧ st1.ctx.num_iparam = st.ctx.num_iparam ∧ st1.ctx.num_oparam = st.ctx.num_oparam
      ∧ st.pass ≤ st1.pass
      ∧ (¬ (r.prnw = false ∧ r.address = MIPS32_PRACC_TEXT) → st1.pass = st.pass) := by
  unfold pracc_body at h
  split at h
  · cases h
  · split at h
    · split at h
      · cases h
      · rename_i retval ctx hw
        have hf := mips32_pracc_exec_write_frame _ _ _ _ _ hw
        split at h
        · cases h
        · split at h
          · cases h
          · cases h
            simp [hf]
    · rename_i h2
      split at h
      · cases h
      · split at h
        · cases h
        · rename_i retval ctx word hr
          have hf := mips32_pracc_exec_read_frame _ _ _ _ _ hr
          split at h
          · cases h
          · split at h
            · cases h
            · cases h
              refine ⟨hf.1, hf.2.1, hf.2.2.1, hf.2.2.2, ?_, ?_⟩
              · simp only [pracc_pass]; split_ifs <;> omega
              · intro hn
                have hp : r.prnw = false := by simpa using h2
                have ha : ¬ r.address = MIPS32_PRACC_TEXT := fun e => hn ⟨hp, e⟩
                simp [pracc_pass, ha]

/-- A run that is still polling has kept the code and the declared sizes; `pass`
has not gone down, and is unchanged when the script has no read of the debug
vector. -/
theorem pracc_loop_frame (cycle : Int) (reqs : List PraccRequest) (st st1 : PraccLoop)
    (h : pracc_loop cycle st reqs = .running st1) :
    st1.ctx.code = st.ctx.code ∧ st1.ctx.code_len = st.ctx.code_len
      ∧ st1.ctx.num_iparam = st.ctx.num_iparam ∧ st1.ctx.num_oparam = st.ctx.num_oparam
      ∧ st.pass ≤ st1.pass
      ∧ ((∀ r ∈ reqs, ¬ (r.prnw = false ∧ r.address = MIPS32_PRACC_TEXT)) →
          st1.pass = st.pass) := by
  induction reqs generalizing st with
  | nil =>
    simp only [pracc_loop, PraccProgress.running.injEq] at h
    subst h
    simp
  | cons x xs ih =>
    simp only [pracc_loop] at h
    cases hb : pracc_body cycle st x with
    | next st2 =>
      rw [hb] at h
      have h2 := ih st2 h
      have h1 := pracc_body_frame cycle st st2 x hb
      refine ⟨h2.1.trans h1.1, h2.2.1.trans h1.2.1, h2.2.2.1.trans h1.2.2.1,
        h2.2.2.2.1.trans h1.2.2.2.1, le_trans h1.2.2.2.2.1 h2.2.2.2.2.1, ?_⟩
      intro hall
      rw [h2.2.2.2.2.2 (fun r hr => hall r (List.mem_cons_of_mem _ hr)),
        h1.2.2.2.2.2 (hall x (List.mem_cons_self _ _))]
    | stop retval st2 => rw [hb] at h; cases h
    | fault => rw [hb] at h; cases h

/-! ## C1: the two reads of the debug vector -/

/-- C2 as stated fails: with a snippet of 1921 words the code word 1920 lies at
`PRACC_TEXT + 4 * 1920 = PRACC_PARAM_IN`, and the read there is answered with
`param_in[0] = 5`, not with `code[1920] = 7`, although the parameter regions do
not overlap. -/
theorem C2_counterexample :
    4 * 1 < MIPS32_PRACC_PARAM_OUT - MIPS32_PRACC_PARAM_IN
      ∧ (0 < 1920 ∧ 1920 < 1921)
      ∧ (List.replicate 1921 7)[1920]? = some 7
      ∧ mips32_pracc_exec_read
          { local_iparam := [5], num_iparam := 1, local_oparam := [], num_oparam := 0,
            code := List.replicate 1921 7, code_len := 1921,
            stack := List.replicate 32 0, stack_offset := 0 }
          (MIPS32_PRACC_TEXT + 4 * 1920)
        = .ret ERROR_OK
          ({ local_iparam := [5], num_iparam := 1, local_oparam := [], num_oparam := 0,
             code := List.replicate 1921 7, code_len := 1921,
             stack := List.replicate 32 0, stack_offset := 0 }, some 5) := by
  refine ⟨by decide, by decide, ?_, ?_⟩
  · rw [List.getElem?_replicate, if_pos (by decide)]
  · rfl

/-- C2, amended: when the parameter regions do not overlap, the output region
ends inside the 32-bit address space and the text region ends at or below
`PRACC_PARAM_IN`, then for every `k` a read at `PRACC_PARAM_IN + 4k`
(`k < num_param_in`) is answered with `param_in[k]`, at `PRACC_PARAM_OUT + 4k`
(`k < num_param_out`) with `param_out[k]`, at `PRACC_TEXT + 4k`
(`0 < k < code_len`) with `code[k]`, each leaving the context as it is; and a
write of `w` at `PRACC_PARAM_IN + 4k` or `PRACC_PARAM_OUT + 4k` stores `w` in
element `k` of that buffer and changes nothing else. -/
theorem C2_address_decoding (ctx : mips32_pracc_context) (k w : Nat)
    (hin : 4 * ctx.num_iparam < MIPS32_PRACC_PARAM_OUT - MIPS32_PRACC_PARAM_IN)
    (hout : MIPS32_PRACC_PARAM_OUT + 4 * ctx.num_oparam < 2 ^ 32)
    (htext : MIPS32_PRACC_TEXT + 4 * ctx.code_len ≤ MIPS32_PRACC_PARAM_IN) :
    (k < ctx.num_iparam → ∀ v, ctx.local_iparam[k]? = some v →
        mips32_pracc_exec_read ctx (MIPS32_PRACC_PARAM_IN + 4 * k)
          = .ret ERROR_OK (ctx, some v))
    ∧ (k < ctx.num_oparam → ∀ v, ctx.local_oparam[k]? = some v →
        mips32_pracc_exec_read ctx (MIPS32_PRACC_PARAM_OUT + 4 * k)
          = .ret ERROR_OK (ctx, some v))
    ∧ (0 < k → k < ctx.code_len → ∀ v, ctx.code[k]? = some v →
        mips32_pracc_exec_read ctx (MIPS32_PRACC_TEXT + 4 * k)
          = .ret ERROR_OK (ctx, some v))
    ∧ (k < ctx.num_iparam → k < ctx.local_iparam.length →
        mips32_pracc_exec_write ctx (MIPS32_PRACC_PARAM_IN + 4 * k) w
          = .ret ERROR_OK { ctx with local_iparam := ctx.local_iparam.set k w })
    ∧ (k < ctx.num_oparam → k < ctx.local_oparam.length →
        mips32_pracc_exec_write ctx (MIPS32_PRACC_PARAM_OUT + 4 * k) w
          = .ret ERROR_OK { ctx with local_oparam := ctx.local_oparam.set k w })
    ∧ (∀ (buf : List Nat) (j : Nat), j ≠ k → (buf.set k w)[j]? = buf[j]?)
    ∧ (∀ (buf : List Nat), k < buf.length → (buf.set k w)[k]? = some w) := by
  simp only [MIPS32_PRACC_PARAM_IN, MIPS32_PRACC_PARAM_OUT, MIPS32_PRACC_TEXT] at hin hout htext
  have ein : (4280295424 + ctx.num_iparam * 4) % 4294967296 = 4280295424 + ctx.num_iparam * 4 :=
    Nat.mod_eq_of_lt (by omega)
  have eout : (4280297472 + ctx.num_oparam * 4) % 4294967296
      = 4280297472 + ctx.num_oparam * 4 := Nat.mod_eq_of_lt (by omega)
  have etext : (4280287744 + ctx.code_len * 4) % 4294967296 = 4280287744 + ctx.code_len * 4 :=
    Nat.mod_eq_of_lt (by omega)
  refine ⟨?_, ?_, ?_, ?_, ?_, ?_, ?_⟩
  · intro hk v hv
    have i1 : (4280295424 + 4 * k - 4280295424) / 4 = k := by omega
    simp only [mips32_pracc_exec_read, MIPS32_PRACC_PARAM_IN, Nat.reducePow, ein, i1, hv]
    rw [if_pos (by omega)]
  · intro hk v hv
    have i1 : (4280297472 + 4 * k - 4280297472) / 4 = k := by omega
    simp only [mips32_pracc_exec_read, MIPS32_PRACC_PARAM_IN, MIPS32_PRACC_PARAM_OUT,
      Nat.reducePow, ein, eout, i1, hv]
    rw [if_neg (by omega), if_pos (by omega)]
  · intro hk0 hk v hv
    have i1 : (4280287744 + 4 * k - 4280287744) / 4 = k := by omega
    simp only [mips32_pracc_exec_read, MIPS32_PRACC_PARAM_IN, MIPS32_PRACC_PARAM_OUT,
      MIPS32_PRACC_TEXT, Nat.reducePow, ein, eout, etext, i1, hv]
    rw [if_neg (by omega), if_neg (by omega), if_pos (by omega)]
  · intro hk hlen
    have i1 : (4280295424 + 4 * k - 4280295424) / 4 = k := by omega
    simp only [mips32_pracc_exec_write, MIPS32_PRACC_PARAM_IN, Nat.reducePow, ein, i1]
    rw [if_pos (by omega), if_pos hlen]
  · intro hk hlen
    have i1 : (4280297472 + 4 * k - 4280297472) / 4 = k := by omega
    simp only [mips32_pracc_exec_write, MIPS32_PRACC_PARAM_IN, MIPS32_PRACC_PARAM_OUT,
      Nat.reducePow, ein, eout, i1]
    rw [if_neg (by omega), if_pos (by omega), if_pos hlen]
  · intro buf j hj
    exact List.getElem?_set_ne (Ne.symm hj)
  · intro buf hk
    simp [hk]

/-- C2 at a concrete context: the read of `PARAM_IN[1]` is answered with the
second input parameter. -/
theorem C2_address_decoding_witness :
    mips32_pracc_exec_read
        { local_iparam := [10, 11], num_iparam := 2, local_oparam := [20], num_oparam := 1,
          code := [7, 8, 9], code_len := 3, stack := List.replicate 32 0, stack_offset := 0 }
        (MIPS32_PRACC_PARAM_IN + 4 * 1)
      = .ret ERROR_OK
        ({ local_iparam := [10, 11], num_iparam := 2, local_oparam := [20], num_oparam := 1,
           code := [7, 8, 9], code_len := 3, stack := List.replicate 32 0, stack_offset := 0 },
          some 11) :=
  (C2_address_decoding
    { local_iparam := [10, 11], num_iparam := 2, local_oparam := [20], num_oparam := 1,
      code := [7, 8, 9], code_len := 3, stack := List.replicate 32 0, stack_offset := 0 }
    1 0 (by decide) (by decide) (by decide)).1 (by decide) 11 (by decide)

/-! ## C3: unknown addresses -/

/-- Outside the ranges the decoder accepts, a request fails with
`ERROR_JTAG_DEVICE_ERROR` and the context is left as it was. -/
theorem pracc_unknown_address_fails (ctx : mips32_pracc_context) (a d : Nat)
    (hin : ¬ (MIPS32_PRACC_PARAM_IN ≤ a
      ∧ a ≤ (MIPS32_PRACC_PARAM_IN + ctx.num_iparam * 4) % 2 ^ 32))
    (hout : ¬ (MIPS32_PRACC_PARAM_OUT ≤ a
      ∧ a ≤ (MIPS32_PRACC_PARAM_OUT + ctx.num_oparam * 4) % 2 ^ 32))
    (hstack : a ≠ MIPS32_PRACC_STACK) :
    mips32_pracc_exec_write ctx a d = .ret ERROR_JTAG_DEVICE_ERROR ctx
    ∧ (¬ (MIPS32_PRACC_TEXT ≤ a ∧ a ≤ (MIPS32_PRACC_TEXT + ctx.code_len * 4) % 2 ^ 32) →
        mips32_pracc_exec_read ctx a = .ret ERROR_JTAG_DEVICE_ERROR (ctx, none)) := by
  refine ⟨?_, fun htext => ?_⟩
  · unfold mips32_pracc_exec_write
    rw [if_neg hin, if_neg hout, if_neg hstack]
  · unfold mips32_pracc_exec_read
    rw [if_neg hin, if_neg hout, if_neg htext, if_neg hstack]

/-- C3, the code at the failing input: one input parameter is declared, the
processor accesses `PRACC_PARAM_IN + 4`, the first address past the input
parameters (it is not `PRACC_STACK` and lies in no buffer).  The request is not
refused.  With an array of exactly one word the read and the write index it out
of bounds; with a longer array behind `param_in` the read is served with the
word after the declared parameters and the write overwrites that word, and
`mips32_pracc_exec` returns `ERROR_OK`. -/
theorem C3_access_past_the_parameters_is_accepted :
    mips32_pracc_exec [pracc_load (MIPS32_PRACC_PARAM_IN + 4 * 1)] 1 [7] 1 [5] 0 [] 0
      = .fault
    ∧ mips32_pracc_exec [pracc_store (MIPS32_PRACC_PARAM_IN + 4 * 1) 9] 1 [7] 1 [5] 0 [] 0
      = .fault
    ∧ mips32_pracc_exec [pracc_load (MIPS32_PRACC_PARAM_IN + 4 * 1)] 1 [7] 1 [5, 6] 0 [] 0
      = .returned ERROR_OK
          { ctx := { local_iparam := [5, 6], num_iparam := 1, local_oparam := [],
                     num_oparam := 0, code := [7], code_len := 1,
                     stack := List.replicate 32 0, stack_offset := 0 },
            pass := 0, sent := [6] } []
    ∧ mips32_pracc_exec [pracc_store (MIPS32_PRACC_PARAM_IN + 4 * 1) 9] 1 [7] 1 [5, 6] 0 [] 0
      = .returned ERROR_OK
          { ctx := { local_iparam := [5, 9], num_iparam := 1, local_oparam := [],
                     num_oparam := 0, code := [7], code_len := 1,
                     stack := List.replicate 32 0, stack_offset := 0 },
            pass := 0, sent := [] } [] := by
  refine ⟨by decide, by decide, by decide, by decide⟩

/-! ## C4: the status of `mips32_pracc_exec` in the memory operations -/

/-- When the first control scan shows no pending access, `mips32_pracc_exec`
returns `ERROR_JTAG_DEVICE_ERROR` at once. -/
theorem mips32_pracc_exec_idle (rest : List PraccRequest) (code_len : Nat) (code : List Nat)
    (num_param_in : Nat) (param_in : List Nat) (num_param_out : Nat) (param_out : List Nat)
    (cycle : Int) :
    mips32_pracc_exec (pracc_idle :: rest) code_len code num_param_in param_in num_param_out
        param_out cycle
      = .returned ERROR_JTAG_DEVICE_ERROR
          (pracc_init code_len code num_param_in param_in num_param_out param_out) rest := by
  simp [mips32_pracc_exec, pracc_loop, pracc_body, wait_for_pracc_rw, pracc_idle, ERROR_OK,
    ERROR_JTAG_DEVICE_ERROR]

/-- The operations that test the status of `mips32_pracc_exec` hand the error
to their caller: `mips32_pracc_read_u32`, `mips32_pracc_read_mem32` and
`mips32_pracc_write_mem8`. -/
theorem pracc_status_propagated (asm : Mips32Asm) (rest : List PraccRequest)
    (addr count : Nat) (buf : List Nat) :
    mips32_pracc_read_u32 asm (pracc_idle :: rest) addr buf
      = .ret ERROR_JTAG_DEVICE_ERROR buf [] rest
    ∧ mips32_pracc_read_mem32 asm (pracc_idle :: rest) addr (count + 1) buf
      = .ret ERROR_JTAG_DEVICE_ERROR buf [] rest
    ∧ mips32_pracc_write_mem8 asm (pracc_idle :: rest) addr count buf
      = .ret ERROR_JTAG_DEVICE_ERROR () [] rest := by
  refine ⟨?_, ?_, ?_⟩
  · simp [mips32_pracc_read_u32, mips32_pracc_exec_idle, MemOp.ofExec, pracc_init]
  · unfold mips32_pracc_read_mem32 mips32_pracc_read_mem32_loop
    simp [mips32_pracc_exec_idle, pracc_init, ERROR_OK, ERROR_JTAG_DEVICE_ERROR]
  · simp [mips32_pracc_write_mem8, mips32_pracc_exec_idle, MemOp.ofExec, pracc_init]

/-- C4, the code at the failing input: the first control scan shows no pending
access, so the `mips32_pracc_exec` call of each operation returns
`ERROR_JTAG_DEVICE_ERROR`; `mips32_pracc_read_mem8`, `mips32_pracc_read_mem16`,
`mips32_pracc_write_mem16`, `mips32_pracc_write_mem32` and
`mips32_pracc_write_u32` nevertheless return `ERROR_OK`. -/
theorem C4_status_of_exec_is_dropped (asm : Mips32Asm) (rest : List PraccRequest)
    (addr count word : Nat) (buf : List Nat) :
    (∀ code_len code num_param_in param_in num_param_out param_out,
      mips32_pracc_exec (pracc_idle :: rest) code_len code num_param_in param_in
          num_param_out param_out 1
        = .returned ERROR_JTAG_DEVICE_ERROR
            (pracc_init code_len code num_param_in param_in num_param_out param_out) rest)
    ∧ ERROR_JTAG_DEVICE_ERROR ≠ ERROR_OK
    ∧ mips32_pracc_read_mem8 asm (pracc_idle :: rest) addr count buf
      = .ret ERROR_OK
          ((List.replicate count 0).map (fun w => w % 2 ^ 8) ++ buf.drop count) [] rest
    ∧ mips32_pracc_read_mem16 asm (pracc_idle :: rest) addr count buf
      = .ret ERROR_OK
          ((List.replicate count 0).map (fun w => w % 2 ^ 16) ++ buf.drop count) [] rest
    ∧ mips32_pracc_write_mem16 asm (pracc_idle :: rest) addr count buf
      = .ret ERROR_OK () [] rest
    ∧ mips32_pracc_write_mem32 asm (pracc_idle :: rest) addr count buf
      = .ret ERROR_OK () [] rest
    ∧ mips32_pracc_write_u32 asm (pracc_idle :: rest) addr word
      = .ret ERROR_OK () [] rest := by
  refine ⟨fun _ _ _ _ _ _ => mips32_pracc_exec_idle _ _ _ _ _ _ _ _, by decide, ?_, ?_, ?_, ?_, ?_⟩
  · simp [mips32_pracc_read_mem8, mips32_pracc_exec_idle, MemOp.ofExec, pracc_init]
  · simp [mips32_pracc_read_mem16, mips32_pracc_exec_idle, MemOp.ofExec, pracc_init]
  · simp [mips32_pracc_write_mem16, mips32_pracc_exec_idle, MemOp.ofExec, pracc_init]
  · simp [mips32_pracc_write_mem32, mips32_pracc_exec_idle, MemOp.ofExec, pracc_init]
  · simp [mips32_pracc_write_u32, mips32_pracc_exec_idle, MemOp.ofExec, pracc_init]


/-! ## Serving one request: the branches of the decoder, step by step -/

/-- Unfolding of the loop at the first request of the script. -/
theorem pracc_loop_cons (cycle : Int) (st : PraccLoop) (r : PraccRequest)
    (rs : List PraccRequest) :
    pracc_loop cycle st (r :: rs) =
      match pracc_body cycle st r with
      | .next st1 => pracc_loop cycle st1 rs
      | .stop retval st1 => .returned retval st1 rs
      | .fault => .fault := rfl

/-- A served read that is not the second read of the debug vector continues the
loop with the word shifted out. -/
theorem pracc_loop_read (cycle : Int) (hc : cycle ≠ 0) (st : PraccLoop) (a : Nat)
    (ctx1 : mips32_pracc_context) (v : Nat) (rs : List PraccRequest)
    (hnt : a = MIPS32_PRACC_TEXT → st.pass = 0)
    (h : mips32_pracc_exec_read st.ctx a = .ret ERROR_OK (ctx1, some v)) :
    pracc_loop cycle st (pracc_load a :: rs)
      = pracc_loop cycle { ctx := ctx1, pass := pracc_pass st.pass a, sent := st.sent ++ [v] }
          rs := by
  have hn : ¬ (a = MIPS32_PRACC_TEXT ∧ st.pass ≠ 0) := fun ⟨h1, h2⟩ => h2 (hnt h1)
  rw [pracc_loop_cons]
  simp only [pracc_body, wait_for_pracc_rw, pracc_load, if_true, ne_eq, not_true_eq_false,
    if_false, Bool.false_eq_true, hn, h, hc, Option.toList]

/-- A served write continues the loop with the context the write leaves. -/
theorem pracc_loop_write (cycle : Int) (hc : cycle ≠ 0) (st : PraccLoop) (a d : Nat)
    (ctx1 : mips32_pracc_context) (rs : List PraccRequest)
    (h : mips32_pracc_exec_write st.ctx a d = .ret ERROR_OK ctx1) :
    pracc_loop cycle st (pracc_store a d :: rs)
      = pracc_loop cycle { st with ctx := ctx1 } rs := by
  rw [pracc_loop_cons]
  simp only [pracc_body, wait_for_pracc_rw, pracc_store, if_true, ne_eq, not_true_eq_false,
    if_false, h, hc]

/-- The second read of the debug vector ends the run with `ERROR_OK`. -/
theorem pracc_loop_exit (cycle : Int) (st : PraccLoop) (rs : List PraccRequest)
    (hp : st.pass ≠ 0) :
    pracc_loop cycle st (pracc_fetch 0 :: rs)
      = .returned ERROR_OK { st with pass := st.pass + 1 } rs := by
  rw [pracc_loop_cons,
    pracc_body_second_text cycle st (pracc_fetch 0) rfl rfl (by decide) hp]

/-- Decoding of a read in the input parameters. -/
theorem exec_read_param_in (ctx : mips32_pracc_context) (a k v : Nat)
    (ha : a = MIPS32_PRACC_PARAM_IN + 4 * k) (hk : k ≤ ctx.num_iparam)
    (hfit : MIPS32_PRACC_PARAM_IN + ctx.num_iparam * 4 < 2 ^ 32)
    (hv : ctx.local_iparam[k]? = some v) :
    mips32_pracc_exec_read ctx a = .ret ERROR_OK (ctx, some v) := by
  subst ha
  simp only [MIPS32_PRACC_PARAM_IN] at hfit
  have e : (4280295424 + ctx.num_iparam * 4) % 4294967296 = 4280295424 + ctx.num_iparam * 4 :=
    Nat.mod_eq_of_lt (by omega)
  have i1 : (4280295424 + 4 * k - 4280295424) / 4 = k := by omega
  simp only [mips32_pracc_exec_read, MIPS32_PRACC_PARAM_IN, Nat.reducePow, e, i1, hv]
  rw [if_pos (by omega)]

/-- Decoding of a read in the output parameters. -/
theorem exec_read_param_out (ctx : mips32_pracc_context) (a k v : Nat)
    (ha : a = MIPS32_PRACC_PARAM_OUT + 4 * k) (hk : k ≤ ctx.num_oparam)
    (hin : MIPS32_PRACC_PARAM_IN + ctx.num_iparam * 4 < MIPS32_PRACC_PARAM_OUT)
    (hfit : MIPS32_PRACC_PARAM_OUT + ctx.num_oparam * 4 < 2 ^ 32)
    (hv : ctx.local_oparam[k]? = some v) :
    mips32_pracc_exec_read ctx a = .ret ERROR_OK (ctx, some v) := by
  subst ha
  simp only [MIPS32_PRACC_PARAM_IN, MIPS32_PRACC_PARAM_OUT] at hfit hin
  have e1 : (4280295424 + ctx.num_iparam * 4) % 4294967296 = 4280295424 + ctx.num_iparam * 4 :=
    Nat.mod_eq_of_lt (by omega)
  have e2 : (4280297472 + ctx.num_oparam * 4) % 4294967296 = 4280297472 + ctx.num_oparam * 4 :=
    Nat.mod_eq_of_lt (by omega)
  have i1 : (4280297472 + 4 * k - 4280297472) / 4 = k := by omega
  simp only [mips32_pracc_exec_read, MIPS32_PRACC_PARAM_IN, MIPS32_PRACC_PARAM_OUT,
    Nat.reducePow, e1, e2, i1, hv]
  rw [if_neg (by omega), if_pos (by omega)]

/-- Decoding of an instruction fetch below the parameter regions. -/
theorem exec_read_text (ctx : mips32_pracc_context) (a k v : Nat)
    (ha : a = MIPS32_PRACC_TEXT + 4 * k) (hk : k ≤ ctx.code_len) (hlow : k < 1920)
    (hfit : MIPS32_PRACC_TEXT + ctx.code_len * 4 < 2 ^ 32)
    (hv : ctx.code[k]? = some v) :
    mips32_pracc_exec_read ctx a = .ret ERROR_OK (ctx, some v) := by
  subst ha
  simp only [MIPS32_PRACC_TEXT] at hfit
  have e : (4280287744 + ctx.code_len * 4) % 4294967296 = 4280287744 + ctx.code_len * 4 :=
    Nat.mod_eq_of_lt (by omega)
  have i1 : (4280287744 + 4 * k - 4280287744) / 4 = k := by omega
  simp only [mips32_pracc_exec_read, MIPS32_PRACC_PARAM_IN, MIPS32_PRACC_PARAM_OUT,
    MIPS32_PRACC_TEXT, Nat.reducePow, e, i1, hv]
  rw [if_neg (by omega), if_neg (by omega), if_pos (by omega)]

/-- Decoding of a write in the output parameters. -/
theorem exec_write_param_out (ctx : mips32_pracc_context) (a k w : Nat)
    (ha : a = MIPS32_PRACC_PARAM_OUT + 4 * k) (hk : k ≤ ctx.num_oparam)
    (hin : MIPS32_PRACC_PARAM_IN + ctx.num_iparam * 4 < MIPS32_PRACC_PARAM_OUT)
    (hfit : MIPS32_PRACC_PARAM_OUT + ctx.num_oparam * 4 < 2 ^ 32)
    (hlen : k < ctx.local_oparam.length) :
    mips32_pracc_exec_write ctx a w
      = .ret ERROR_OK { ctx with local_oparam := ctx.local_oparam.set k w } := by
  subst ha
  simp only [MIPS32_PRACC_PARAM_IN, MIPS32_PRACC_PARAM_OUT] at hfit hin
  have e1 : (4280295424 + ctx.num_iparam * 4) % 4294967296 = 4280295424 + ctx.num_iparam * 4 :=
    Nat.mod_eq_of_lt (by omega)
  have e2 : (4280297472 + ctx.num_oparam * 4) % 4294967296 = 4280297472 + ctx.num_oparam * 4 :=
    Nat.mod_eq_of_lt (by omega)
  have i1 : (4280297472 + 4 * k - 4280297472) / 4 = k := by omega
  simp only [mips32_pracc_exec_write, MIPS32_PRACC_PARAM_IN, MIPS32_PRACC_PARAM_OUT,
    Nat.reducePow, e1, e2, i1]
  rw [if_neg (by omega), if_pos (by omega), if_pos hlen]

/-- Decoding of a write at `PRACC_STACK` when no buffer range reaches that
address: the word is pushed. -/
theorem exec_write_stack (ctx : mips32_pracc_context) (w : Nat)
    (hin : ctx.num_iparam < 2048) (hout : ctx.num_oparam < 1536)
    (h0 : 0 ≤ ctx.stack_offset) (hlen : ctx.stack_offset.toNat < ctx.stack.length) :
    mips32_pracc_exec_write ctx MIPS32_PRACC_STACK w
      = .ret ERROR_OK { ctx with stack := ctx.stack.set ctx.stack_offset.toNat w,
                                 stack_offset := ctx.stack_offset + 1 } := by
  have e1 : (4280295424 + ctx.num_iparam * 4) % 4294967296 = 4280295424 + ctx.num_iparam * 4 :=
    Nat.mod_eq_of_lt (by omega)
  have e2 : (4280297472 + ctx.num_oparam * 4) % 4294967296 = 4280297472 + ctx.num_oparam * 4 :=
    Nat.mod_eq_of_lt (by omega)
  simp only [mips32_pracc_exec_write, MIPS32_PRACC_PARAM_IN, MIPS32_PRACC_PARAM_OUT,
    MIPS32_PRACC_STACK, Nat.reducePow, e1, e2]
  rw [if_neg (by omega), if_neg (by omega), if_pos trivial, if_pos ⟨h0, hlen⟩]

/-- Decoding of a read at `PRACC_STACK` when no buffer range reaches that
address: the word on top is popped. -/
theorem exec_read_stack (ctx : mips32_pracc_context) (v : Nat)
    (hin : ctx.num_iparam < 2048) (hout : ctx.num_oparam < 1536)
    (hcode : ctx.code_len < 3968)
    (h0 : 0 ≤ ctx.stack_offset - 1)
    (hv : ctx.stack[(ctx.stack_offset - 1).toNat]? = some v) :
    mips32_pracc_exec_read ctx MIPS32_PRACC_STACK
      = .ret ERROR_OK ({ ctx with stack_offset := ctx.stack_offset - 1 }, some v) := by
  have e1 : (4280295424 + ctx.num_iparam * 4) % 4294967296 = 4280295424 + ctx.num_iparam * 4 :=
    Nat.mod_eq_of_lt (by omega)
  have e2 : (4280297472 + ctx.num_oparam * 4) % 4294967296 = 4280297472 + ctx.num_oparam * 4 :=
    Nat.mod_eq_of_lt (by omega)
  have e3 : (4280287744 + ctx.code_len * 4) % 4294967296 = 4280287744 + ctx.code_len * 4 :=
    Nat.mod_eq_of_lt (by omega)
  simp only [mips32_pracc_exec_read, MIPS32_PRACC_PARAM_IN, MIPS32_PRACC_PARAM_OUT,
    MIPS32_PRACC_TEXT, MIPS32_PRACC_STACK, Nat.reducePow, e1, e2, e3]
  rw [if_neg (by omega), if_neg (by omega), if_neg (by omega), if_pos trivial, if_pos h0, hv]

/-- The first fetch of the debug vector inside the loop. -/
theorem pracc_loop_fetch_vector (cycle : Int) (hc : cycle ≠ 0) (v : Nat) (st : PraccLoop)
    (rs : List PraccRequest) (hp : st.pass = 0)
    (hfit : MIPS32_PRACC_TEXT + st.ctx.code_len * 4 < 2 ^ 32)
    (hv : st.ctx.code[0]? = some v) :
    pracc_loop cycle st (pracc_fetch 0 :: rs)
      = pracc_loop cycle { ctx := st.ctx, pass := 1, sent := st.sent ++ [v] } rs := by
  rw [pracc_fetch, pracc_loop_read cycle hc st _ st.ctx v rs (fun _ => hp)
    (exec_read_text st.ctx _ 0 v rfl (Nat.zero_le _) (by decide) hfit hv)]
  simp [pracc_pass, hp]

/-- The fetch of a later code word inside the loop. -/
theorem pracc_loop_fetch (cycle : Int) (hc : cycle ≠ 0) (k v : Nat) (st : PraccLoop)
    (rs : List PraccRequest) (h0 : 0 < k) (hk : k ≤ st.ctx.code_len) (hlow : k < 1920)
    (hfit : MIPS32_PRACC_TEXT + st.ctx.code_len * 4 < 2 ^ 32)
    (hv : st.ctx.code[k]? = some v) :
    pracc_loop cycle st (pracc_fetch k :: rs)
      = pracc_loop cycle { ctx := st.ctx, pass := st.pass, sent := st.sent ++ [v] } rs := by
  have hne : MIPS32_PRACC_TEXT + 4 * k ≠ MIPS32_PRACC_TEXT := by omega
  rw [pracc_fetch, pracc_loop_read cycle hc st _ st.ctx v rs (fun e => absurd e hne)
    (exec_read_text st.ctx _ k v rfl hk hlow hfit hv)]
  simp [pracc_pass, hne]

/-- The load of input parameter `k` inside the loop. -/
theorem pracc_loop_load_in (cycle : Int) (hc : cycle ≠ 0) (a k v : Nat) (st : PraccLoop)
    (rs : List PraccRequest) (ha : a = MIPS32_PRACC_PARAM_IN + 4 * k)
    (hk : k ≤ st.ctx.num_iparam)
    (hfit : MIPS32_PRACC_PARAM_IN + st.ctx.num_iparam * 4 < 2 ^ 32)
    (hv : st.ctx.local_iparam[k]? = some v) :
    pracc_loop cycle st (pracc_load a :: rs)
      = pracc_loop cycle { ctx := st.ctx, pass := st.pass, sent := st.sent ++ [v] } rs := by
  have hne : a ≠ MIPS32_PRACC_TEXT := by
    subst ha; simp only [MIPS32_PRACC_PARAM_IN, MIPS32_PRACC_TEXT]; omega
  rw [pracc_loop_read cycle hc st a st.ctx v rs (fun e => absurd e hne)
    (exec_read_param_in st.ctx a k v ha hk hfit hv)]
  simp [pracc_pass, hne]

/-- The store of output parameter `k` inside the loop. -/
theorem pracc_loop_store_out (cycle : Int) (hc : cycle ≠ 0) (a k w : Nat) (st : PraccLoop)
    (rs : List PraccRequest) (ha : a = MIPS32_PRACC_PARAM_OUT + 4 * k)
    (hk : k ≤ st.ctx.num_oparam)
    (hin : MIPS32_PRACC_PARAM_IN + st.ctx.num_iparam * 4 < MIPS32_PRACC_PARAM_OUT)
    (hfit : MIPS32_PRACC_PARAM_OUT + st.ctx.num_oparam * 4 < 2 ^ 32)
    (hlen : k < st.ctx.local_oparam.length) :
    pracc_loop cycle st (pracc_store a w :: rs)
      = pracc_loop cycle
          { st with ctx := { st.ctx with local_oparam := st.ctx.local_oparam.set k w } } rs :=
  pracc_loop_write cycle hc st a w _ rs (exec_write_param_out st.ctx a k w ha hk hin hfit hlen)

/-- A push on the debug stack inside the loop. -/
theorem pracc_loop_push (cycle : Int) (hc : cycle ≠ 0) (w : Nat) (st : PraccLoop)
    (rs : List PraccRequest) (hin : st.ctx.num_iparam < 2048) (hout : st.ctx.num_oparam < 1536)
    (h0 : 0 ≤ st.ctx.stack_offset) (hlen : st.ctx.stack_offset.toNat < st.ctx.stack.length) :
    pracc_loop cycle st (pracc_store MIPS32_PRACC_STACK w :: rs)
      = pracc_loop cycle
          { st with ctx := { st.ctx with stack := st.ctx.stack.set st.ctx.stack_offset.toNat w,
                                         stack_offset := st.ctx.stack_offset + 1 } } rs :=
  pracc_loop_write cycle hc st _ w _ rs (exec_write_stack st.ctx w hin hout h0 hlen)

/-- A pop from the debug stack inside the loop. -/
theorem pracc_loop_pop (cycle : Int) (hc : cycle ≠ 0) (v : Nat) (st : PraccLoop)
    (rs : List PraccRequest) (hin : st.ctx.num_iparam < 2048) (hout : st.ctx.num_oparam < 1536)
    (hcode : st.ctx.code_len < 3968) (h0 : 0 ≤ st.ctx.stack_offset - 1)
    (hv : st.ctx.stack[(st.ctx.stack_offset - 1).toNat]? = some v) :
    pracc_loop cycle st (pracc_load MIPS32_PRACC_STACK :: rs)
      = pracc_loop cycle
          { ctx := { st.ctx with stack_offset := st.ctx.stack_offset - 1 }, pass := st.pass,
            sent := st.sent ++ [v] } rs := by
  have hne : MIPS32_PRACC_STACK ≠ MIPS32_PRACC_TEXT := by decide
  rw [pracc_loop_read cycle hc st _ _ v rs (fun e => absurd e hne)
    (exec_read_stack st.ctx v hin hout hcode h0 hv)]
  simp [pracc_pass, hne]

/-! ## C5: the single-word read -/

/-- C5: for every address `a` and word `w`, when the target answers with the
exchanges of the scenario (ten code fetches from the debug vector on, a read of
`PARAM_IN[0]`, a write of `w` to `PARAM_OUT[0]`, a second fetch of the debug
vector), `mips32_pracc_read_u32` returns `ERROR_OK` with `*buf = w`; the words
shifted out are the first ten code words followed by `a`, the answer to the read
of `PARAM_IN[0]`.  The same holds for the exchanges with the stack traffic the
snippet produces on a core, where the saved register is handed back as well. -/
theorem C5_read_u32_scenario (asm : Mips32Asm) (a w b r8 : Nat) (bs : List Nat)
    (rest : List PraccRequest) :
    mips32_pracc_read_u32 asm (read_u32_scenario w ++ rest) a (b :: bs)
      = .ret ERROR_OK (w :: bs) ((mips32_pracc_read_u32_code asm).take 10 ++ [a]) rest
    ∧ mips32_pracc_read_u32 asm (read_u32_trace r8 w ++ rest) a (b :: bs)
      = .ret ERROR_OK (w :: bs)
          ((mips32_pracc_read_u32_code asm).take 5 ++ [a]
            ++ ((mips32_pracc_read_u32_code asm).drop 5).take 3 ++ [r8]
            ++ ((mips32_pracc_read_u32_code asm).drop 8).take 2) rest := by
  have hc : (1 : Int) ≠ 0 := by decide
  constructor
  · unfold mips32_pracc_read_u32 mips32_pracc_exec pracc_init
    simp only [read_u32_scenario, List.range, List.range.loop, List.map, List.cons_append,
      List.nil_append, mips32_pracc_read_u32_code, List.length]
    rw [pracc_loop_fetch_vector 1 hc (asm.MTC0 15 31 0)]; dsimp only
    rw [pracc_loop_fetch 1 hc 1 (asm.LUI 15 (asm.UPPER16 MIPS32_PRACC_STACK))]; dsimp only
    rw [pracc_loop_fetch 1 hc 2 (asm.ORI 15 15 (asm.LOWER16 MIPS32_PRACC_STACK))]; dsimp only
    rw [pracc_loop_fetch 1 hc 3 (asm.SW 8 0 15)]; dsimp only
    rw [pracc_loop_fetch 1 hc 4
      (asm.LW 8 (asm.NEG16 (MIPS32_PRACC_STACK - MIPS32_PRACC_PARAM_IN)) 15)]; dsimp only
    rw [pracc_loop_fetch 1 hc 5 (asm.LW 8 0 8)]; dsimp only
    rw [pracc_loop_fetch 1 hc 6
      (asm.SW 8 (asm.NEG16 (MIPS32_PRACC_STACK - MIPS32_PRACC_PARAM_OUT)) 15)]; dsimp only
    rw [pracc_loop_fetch 1 hc 7 (asm.LW 8 0 15)]; dsimp only
    rw [pracc_loop_fetch 1 hc 8 (asm.B (asm.NEG16 9))]; dsimp only
    rw [pracc_loop_fetch 1 hc 9 (asm.MFC0 15 31 0)]; dsimp only
    rw [pracc_loop_load_in 1 hc MIPS32_PRACC_PARAM_IN 0 a]; dsimp only
    rw [pracc_loop_store_out 1 hc MIPS32_PRACC_PARAM_OUT 0 w]; dsimp only
    rw [pracc_loop_exit 1 _ _ Nat.one_ne_zero]
    simp only [MemOp.ofExec, List.set, List.take, List.nil_append, List.cons_append]
    all_goals first
      | rfl
      | simp [MIPS32_PRACC_TEXT, MIPS32_PRACC_PARAM_IN, MIPS32_PRACC_PARAM_OUT]
  · unfold mips32_pracc_read_u32 mips32_pracc_exec pracc_init
    simp only [read_u32_trace, List.cons_append, List.nil_append, mips32_pracc_read_u32_code,
      List.length]
    rw [pracc_loop_fetch_vector 1 hc (asm.MTC0 15 31 0)]; dsimp only
    rw [pracc_loop_fetch 1 hc 1 (asm.LUI 15 (asm.UPPER16 MIPS32_PRACC_STACK))]; dsimp only
    rw [pracc_loop_fetch 1 hc 2 (asm.ORI 15 15 (asm.LOWER16 MIPS32_PRACC_STACK))]; dsimp only
    rw [pracc_loop_fetch 1 hc 3 (asm.SW 8 0 15)]; dsimp only
    rw [pracc_loop_push 1 hc r8]; dsimp only
    rw [pracc_loop_fetch 1 hc 4
      (asm.LW 8 (asm.NEG16 (MIPS32_PRACC_STACK - MIPS32_PRACC_PARAM_IN)) 15)]; dsimp only
    rw [pracc_loop_load_in 1 hc MIPS32_PRACC_PARAM_IN 0 a]; dsimp only
    rw [pracc_loop_fetch 1 hc 5 (asm.LW 8 0 8)]; dsimp only
    rw [pracc_loop_fetch 1 hc 6
      (asm.SW 8 (asm.NEG16 (MIPS32_PRACC_STACK - MIPS32_PRACC_PARAM_OUT)) 15)]; dsimp only
    rw [pracc_loop_store_out 1 hc MIPS32_PRACC_PARAM_OUT 0 w]; dsimp only
    rw [pracc_loop_fetch 1 hc 7 (asm.LW 8 0 15)]; dsimp only
    rw [pracc_loop_pop 1 hc r8]; dsimp only
    rw [pracc_loop_fetch 1 hc 8 (asm.B (asm.NEG16 9))]; dsimp only
    rw [pracc_loop_fetch 1 hc 9 (asm.MFC0 15 31 0)]; dsimp only
    rw [pracc_loop_exit 1 _ _ Nat.one_ne_zero]
    simp only [MemOp.ofExec, List.set, List.take, List.drop, List.nil_append, List.cons_append]
    all_goals first
      | rfl
      | simp [MIPS32_PRACC_TEXT, MIPS32_PRACC_PARAM_IN, MIPS32_PRACC_PARAM_OUT]

/-! ## C6: the stack offset when `mips32_pracc_exec` returns -/

/-- A write moves the stack offset up by one exactly when it is a write at
`PRACC_STACK` (no buffer range reaching that address). -/
theorem exec_write_offset (ctx ctx1 : mips32_pracc_context) (a d : Nat) (retval : Int)
    (hin : ctx.num_iparam < 2048) (hout : ctx.num_oparam < 1536)
    (h : mips32_pracc_exec_write ctx a d = .ret retval ctx1) :
    ctx1.stack_offset = ctx.stack_offset + (if a = MIPS32_PRACC_STACK then 1 else 0) := by
  have e1 : (4280295424 + ctx.num_iparam * 4) % 4294967296 = 4280295424 + ctx.num_iparam * 4 :=
    Nat.mod_eq_of_lt (by omega)
  have e2 : (4280297472 + ctx.num_oparam * 4) % 4294967296 = 4280297472 + ctx.num_oparam * 4 :=
    Nat.mod_eq_of_lt (by omega)
  simp only [mips32_pracc_exec_write, MIPS32_PRACC_PARAM_IN, MIPS32_PRACC_PARAM_OUT,
    MIPS32_PRACC_STACK, Nat.reducePow, e1, e2] at h
  simp only [MIPS32_PRACC_STACK]
  split_ifs at h with c1 c2 c3 c4 c5 c6 <;> cases h <;> (try simp only []) <;>
    first
      | (rw [if_neg (by omega)]; simp)
      | (rw [if_pos (by assumption)])

/-- A read moves the stack offset down by one exactly when it is a read at
`PRACC_STACK` (no buffer range reaching that address). -/
theorem exec_read_offset (ctx ctx1 : mips32_pracc_context) (a : Nat) (retval : Int)
    (w : Option Nat)
    (hin : ctx.num_iparam < 2048) (hout : ctx.num_oparam < 1536) (hcode : ctx.code_len < 3968)
    (h : mips32_pracc_exec_read ctx a = .ret retval (ctx1, w)) :
    ctx1.stack_offset = ctx.stack_offset - (if a = MIPS32_PRACC_STACK then 1 else 0) := by
  have e1 : (4280295424 + ctx.num_iparam * 4) % 4294967296 = 4280295424 + ctx.num_iparam * 4 :=
    Nat.mod_eq_of_lt (by omega)
  have e2 : (4280297472 + ctx.num_oparam * 4) % 4294967296 = 4280297472 + ctx.num_oparam * 4 :=
    Nat.mod_eq_of_lt (by omega)
  have e3 : (4280287744 + ctx.code_len * 4) % 4294967296 = 4280287744 + ctx.code_len * 4 :=
    Nat.mod_eq_of_lt (by omega)
  simp only [mips32_pracc_exec_read, MIPS32_PRACC_PARAM_IN, MIPS32_PRACC_PARAM_OUT,
    MIPS32_PRACC_TEXT, MIPS32_PRACC_STACK, Nat.reducePow, e1, e2, e3] at h
  simp only [MIPS32_PRACC_STACK]
  split_ifs at h with c1 c2 c3 c4 c5 <;> (try split at h) <;> cases h <;>
    (try simp only []) <;>
    first
      | (rw [if_neg (by omega)]; simp)
      | (rw [if_pos (by assumption)])

/-- One iteration moves the stack offset by the pushes minus the pops of the
request it serves. -/
theorem pracc_body_offset (cycle : Int) (st st1 : PraccLoop) (r : PraccRequest)
    (hin : st.ctx.num_iparam < 2048) (hout : st.ctx.num_oparam < 1536)
    (hcode : st.ctx.code_len < 3968)
    (h : pracc_body cycle st r = .next st1 ∨ ∃ rv, pracc_body cycle st r = .stop rv st1) :
    st1.ctx.stack_offset
      = st.ctx.stack_offset + (pracc_stack_writes [r] : Int) - (pracc_stack_reads [r] : Int) := by
  simp only [pracc_stack_writes, pracc_stack_reads, List.countP_cons, List.countP_nil]
  unfold pracc_body at h
  by_cases hp : r.pracc = true
  · by_cases hw : r.prnw = true
    · cases hx : mips32_pracc_exec_write st.ctx r.address r.data with
      | fault => simp [wait_for_pracc_rw, hp, hw, hx, ERROR_OK] at h
      | ret rv ctx =>
        have ho := exec_write_offset _ _ _ _ _ hin hout hx
        simp only [wait_for_pracc_rw, hp, hw, hx, if_true, ne_eq, not_true_eq_false,
          if_false] at h
        split_ifs at h <;> rcases h with h | ⟨rv1, h⟩ <;> cases h <;>
          (by_cases ha : r.address = MIPS32_PRACC_STACK <;> simp [ho, hp, hw, ha])
    · have hw0 : r.prnw = false := by simpa using hw
      simp only [wait_for_pracc_rw, hp, hw0, if_true, ne_eq, not_true_eq_false,
        if_false, Bool.false_eq_true] at h
      by_cases ht : r.address = MIPS32_PRACC_TEXT ∧ ¬ st.pass = 0
      · have ha : ¬ r.address = MIPS32_PRACC_STACK := by
          rw [ht.1]; decide
        rw [if_pos ht] at h
        rcases h with h | ⟨rv1, h⟩ <;> cases h
        simp [hp, hw0, ha]
      · rw [if_neg ht] at h
        cases hx : mips32_pracc_exec_read st.ctx r.address with
        | fault => simp [hx] at h
        | ret rv p =>
          obtain ⟨ctx, word⟩ := p
          have ho := exec_read_offset _ _ _ _ _ hin hout hcode hx
          simp only [hx] at h
          split_ifs at h <;> rcases h with h | ⟨rv1, h⟩ <;> cases h <;>
            (by_cases ha : r.address = MIPS32_PRACC_STACK <;> simp [ho, hp, hw0, ha])
  · have hp0 : r.pracc = false := by simpa using hp
    simp [wait_for_pracc_rw, hp0, ERROR_OK, ERROR_JTAG_DEVICE_ERROR] at h
    subst h
    simp [hp0]

/-- When the loop returns, the stack offset has moved by the pushes minus the
pops of the requests it served. -/
theorem pracc_loop_offset (cycle : Int) (reqs rest : List PraccRequest) (st st1 : PraccLoop)
    (retval : Int)
    (hin : st.ctx.num_iparam < 2048) (hout : st.ctx.num_oparam < 1536)
    (hcode : st.ctx.code_len < 3968)
    (h : pracc_loop cycle st reqs = .returned retval st1 rest) :
    ∃ served, reqs = served ++ rest
      ∧ st1.ctx.stack_offset
          = st.ctx.stack_offset + (pracc_stack_writes served : Int)
              - (pracc_stack_reads served : Int) := by
  induction reqs generalizing st with
  | nil => simp [pracc_loop] at h
  | cons x xs ih =>
    rw [pracc_loop_cons] at h
    cases hb : pracc_body cycle st x with
    | fault => rw [hb] at h; cases h
    | stop rv st2 =>
      rw [hb] at h
      cases h
      exact ⟨[x], rfl, pracc_body_offset cycle st st1 x hin hout hcode (Or.inr ⟨_, hb⟩)⟩
    | next st2 =>
      rw [hb] at h
      have hf := pracc_body_frame cycle st st2 x hb
      have ho := pracc_body_offset cycle st st2 x hin hout hcode (Or.inl hb)
      obtain ⟨served, hs, hso⟩ := ih st2 (by rw [hf.2.2.1]; exact hin)
        (by rw [hf.2.2.2.1]; exact hout) (by rw [hf.2.1]; exact hcode) h
      refine ⟨x :: served, by rw [hs]; rfl, ?_⟩
      rw [hso, ho]
      simp only [pracc_stack_writes, pracc_stack_reads, List.countP_cons, List.countP_nil]
      push_cast
      ring

/-- C6 as stated fails: the target fetches the vector, stores one word at
`PRACC_STACK` and fetches the vector again; `mips32_pracc_exec` returns
`ERROR_OK` with the stack offset at one. -/
theorem C6_counterexample :
    mips32_pracc_exec [pracc_fetch 0, pracc_store MIPS32_PRACC_STACK 9, pracc_fetch 0]
        1 [7] 0 [] 0 [] 1
      = .returned ERROR_OK
          { ctx := { local_iparam := [], num_iparam := 0, local_oparam := [], num_oparam := 0,
                     code := [7], code_len := 1,
                     stack := 9 :: List.replicate 31 0, stack_offset := 1 },
            pass := 2, sent := [7] } []
    ∧ (1 : Int) ≠ 0 := by
  constructor <;> decide

/-- C6, amended: whenever `mips32_pracc_exec` returns `ERROR_OK`, the stack
offset equals the number of served processor writes at `PRACC_STACK` minus the
number of served processor reads at `PRACC_STACK`; it is zero exactly when the
two are equal.  (The buffers are short enough for no range to reach
`PRACC_STACK`.) -/
theorem C6_stack_offset_counts_pushes_and_pops (reqs rest : List PraccRequest)
    (code_len : Nat) (code : List Nat) (num_param_in : Nat) (param_in : List Nat)
    (num_param_out : Nat) (param_out : List Nat) (cycle : Int) (st : PraccLoop)
    (hin : num_param_in < 2048) (hout : num_param_out < 1536) (hcode : code_len < 3968)
    (h : mips32_pracc_exec reqs code_len code num_param_in param_in num_param_out param_out
          cycle = .returned ERROR_OK st rest) :
    ∃ served, reqs = served ++ rest
      ∧ st.ctx.stack_offset
          = (pracc_stack_writes served : Int) - (pracc_stack_reads served : Int)
      ∧ (st.ctx.stack_offset = 0 ↔ pracc_stack_writes served = pracc_stack_reads served) := by
  obtain ⟨served, hs, ho⟩ := pracc_loop_offset cycle reqs rest _ st ERROR_OK
    (by simpa [pracc_init] using hin) (by simpa [pracc_init] using hout)
    (by simpa [pracc_init] using hcode) h
  simp only [pracc_init, zero_add] at ho
  refine ⟨served, hs, ho, ?_⟩
  rw [ho]
  omega

/-- C6 at a concrete run: one push and one pop between the two fetches of the
vector, and the offset is back at zero. -/
theorem C6_stack_offset_counts_pushes_and_pops_witness :
    ∃ served,
      [pracc_fetch 0, pracc_store MIPS32_PRACC_STACK 9, pracc_load MIPS32_PRACC_STACK,
        pracc_fetch 0] = served ++ []
      ∧ (0 : Int) = (pracc_stack_writes served : Int) - (pracc_stack_reads served : Int)
      ∧ ((0 : Int) = 0 ↔ pracc_stack_writes served = pracc_stack_reads served) :=
  C6_stack_offset_counts_pushes_and_pops
    [pracc_fetch 0, pracc_store MIPS32_PRACC_STACK 9, pracc_load MIPS32_PRACC_STACK,
      pracc_fetch 0] [] 1 [7] 0 [] 0 [] 1
    { ctx := { local_iparam := [], num_iparam := 0, local_oparam := [], num_oparam := 0,
               code := [7], code_len := 1,
               stack := 9 :: List.replicate 31 0, stack_offset := 0 },
      pass := 2, sent := [7, 9] }
    (by decide) (by decide) (by decide) (by decide)

/-! ## C7: the debug stack -/

/-- The load of output parameter `k` inside the loop. -/
theorem pracc_loop_load_out (cycle : Int) (hc : cycle ≠ 0) (a k v : Nat) (st : PraccLoop)
    (rs : List PraccRequest) (ha : a = MIPS32_PRACC_PARAM_OUT + 4 * k)
    (hk : k ≤ st.ctx.num_oparam)
    (hin : MIPS32_PRACC_PARAM_IN + st.ctx.num_iparam * 4 < MIPS32_PRACC_PARAM_OUT)
    (hfit : MIPS32_PRACC_PARAM_OUT + st.ctx.num_oparam * 4 < 2 ^ 32)
    (hv : st.ctx.local_oparam[k]? = some v) :
    pracc_loop cycle st (pracc_load a :: rs)
      = pracc_loop cycle { ctx := st.ctx, pass := st.pass, sent := st.sent ++ [v] } rs := by
  have hne : a ≠ MIPS32_PRACC_TEXT := by
    subst ha; simp only [MIPS32_PRACC_PARAM_OUT, MIPS32_PRACC_TEXT]; omega
  rw [pracc_loop_read cycle hc st a st.ctx v rs (fun e => absurd e hne)
    (exec_read_param_out st.ctx a k v ha hk hin hfit hv)]
  simp [pracc_pass, hne]

/-- Pushes followed by as many pops: the words come back in reverse order, the
offset returns to its value, the stack below it and everything else in the
context is untouched. -/
theorem pracc_stack_lifo (cycle : Int) (hc : cycle ≠ 0) (ws : List Nat) :
    ∀ (st : PraccLoop) (rs : List PraccRequest),
      st.ctx.stack.length = 32 → 0 ≤ st.ctx.stack_offset →
      st.ctx.stack_offset + ws.length ≤ 32 →
      st.ctx.num_iparam < 2048 → st.ctx.num_oparam < 1536 → st.ctx.code_len < 3968 →
      ∃ st1, pracc_loop cycle st
            (ws.map (pracc_store MIPS32_PRACC_STACK)
              ++ List.replicate ws.length (pracc_load MIPS32_PRACC_STACK) ++ rs)
          = pracc_loop cycle st1 rs
        ∧ st1.sent = st.sent ++ ws.reverse
        ∧ st1.ctx.stack_offset = st.ctx.stack_offset
        ∧ st1.ctx.stack.length = 32
        ∧ (∀ i : Nat, (i : Int) < st.ctx.stack_offset →
            st1.ctx.stack[i]? = st.ctx.stack[i]?)
        ∧ st1.pass = st.pass
        ∧ st1.ctx.local_iparam = st.ctx.local_iparam
        ∧ st1.ctx.local_oparam = st.ctx.local_oparam
        ∧ st1.ctx.num_iparam = st.ctx.num_iparam
        ∧ st1.ctx.num_oparam = st.ctx.num_oparam
        ∧ st1.ctx.code_len = st.ctx.code_len
        ∧ st1.ctx.code = st.ctx.code := by
  induction ws with
  | nil =>
    intro st rs _ _ _ _ _ _
    exact ⟨st, by simp, by simp, rfl, by assumption, fun _ _ => rfl, rfl, rfl, rfl, rfl, rfl,
      rfl, rfl⟩
  | cons w ws ih =>
    intro st rs hlen h0 hn hin hout hcode
    simp only [List.length_cons, Nat.cast_add, Nat.cast_one] at hn
    have hlt : st.ctx.stack_offset.toNat < st.ctx.stack.length := by omega
    obtain ⟨st1, hrun, hsent, hoff, hlen1, hstack, hpass, hpi, hpo, hni, hno, hcl, hco⟩ :=
      ih { st with ctx := { st.ctx with stack := st.ctx.stack.set st.ctx.stack_offset.toNat w,
                                        stack_offset := st.ctx.stack_offset + 1 } }
        (pracc_load MIPS32_PRACC_STACK :: rs)
        (by simp [hlen]) (by simp only; omega) (by simp only; omega) hin hout hcode
    simp only at hsent hoff hlen1 hstack hpass hpi hpo hni hno hcl hco
    have htop : st1.ctx.stack[(st1.ctx.stack_offset - 1).toNat]? = some w := by
      have e : (st1.ctx.stack_offset - 1).toNat = st.ctx.stack_offset.toNat := by omega
      rw [e, hstack st.ctx.stack_offset.toNat (by omega)]
      simp [hlt]
    refine ⟨{ ctx := { st1.ctx with stack_offset := st1.ctx.stack_offset - 1 },
              pass := st1.pass, sent := st1.sent ++ [w] }, ?_, ?_, ?_, ?_, ?_, ?_, ?_, ?_, ?_,
            ?_, ?_, ?_⟩
    · have hl : (w :: ws).map (pracc_store MIPS32_PRACC_STACK)
            ++ List.replicate (w :: ws).length (pracc_load MIPS32_PRACC_STACK) ++ rs
          = pracc_store MIPS32_PRACC_STACK w ::
              (ws.map (pracc_store MIPS32_PRACC_STACK)
                ++ List.replicate ws.length (pracc_load MIPS32_PRACC_STACK)
                ++ (pracc_load MIPS32_PRACC_STACK :: rs)) := by
        simp [List.replicate_succ', List.append_assoc]
      rw [hl, pracc_loop_push cycle hc w st _ hin hout h0 hlt, hrun,
        pracc_loop_pop cycle hc w st1 rs (by omega) (by omega) (by omega) (by omega) htop]
    · simp [hsent, List.append_assoc]
    · simp only; omega
    · exact hlen1
    · intro i hi
      simp only
      rw [hstack i (by omega)]
      exact List.getElem?_set_ne (by omega)
    · exact hpass
    · exact hpi
    · exact hpo
    · exact hni
    · exact hno
    · exact hcl
    · exact hco

/-- C7 as stated fails: with 1537 output parameters declared, the address
`PRACC_STACK = PRACC_PARAM_OUT + 4 * 1536` is decoded as `param_out[1536]`.  Two
writes of 1 and 2 at `PRACC_STACK` followed by two reads are answered with 2 and
2, not with 2 and 1. -/
theorem C7_counterexample :
    (mips32_pracc_exec
        [pracc_store MIPS32_PRACC_STACK 1, pracc_store MIPS32_PRACC_STACK 2,
          pracc_load MIPS32_PRACC_STACK, pracc_load MIPS32_PRACC_STACK]
        1 [7] 0 [] 1537 (List.replicate 1537 0) 1).sent = [2, 2] := by
  have hc : (1 : Int) ≠ 0 := by decide
  unfold mips32_pracc_exec pracc_init
  rw [pracc_loop_store_out 1 hc MIPS32_PRACC_STACK 1536 1]; dsimp only
  rw [pracc_loop_store_out 1 hc MIPS32_PRACC_STACK 1536 2]; dsimp only
  rw [pracc_loop_load_out 1 hc MIPS32_PRACC_STACK 1536 2]; dsimp only
  rw [pracc_loop_load_out 1 hc MIPS32_PRACC_STACK 1536 2]; dsimp only
  · rfl
  all_goals try simp [MIPS32_PRACC_PARAM_IN, MIPS32_PRACC_PARAM_OUT, MIPS32_PRACC_STACK]
  all_goals dsimp only
  all_goals try
    rw [List.getElem?_set_self (by simp only [List.length_set, List.length_replicate]; omega)]
  all_goals try (simp only [List.length_set, List.length_replicate]; omega)

/-- C7, amended: when no buffer range reaches `PRACC_STACK` (fewer than 2048
input parameters, 1536 output parameters and 3968 code words), the debug stack
is a LIFO: for all words `ws`, starting from any offset `s` with
`0 ≤ s` and `s + |ws| ≤ 32`, after the writes of `ws` at `PRACC_STACK` the same
number of reads at `PRACC_STACK` are answered with `ws` in reverse order, the
offset is `s` again, and the parameter buffers are untouched. -/
theorem C7_debug_stack_is_lifo (cycle : Int) (hc : cycle ≠ 0) (st : PraccLoop)
    (ws : List Nat)
    (hlen : st.ctx.stack.length = 32) (h0 : 0 ≤ st.ctx.stack_offset)
    (hn : st.ctx.stack_offset + ws.length ≤ 32)
    (hin : st.ctx.num_iparam < 2048) (hout : st.ctx.num_oparam < 1536)
    (hcode : st.ctx.code_len < 3968) :
    ∃ st1, pracc_loop cycle st
          (ws.map (pracc_store MIPS32_PRACC_STACK)
            ++ List.replicate ws.length (pracc_load MIPS32_PRACC_STACK))
        = .running st1
      ∧ st1.sent = st.sent ++ ws.reverse
      ∧ st1.ctx.stack_offset = st.ctx.stack_offset
      ∧ st1.ctx.local_iparam = st.ctx.local_iparam
      ∧ st1.ctx.local_oparam = st.ctx.local_oparam := by
  obtain ⟨st1, hrun, hsent, hoff, _, _, _, hpi, hpo, _⟩ :=
    pracc_stack_lifo cycle hc ws st [] hlen h0 hn hin hout hcode
  refine ⟨st1, ?_, hsent, hoff, hpi, hpo⟩
  rw [List.append_nil] at hrun
  rw [hrun]
  rfl

/-- C7 at a concrete run: three words pushed on the empty stack of a fresh
context come back in reverse order. -/
theorem C7_debug_stack_is_lifo_witness :
    ∃ st1, pracc_loop 1 (pracc_init 1 [7] 0 [] 0 [])
          ([1, 2, 3].map (pracc_store MIPS32_PRACC_STACK)
            ++ List.replicate [1, 2, 3].length (pracc_load MIPS32_PRACC_STACK))
        = .running st1
      ∧ st1.sent = (pracc_init 1 [7] 0 [] 0 []).sent ++ [1, 2, 3].reverse
      ∧ st1.ctx.stack_offset = (pracc_init 1 [7] 0 [] 0 []).ctx.stack_offset
      ∧ st1.ctx.local_iparam = (pracc_init 1 [7] 0 [] 0 []).ctx.local_iparam
      ∧ st1.ctx.local_oparam = (pracc_init 1 [7] 0 [] 0 []).ctx.local_oparam :=
  C7_debug_stack_is_lifo 1 (by decide) (pracc_init 1 [7] 0 [] 0 []) [1, 2, 3]
    (by decide) (by decide) (by decide) (by decide) (by decide) (by decide)

/-! ## C8: discovery of the breakpoint unit -/

/-- Entry `i` of a comparator list has register address `base + 0x100 * i` and
is otherwise zero. -/
theorem mips32_comparator_list_get (base n i : Nat) (h : i < n) :
    (mips32_comparator_list base n)[i]?
      = some { used := 0, bp_value := 0, reg_address := base + 0x100 * i } := by
  simp [mips32_comparator_list, h]

/-- C8: with `bp_scanned` set, `mips32_configure_break_unit` returns `ERROR_OK`
with no target access and no change.  With `bp_scanned` clear and every target
access succeeding, it returns `ERROR_OK` and sets `bp_scanned = 1`; if DCR.IB is
set the two instruction-breakpoint counts become bits 27:24 of the value read
from `EJTAG_IBS`, slot `i` gets the register address `EJTAG_IBA1 + 0x100 * i`,
and 0 is written to `EJTAG_IBS` after the read; if DCR.IB is clear these fields
are unchanged and `EJTAG_IBS` is not touched; the same holds for DCR.DB,
`EJTAG_DBS`, `EJTAG_DBA1` and the data-breakpoint fields. -/
theorem C8_configure_break_unit {W : Type} (e : EjtagRegs) (bus : TargetBus)
    (t : mips32_target W) :
    (t.bp_scanned ≠ 0 →
      mips32_configure_break_unit e bus t = { retval := ERROR_OK, target := t, log := [] })
    ∧ (t.bp_scanned = 0 → (∀ a, (bus.read_u32 a).1 = ERROR_OK) →
        (∀ a v, bus.write_u32 a v = ERROR_OK) →
        (mips32_configure_break_unit e bus t).retval = ERROR_OK
        ∧ (mips32_configure_break_unit e bus t).target.bp_scanned = 1
        ∧ ((bus.read_u32 e.EJTAG_DCR).2 &&& e.EJTAG_DCR_IB ≠ 0 →
            (mips32_configure_break_unit e bus t).target.num_inst_bpoints
                = (((bus.read_u32 e.EJTAG_IBS).2 >>> 24) &&& 0x0F : Nat)
            ∧ (mips32_configure_break_unit e bus t).target.num_inst_bpoints_avail
                = (((bus.read_u32 e.EJTAG_IBS).2 >>> 24) &&& 0x0F : Nat)
            ∧ (mips32_configure_break_unit e bus t).target.inst_break_list
                = mips32_comparator_list EJTAG_IBA1
                    (((bus.read_u32 e.EJTAG_IBS).2 >>> 24) &&& 0x0F)
            ∧ ∀ i, i < ((bus.read_u32 e.EJTAG_IBS).2 >>> 24) &&& 0x0F →
                (mips32_configure_break_unit e bus t).target.inst_break_list[i]?
                  = some { used := 0, bp_value := 0, reg_address := EJTAG_IBA1 + 0x100 * i })
        ∧ ((bus.read_u32 e.EJTAG_DCR).2 &&& e.EJTAG_DCR_IB = 0 →
            (mips32_configure_break_unit e bus t).target.num_inst_bpoints = t.num_inst_bpoints
            ∧ (mips32_configure_break_unit e bus t).target.num_inst_bpoints_avail
                = t.num_inst_bpoints_avail
            ∧ (mips32_configure_break_unit e bus t).target.inst_break_list = t.inst_break_list)
        ∧ ((bus.read_u32 e.EJTAG_DCR).2 &&& e.EJTAG_DCR_DB ≠ 0 →
            (mips32_configure_break_unit e bus t).target.num_data_bpoints
                = (((bus.read_u32 e.EJTAG_DBS).2 >>> 24) &&& 0x0F : Nat)
            ∧ (mips32_configure_break_unit e bus t).target.num_data_bpoints_avail
                = (((bus.read_u32 e.EJTAG_DBS).2 >>> 24) &&& 0x0F : Nat)
            ∧ (mips32_configure_break_unit e bus t).target.data_break_list
                = mips32_comparator_list EJTAG_DBA1
                    (((bus.read_u32 e.EJTAG_DBS).2 >>> 24) &&& 0x0F)
            ∧ ∀ i, i < ((bus.read_u32 e.EJTAG_DBS).2 >>> 24) &&& 0x0F →
                (mips32_configure_break_unit e bus t).target.data_break_list[i]?
                  = some { used := 0, bp_value := 0, reg_address := EJTAG_DBA1 + 0x100 * i })
        ∧ ((bus.read_u32 e.EJTAG_DCR).2 &&& e.EJTAG_DCR_DB = 0 →
            (mips32_configure_break_unit e bus t).target.num_data_bpoints = t.num_data_bpoints
            ∧ (mips32_configure_break_unit e bus t).target.num_data_bpoints_avail
                = t.num_data_bpoints_avail
            ∧ (mips32_configure_break_unit e bus t).target.data_break_list = t.data_break_list)
        ∧ (mips32_configure_break_unit e bus t).log
            = [BusOp.read e.EJTAG_DCR]
              ++ (if (bus.read_u32 e.EJTAG_DCR).2 &&& e.EJTAG_DCR_IB ≠ 0
                    then [BusOp.read e.EJTAG_IBS, BusOp.write e.EJTAG_IBS 0] else [])
              ++ (if (bus.read_u32 e.EJTAG_DCR).2 &&& e.EJTAG_DCR_DB ≠ 0
                    then [BusOp.read e.EJTAG_DBS, BusOp.write e.EJTAG_DBS 0] else [])) := by
  constructor
  · intro h
    simp [mips32_configure_break_unit, h]
  · intro h hr hw
    by_cases hib : (bus.read_u32 e.EJTAG_DCR).2 &&& e.EJTAG_DCR_IB = 0 <;>
      by_cases hdb : (bus.read_u32 e.EJTAG_DCR).2 &&& e.EJTAG_DCR_DB = 0 <;>
      simp [mips32_configure_break_unit, h, hr, hw, hib, hdb]
    all_goals first
      | exact fun i hi => mips32_comparator_list_get _ _ i hi
      | exact ⟨fun i hi => mips32_comparator_list_get _ _ i hi,
          fun i hi => mips32_comparator_list_get _ _ i hi⟩

/-- C8 at a concrete unit: DCR shows both IB and DB, IBS reports 4 instruction
breakpoints, DBS reports 2 data breakpoints. -/
theorem C8_configure_break_unit_witness :
    (mips32_configure_break_unit
        { EJTAG_DCR := 0xFF300000, EJTAG_IBS := 0xFF301000, EJTAG_DBS := 0xFF302000,
          EJTAG_DCR_IB := 0x10000, EJTAG_DCR_DB := 0x20000, EJTAG_DCR_INTE := 0x10 }
        { read_u32 := fun a =>
            (0, if a = 0xFF300000 then 0x30000 else if a = 0xFF301000 then 0x04000000
                else 0x02000000),
          write_u32 := fun _ _ => 0 }
        ({ state := .TARGET_HALTED, common_magic := MIPS32_COMMON_MAGIC,
           isa_mode := .MIPS32_ISA_MIPS32, core_regs := [], reg_list := [], bp_scanned := 0,
           num_inst_bpoints := 0, num_data_bpoints := 0, num_inst_bpoints_avail := 0,
           num_data_bpoints_avail := 0, inst_break_list := [], data_break_list := [],
           world := () } : mips32_target Unit)).retval = ERROR_OK :=
  ((C8_configure_break_unit _ _ _).2 rfl (fun _ => rfl) (fun _ _ => rfl)).1

/-! ## C9: the register cache across `mips32_run_algorithm` -/

/-- Entry `j` after one pass of the restore loop. -/
theorem mips32_restore_step_get (context : List Nat) (rl : List reg) (i j : Nat) :
    (mips32_restore_step context rl i).length = rl.length
    ∧ (mips32_restore_step context rl i).getD j default
      = if j = i ∧ i < rl.length ∧ (rl.getD i default).value ≠ context.getD i 0 then
          { (rl.getD i default) with value := context.getD i 0, valid := true, dirty := true }
        else rl.getD j default := by
  unfold mips32_restore_step
  by_cases hv : (rl.getD i default).value ≠ context.getD i 0
  · rw [if_pos hv]
    refine ⟨by simp, ?_⟩
    by_cases hj : j = i
    · subst hj
      by_cases hl : j < rl.length
      · have hv1 := hv
        simp only [List.getD_eq_getElem?_getD, List.getElem?_eq_getElem hl,
          Option.getD_some] at hv1
        simp [hv1, hl, List.getD_eq_getElem?_getD]
      · simp [hv, hl, List.getD_eq_getElem?_getD]
        rw [List.set_eq_of_length_le (by omega)]
    · have : ¬ (j = i ∧ i < rl.length ∧ (rl.getD i default).value ≠ context.getD i 0) :=
        fun h => hj h.1
      rw [if_neg this]
      simp only [List.getD_eq_getElem?_getD]
      rw [List.getElem?_set_ne (Ne.symm hj)]
  · rw [if_neg hv]
    refine ⟨rfl, ?_⟩
    have : ¬ (j = i ∧ i < rl.length ∧ (rl.getD i default).value ≠ context.getD i 0) :=
      fun h => hv h.2.2
    rw [if_neg this]
/-- Entry `j` after the first `n` passes of the restore loop. -/
theorem mips32_restore_fold (context : List Nat) (rl : List reg) (n : Nat)
    (hn : n ≤ rl.length) :
    ((List.range n).foldl (mips32_restore_step context) rl).length = rl.length
    ∧ ∀ j, ((List.range n).foldl (mips32_restore_step context) rl).getD j default
        = if j < n ∧ (rl.getD j default).value ≠ context.getD j 0 then
            { (rl.getD j default) with value := context.getD j 0, valid := true, dirty := true }
          else rl.getD j default := by
  induction n with
  | zero => simp
  | succ n ih =>
    obtain ⟨hl, hg⟩ := ih (by omega)
    rw [List.range_succ, List.foldl_append]
    simp only [List.foldl_cons, List.foldl_nil]
    refine ⟨by rw [(mips32_restore_step_get context _ n 0).1, hl], fun j => ?_⟩
    rw [(mips32_restore_step_get context _ n j).2, hl, hg n, hg j]
    have hnn : ¬ (n < n ∧ (rl.getD n default).value ≠ context.getD n 0) := fun h => by omega
    rw [if_neg hnn]
    by_cases hj : j = n
    · subst hj
      by_cases hv : (rl.getD j default).value ≠ context.getD j 0
      · rw [if_pos ⟨rfl, by omega, hv⟩, if_pos ⟨by omega, hv⟩]
      · rw [if_neg (fun h => hv h.2.2), if_neg (fun h => hv h.2), if_neg (fun h => hv h.2)]
    · rw [if_neg (fun h => hj h.1)]
      by_cases hc : j < n ∧ (rl.getD j default).value ≠ context.getD j 0
      · rw [if_pos hc, if_pos ⟨by omega, hc.2⟩]
      · rw [if_neg hc, if_neg (fun h => hc ⟨by omega, h.2⟩)]
/-- Entry `j` after one pass of the refresh loop, and what the pass appends to
`context`. -/
theorem mips32_refresh_step_get {W : Type} (acc : mips32_target W × List Nat) (i j : Nat)
    (hi : i < MIPS32NUMCOREREGS) :
    (mips32_refresh_step acc i).1.reg_list.length = acc.1.reg_list.length
    ∧ (mips32_refresh_step acc i).1.core_regs = acc.1.core_regs
    ∧ (mips32_refresh_step acc i).2
        = acc.2 ++ [((mips32_refresh_step acc i).1.reg_list.getD i default).value]
    ∧ (mips32_refresh_step acc i).1.reg_list.getD j default
      = if j = i ∧ i < acc.1.reg_list.length ∧ (acc.1.reg_list.getD i default).valid = false
        then { (acc.1.reg_list.getD i default) with
                 value := acc.1.core_regs.getD i 0, valid := true, dirty := false }
        else acc.1.reg_list.getD j default := by
  have hi1 : ¬ i ≥ MIPS32NUMCOREREGS := by omega
  unfold mips32_refresh_step mips32_read_core_reg
  simp only [if_neg hi1]
  by_cases hv : (acc.1.reg_list.getD i default).valid = false
  · simp only [if_pos hv]
    refine ⟨by simp, trivial, trivial, ?_⟩
    by_cases hj : j = i
    · subst hj
      by_cases hl : j < acc.1.reg_list.length
      · rw [if_pos ⟨rfl, hl, hv⟩]
        simp [hl, List.getD_eq_getElem?_getD]
      · rw [if_neg (fun h => hl h.2.1), List.set_eq_of_length_le (by omega)]
    · rw [if_neg (fun h => hj h.1)]
      simp only [List.getD_eq_getElem?_getD]
      rw [List.getElem?_set_ne (Ne.symm hj)]
  · simp only [if_neg hv]
    refine ⟨trivial, trivial, trivial, ?_⟩
    rw [if_neg (fun h => hv h.2.2)]

/-- State of the refresh loop after its first `n` passes. -/
theorem mips32_refresh_fold {W : Type} (t : mips32_target W) (n : Nat)
    (hn : n ≤ MIPS32NUMCOREREGS) :
    ((List.range n).foldl mips32_refresh_step (t, [])).1.reg_list.length = t.reg_list.length
    ∧ ((List.range n).foldl mips32_refresh_step (t, [])).1.core_regs = t.core_regs
    ∧ ((List.range n).foldl mips32_refresh_step (t, [])).2.length = n
    ∧ (∀ j, ((List.range n).foldl mips32_refresh_step (t, [])).1.reg_list.getD j default
        = if j < n ∧ j < t.reg_list.length ∧ (t.reg_list.getD j default).valid = false
          then { (t.reg_list.getD j default) with
                   value := t.core_regs.getD j 0, valid := true, dirty := false }
          else t.reg_list.getD j default)
    ∧ (∀ j, j < n → ((List.range n).foldl mips32_refresh_step (t, [])).2.getD j 0
        = (((List.range n).foldl mips32_refresh_step (t, [])).1.reg_list.getD j default).value)
    := by
  induction n with
  | zero => simp
  | succ n ih =>
    obtain ⟨hl, hc, hlen, hg, hctx⟩ := ih (by omega)
    rw [List.range_succ, List.foldl_append]
    simp only [List.foldl_cons, List.foldl_nil]
    have hs := fun j => mips32_refresh_step_get
      ((List.range n).foldl mips32_refresh_step (t, [])) n j (by omega)
    have hnn : ¬ (n < n ∧ n < t.reg_list.length ∧ (t.reg_list.getD n default).valid = false) :=
      fun h => by omega
    have hget : ∀ j, (mips32_refresh_step
          ((List.range n).foldl mips32_refresh_step (t, [])) n).1.reg_list.getD j default
        = if j < n + 1 ∧ j < t.reg_list.length ∧ (t.reg_list.getD j default).valid = false
          then { (t.reg_list.getD j default) with
                   value := t.core_regs.getD j 0, valid := true, dirty := false }
          else t.reg_list.getD j default := by
      intro j
      rw [(hs j).2.2.2, hl, hc, hg n, hg j, if_neg hnn]
      by_cases hj : j = n
      · subst hj
        by_cases hv : j < t.reg_list.length ∧ (t.reg_list.getD j default).valid = false
        · rw [if_pos ⟨rfl, hv.1, hv.2⟩, if_pos ⟨by omega, hv.1, hv.2⟩]
        · rw [if_neg (fun h => hv h.2), if_neg (fun h => hv h.2), if_neg (fun h => hv h.2)]
      · rw [if_neg (fun h => hj h.1)]
        by_cases hc1 : j < n ∧ j < t.reg_list.length ∧ (t.reg_list.getD j default).valid = false
        · rw [if_pos hc1, if_pos ⟨by omega, hc1.2⟩]
        · rw [if_neg hc1, if_neg (fun h => hc1 ⟨by omega, h.2⟩)]
    refine ⟨by rw [(hs 0).1, hl], by rw [(hs 0).2.1, hc], ?_, hget, ?_⟩
    · rw [(hs 0).2.2.1, List.length_append, hlen]; rfl
    · intro j hj
      rw [(hs 0).2.2.1]
      by_cases hjn : j = n
      · subst hjn
        rw [List.getD_eq_getElem?_getD, List.getElem?_append_right (by omega)]
        simp [hlen]
      · have hjl : j < n := by omega
        rw [List.getD_eq_getElem?_getD, List.getElem?_append_left (by omega),
          ← List.getD_eq_getElem?_getD, hctx j hjl, hget j, hg j]
        have e : (j < n + 1 ∧ j < t.reg_list.length ∧ (t.reg_list.getD j default).valid = false)
            ↔ (j < n ∧ j < t.reg_list.length ∧ (t.reg_list.getD j default).valid = false) := by
          constructor <;> intro h <;> exact ⟨by omega, h.2⟩
        simp only [e]
/-- When the part of `mips32_run_algorithm` before the restore loop ends with
`ERROR_OK`, its array `context` is the one the refresh loop filled. -/
theorem mips32_run_algorithm_run_context {W : Type} (ops : TargetOps W) (t : mips32_target W)
    (mem_params : List mem_param) (reg_params : List reg_param)
    (entry_point exit_point : Nat) (timeout_ms : Int) (info : mips32_algorithm)
    (hok : (mips32_run_algorithm_run ops t mem_params reg_params entry_point exit_point
              timeout_ms info).1.retval = ERROR_OK) :
    (mips32_run_algorithm_run ops t mem_params reg_params entry_point exit_point
        timeout_ms info).2 = (mips32_refresh t).2 := by
  unfold mips32_run_algorithm_run at hok ⊢
  split
  · rename_i h; rw [if_pos h] at hok
    have h0 : ERROR_TARGET_INVALID = ERROR_OK := hok
    exact absurd h0 (by decide)
  · split
    · rename_i h1 h2; rw [if_neg h1, if_pos h2] at hok
      have h0 : ERROR_TARGET_NOT_HALTED = ERROR_OK := hok
      exact absurd h0 (by decide)
    · dsimp only
      split_ifs <;> rfl

/-- C9: whenever `mips32_run_algorithm` returns `ERROR_OK` on a target whose
register cache has its 38 entries (on entry and when the restore loop starts),
each cache entry `j` ends with the value it had after the initial refresh of the
invalid entries (its own value when it was valid, `core_regs[j]` otherwise); an
entry whose value had to be put back is marked valid and dirty, every other
entry is left as the run left it. -/
theorem C9_register_cache_is_restored {W : Type} (ops : TargetOps W) (t : mips32_target W)
    (mem_params : List mem_param) (reg_params : List reg_param)
    (entry_point exit_point : Nat) (timeout_ms : Int) (info : mips32_algorithm)
    (hlen : t.reg_list.length = MIPS32NUMCOREREGS)
    (hmid : (mips32_run_algorithm_run ops t mem_params reg_params entry_point exit_point
              timeout_ms info).1.target.reg_list.length = MIPS32NUMCOREREGS)
    (hok : (mips32_run_algorithm ops t mem_params reg_params entry_point exit_point
              timeout_ms info).retval = ERROR_OK)
    (j : Nat) (hj : j < MIPS32NUMCOREREGS) :
    (((mips32_run_algorithm ops t mem_params reg_params entry_point exit_point
          timeout_ms info).target.reg_list.getD j default).value
        = (((mips32_refresh t).1.reg_list.getD j default).value))
    ∧ (((mips32_refresh t).1.reg_list.getD j default).value
        = if (t.reg_list.getD j default).valid = false then t.core_regs.getD j 0
          else (t.reg_list.getD j default).value)
    ∧ ((((mips32_run_algorithm_run ops t mem_params reg_params entry_point exit_point
            timeout_ms info).1.target.reg_list.getD j default).value
          ≠ ((mips32_refresh t).1.reg_list.getD j default).value) →
        ((mips32_run_algorithm ops t mem_params reg_params entry_point exit_point
            timeout_ms info).target.reg_list.getD j default).valid = true
        ∧ ((mips32_run_algorithm ops t mem_params reg_params entry_point exit_point
            timeout_ms info).target.reg_list.getD j default).dirty = true)
    ∧ ((((mips32_run_algorithm_run ops t mem_params reg_params entry_point exit_point
            timeout_ms info).1.target.reg_list.getD j default).value
          = ((mips32_refresh t).1.reg_list.getD j default).value) →
        (mips32_run_algorithm ops t mem_params reg_params entry_point exit_point
            timeout_ms info).target.reg_list.getD j default
          = (mips32_run_algorithm_run ops t mem_params reg_params entry_point exit_point
            timeout_ms info).1.target.reg_list.getD j default) := by
  have hrun : (mips32_run_algorithm_run ops t mem_params reg_params entry_point exit_point
      timeout_ms info).1.retval = ERROR_OK := by
    by_contra h
    unfold mips32_run_algorithm at hok
    simp only [if_pos h] at hok
    exact h hok
  have hctx := mips32_run_algorithm_run_context ops t mem_params reg_params entry_point
    exit_point timeout_ms info hrun
  have hfin : (mips32_run_algorithm ops t mem_params reg_params entry_point exit_point
      timeout_ms info).target.reg_list
      = mips32_restore (mips32_refresh t).2
          (mips32_run_algorithm_run ops t mem_params reg_params entry_point exit_point
            timeout_ms info).1.target.reg_list := by
    unfold mips32_run_algorithm
    simp only [if_neg (not_not.mpr hrun), hctx]
  have hr := (mips32_refresh_fold t MIPS32NUMCOREREGS (le_refl _))
  have hcj : (mips32_refresh t).2.getD j 0
      = ((mips32_refresh t).1.reg_list.getD j default).value := hr.2.2.2.2 j hj
  have hpre := hr.2.2.2.1 j
  have hf := (mips32_restore_fold (mips32_refresh t).2
    (mips32_run_algorithm_run ops t mem_params reg_params entry_point exit_point
      timeout_ms info).1.target.reg_list MIPS32NUMCOREREGS (by omega)).2 j
  rw [hfin]
  unfold mips32_restore
  rw [hf, hcj]
  refine ⟨?_, ?_, ?_, ?_⟩
  · by_cases hv : ((mips32_run_algorithm_run ops t mem_params reg_params entry_point exit_point
        timeout_ms info).1.target.reg_list.getD j default).value
        ≠ ((mips32_refresh t).1.reg_list.getD j default).value
    · rw [if_pos ⟨hj, hv⟩]
    · rw [if_neg (fun h => hv h.2)]; exact not_not.mp hv
  · unfold mips32_refresh
    rw [hpre]
    by_cases hv : (t.reg_list.getD j default).valid = false
    · rw [if_pos ⟨hj, by omega, hv⟩, if_pos hv]
    · rw [if_neg (fun h => hv h.2.2), if_neg hv]
  · intro hv
    rw [if_pos ⟨hj, hv⟩]
    exact ⟨rfl, rfl⟩
  · intro hv
    rw [if_neg (fun h => h.2 hv)]
set_option maxRecDepth 20000 in
/-- C9 at a run that changes register 2 and the PC: register 2 holds 0 again
and is marked valid and dirty. -/
theorem C9_register_cache_is_restored_witness :
    (((mips32_run_algorithm (algorithm_ops 5 0x80001000 true) algorithm_target [] []
          0x80000000 0x80001000 1000
          { common_magic := MIPS32_COMMON_MAGIC, isa_mode := .MIPS32_ISA_MIPS32 }).target.reg_list.getD
          2 default).value
        = ((mips32_refresh algorithm_target).1.reg_list.getD 2 default).value)
    ∧ ((mips32_run_algorithm (algorithm_ops 5 0x80001000 true) algorithm_target [] []
          0x80000000 0x80001000 1000
          { common_magic := MIPS32_COMMON_MAGIC, isa_mode := .MIPS32_ISA_MIPS32 }).target.reg_list.getD
          2 default).dirty = true :=
  ⟨(C9_register_cache_is_restored (algorithm_ops 5 0x80001000 true) algorithm_target [] []
      0x80000000 0x80001000 1000
      { common_magic := MIPS32_COMMON_MAGIC, isa_mode := .MIPS32_ISA_MIPS32 }
      rfl rfl rfl 2 (by decide)).1,
   ((C9_register_cache_is_restored (algorithm_ops 5 0x80001000 true) algorithm_target [] []
      0x80000000 0x80001000 1000
      { common_magic := MIPS32_COMMON_MAGIC, isa_mode := .MIPS32_ISA_MIPS32 }
      rfl rfl rfl 2 (by decide)).2.2.1 (by decide)).2⟩

/-! ## C10: the status of `mips32_run_and_wait` -/

/-- C10, the claim as written fails at `exit_point = 0`: the target halts in
time with `0x80001000` in the PC entry of the cache, which is not the exit
point, and both `mips32_run_and_wait` and `mips32_run_algorithm` return
`ERROR_OK`. -/
theorem C10_counterexample :
    (mips32_run_and_wait (algorithm_ops 5 0x80001000 true) algorithm_target
        0x80000000 1000 0).1 = ERROR_OK
    ∧ ((mips32_run_and_wait (algorithm_ops 5 0x80001000 true) algorithm_target
        0x80000000 1000 0).2.reg_list.getD MIPS32_PC default).value = 0x80001000
    ∧ (0x80001000 : Nat) ≠ 0
    ∧ (mips32_run_algorithm (algorithm_ops 5 0x80001000 true) algorithm_target [] []
          0x80000000 0 1000
          { common_magic := MIPS32_COMMON_MAGIC, isa_mode := .MIPS32_ISA_MIPS32 }).retval
        = ERROR_OK := by
  refine ⟨rfl, rfl, by decide, rfl⟩

/-- With an `exit_point` other than 0, `mips32_run_and_wait` returns `ERROR_OK`
only if the resume succeeded, the wait succeeded with the target halted, and the
PC entry of the cache after the halt is `exit_point`. -/
theorem mips32_run_and_wait_ok {W : Type} (ops : TargetOps W) (t : mips32_target W)
    (entry_point exit_point : Nat) (timeout_ms : Int) (hexit : exit_point ≠ 0)
    (h : (mips32_run_and_wait ops t entry_point timeout_ms exit_point).1 = ERROR_OK) :
    (ops.target_resume t 0 entry_point 0 1).1 = ERROR_OK
    ∧ (ops.target_wait_state (ops.target_resume t 0 entry_point 0 1).2
          .TARGET_HALTED timeout_ms).1 = ERROR_OK
    ∧ (ops.target_wait_state (ops.target_resume t 0 entry_point 0 1).2
          .TARGET_HALTED timeout_ms).2.state = .TARGET_HALTED
    ∧ ((ops.target_wait_state (ops.target_resume t 0 entry_point 0 1).2
          .TARGET_HALTED timeout_ms).2.reg_list.getD MIPS32_PC default).value = exit_point
    ∧ (mips32_run_and_wait ops t entry_point timeout_ms exit_point).2
        = (ops.target_wait_state (ops.target_resume t 0 entry_point 0 1).2
            .TARGET_HALTED timeout_ms).2 := by
  unfold mips32_run_and_wait at h ⊢
  by_cases h1 : (ops.target_resume t 0 entry_point 0 1).1 ≠ ERROR_OK
  · rw [if_pos h1] at h; exact absurd h h1
  · rw [if_neg h1] at h ⊢
    dsimp only at h ⊢
    by_cases h2 : (ops.target_wait_state (ops.target_resume t 0 entry_point 0 1).2
          .TARGET_HALTED timeout_ms).1 ≠ ERROR_OK
        ∨ (ops.target_wait_state (ops.target_resume t 0 entry_point 0 1).2
          .TARGET_HALTED timeout_ms).2.state ≠ .TARGET_HALTED
    · rw [if_pos h2] at h
      split_ifs at h with h3 h4
      · exact absurd h h3
      · exact absurd h h4
      · have h0 : ERROR_TARGET_TIMEOUT = ERROR_OK := h
        exact absurd h0 (by decide)
    · rw [if_neg h2] at h ⊢
      have h2a := not_or.mp h2
      by_cases h5 : exit_point ≠ 0 ∧
          ((ops.target_wait_state (ops.target_resume t 0 entry_point 0 1).2
            .TARGET_HALTED timeout_ms).2.reg_list.getD MIPS32_PC default).value ≠ exit_point
      · rw [if_pos h5] at h
        have h0 : ERROR_TARGET_TIMEOUT = ERROR_OK := h
        exact absurd h0 (by decide)
      · rw [if_neg h5]
        exact ⟨not_not.mp h1, not_not.mp h2a.1, not_not.mp h2a.2,
          not_not.mp (fun hh => h5 ⟨hexit, hh⟩), rfl⟩

/-- When the resume succeeded and the wait failed or left the target not
halted, `mips32_run_and_wait` takes the forced-halt path and does not return
`ERROR_OK`, whatever the exit point. -/
theorem mips32_run_and_wait_forced_halt {W : Type} (ops : TargetOps W)
    (t : mips32_target W) (entry_point exit_point : Nat) (timeout_ms : Int)
    (h1 : (ops.target_resume t 0 entry_point 0 1).1 = ERROR_OK)
    (h2 : (ops.target_wait_state (ops.target_resume t 0 entry_point 0 1).2
              .TARGET_HALTED timeout_ms).1 ≠ ERROR_OK
          ∨ (ops.target_wait_state (ops.target_resume t 0 entry_point 0 1).2
              .TARGET_HALTED timeout_ms).2.state ≠ .TARGET_HALTED) :
    (mips32_run_and_wait ops t entry_point timeout_ms exit_point).1 ≠ ERROR_OK := by
  intro h
  unfold mips32_run_and_wait at h
  rw [if_neg (not_not.mpr h1)] at h
  dsimp only at h
  rw [if_pos h2] at h
  split_ifs at h with h3 h4
  · exact absurd h h3
  · exact absurd h h4
  · have h0 : ERROR_TARGET_TIMEOUT = ERROR_OK := h
    exact absurd h0 (by decide)

/-- Whenever `mips32_run_algorithm` returns `ERROR_OK`, its call of
`mips32_run_and_wait` returned `ERROR_OK`; the call is made on the state that the
refresh of the cache and the two parameter loops left, with the algorithm's
`isa_mode`. -/
theorem mips32_run_algorithm_ok_run_and_wait {W : Type} (ops : TargetOps W)
    (t : mips32_target W) (mem_params : List mem_param) (reg_params : List reg_param)
    (entry_point exit_point : Nat) (timeout_ms : Int) (info : mips32_algorithm)
    (h : (mips32_run_algorithm ops t mem_params reg_params entry_point exit_point
            timeout_ms info).retval = ERROR_OK) :
    (mips32_run_and_wait ops
        { (mips32_set_reg_params reg_params
            (mips32_write_mem_params ops mem_params (mips32_refresh t).1).2).2 with
          isa_mode := info.isa_mode }
        entry_point timeout_ms exit_point).1 = ERROR_OK := by
  have hrun : (mips32_run_algorithm_run ops t mem_params reg_params entry_point exit_point
      timeout_ms info).1.retval = ERROR_OK := by
    by_contra hn
    unfold mips32_run_algorithm at h
    simp only [if_pos hn] at h
    exact hn h
  unfold mips32_run_algorithm_run at hrun
  split_ifs at hrun with a1 a2
  · have h0 : ERROR_TARGET_INVALID = ERROR_OK := hrun
    exact absurd h0 (by decide)
  · have h0 : ERROR_TARGET_NOT_HALTED = ERROR_OK := hrun
    exact absurd h0 (by decide)
  · dsimp only at hrun
    split_ifs at hrun with a3 a4 a5 a6
    · exact absurd hrun a3
    · exact absurd hrun a4
    · exact absurd hrun a5
    · exact absurd hrun a6
    · exact not_not.mp a5

/-- C10: for an `exit_point` other than 0, `mips32_run_and_wait` returns
`ERROR_OK` only if the resume succeeded, the wait for the halt succeeded with
the target halted, and the PC entry of the register cache after the halt equals
`exit_point`; for every exit point, when the wait fails or leaves the target
not halted (the forced halt), the result is not `ERROR_OK`.  The same holds of
`mips32_run_algorithm`, for the run it makes: with `t1` the state it hands to
`mips32_run_and_wait` (the state left by the refresh of the cache and the two
parameter loops, with the algorithm's `isa_mode`), it returns `ERROR_OK` only if
that call returned `ERROR_OK`, the resume from `t1` succeeded, the wait
succeeded with the target halted and the PC entry after the halt equals
`exit_point`; and for every exit point, when the wait after the resume from
`t1` fails or leaves the target not halted, it does not return `ERROR_OK`. -/
theorem C10_run_and_wait_status {W : Type} (ops : TargetOps W) (t : mips32_target W)
    (mem_params : List mem_param) (reg_params : List reg_param)
    (entry_point exit_point : Nat) (timeout_ms : Int) (info : mips32_algorithm)
    (hexit : exit_point ≠ 0) :
    ((mips32_run_and_wait ops t entry_point timeout_ms exit_point).1 = ERROR_OK →
        (ops.target_resume t 0 entry_point 0 1).1 = ERROR_OK
        ∧ (ops.target_wait_state (ops.target_resume t 0 entry_point 0 1).2
              .TARGET_HALTED timeout_ms).1 = ERROR_OK
        ∧ (ops.target_wait_state (ops.target_resume t 0 entry_point 0 1).2
              .TARGET_HALTED timeout_ms).2.state = .TARGET_HALTED
        ∧ ((ops.target_wait_state (ops.target_resume t 0 entry_point 0 1).2
              .TARGET_HALTED timeout_ms).2.reg_list.getD MIPS32_PC default).value = exit_point
        ∧ (mips32_run_and_wait ops t entry_point timeout_ms exit_point).2
            = (ops.target_wait_state (ops.target_resume t 0 entry_point 0 1).2
                .TARGET_HALTED timeout_ms).2)
    ∧ (∀ e : Nat, (ops.target_resume t 0 entry_point 0 1).1 = ERROR_OK →
        ((ops.target_wait_state (ops.target_resume t 0 entry_point 0 1).2
              .TARGET_HALTED timeout_ms).1 ≠ ERROR_OK
          ∨ (ops.target_wait_state (ops.target_resume t 0 entry_point 0 1).2
              .TARGET_HALTED timeout_ms).2.state ≠ .TARGET_HALTED) →
        (mips32_run_and_wait ops t entry_point timeout_ms e).1 ≠ ERROR_OK)
    ∧ (∀ t1 : mips32_target W,
        t1 = { (mips32_set_reg_params reg_params
                 (mips32_write_mem_params ops mem_params (mips32_refresh t).1).2).2 with
               isa_mode := info.isa_mode } →
        ((mips32_run_algorithm ops t mem_params reg_params entry_point exit_point
            timeout_ms info).retval = ERROR_OK →
          (mips32_run_and_wait ops t1 entry_point timeout_ms exit_point).1 = ERROR_OK
          ∧ (ops.target_resume t1 0 entry_point 0 1).1 = ERROR_OK
          ∧ (ops.target_wait_state (ops.target_resume t1 0 entry_point 0 1).2
                .TARGET_HALTED timeout_ms).1 = ERROR_OK
          ∧ (ops.target_wait_state (ops.target_resume t1 0 entry_point 0 1).2
                .TARGET_HALTED timeout_ms).2.state = .TARGET_HALTED
          ∧ ((ops.target_wait_state (ops.target_resume t1 0 entry_point 0 1).2
                .TARGET_HALTED timeout_ms).2.reg_list.getD MIPS32_PC default).value
              = exit_point)
        ∧ (∀ e : Nat, (ops.target_resume t1 0 entry_point 0 1).1 = ERROR_OK →
            ((ops.target_wait_state (ops.target_resume t1 0 entry_point 0 1).2
                  .TARGET_HALTED timeout_ms).1 ≠ ERROR_OK
              ∨ (ops.target_wait_state (ops.target_resume t1 0 entry_point 0 1).2
                  .TARGET_HALTED timeout_ms).2.state ≠ .TARGET_HALTED) →
            (mips32_run_algorithm ops t mem_params reg_params entry_point e
                timeout_ms info).retval ≠ ERROR_OK)) := by
  refine ⟨fun h => mips32_run_and_wait_ok ops t entry_point exit_point timeout_ms hexit h,
    fun e h1 h2 => mips32_run_and_wait_forced_halt ops t entry_point e timeout_ms h1 h2,
    ?_⟩
  intro t1 ht1
  subst ht1
  refine ⟨fun h => ?_, fun e h1 h2 h => ?_⟩
  · have hr := mips32_run_algorithm_ok_run_and_wait ops t mem_params reg_params entry_point
      exit_point timeout_ms info h
    have hw := mips32_run_and_wait_ok ops _ entry_point exit_point timeout_ms hexit hr
    exact ⟨hr, hw.1, hw.2.1, hw.2.2.1, hw.2.2.2.1⟩
  · exact mips32_run_and_wait_forced_halt ops _ entry_point e timeout_ms h1 h2
      (mips32_run_algorithm_ok_run_and_wait ops t mem_params reg_params entry_point
        e timeout_ms info h)

/-- C10 at a run that halts at its exit point `0x80001000`, and at a run that
is still going when the wait ends: `mips32_run_algorithm` returns `ERROR_OK` on
the first, with the target halted at the exit point, and not on the second. -/
theorem C10_run_and_wait_status_witness :
    (0x80001000 : Nat) ≠ 0
    ∧ (mips32_run_and_wait (algorithm_ops 5 0x80001000 true) algorithm_target
        0x80000000 1000 0x80001000).1 = ERROR_OK
    ∧ ((algorithm_ops 5 0x80001000 true).target_wait_state
          ((algorithm_ops 5 0x80001000 true).target_resume algorithm_target 0 0x80000000 0 1).2
          .TARGET_HALTED 1000).2.state = .TARGET_HALTED
    ∧ (mips32_run_and_wait (algorithm_ops 5 0x80001000 false) algorithm_target
        0x80000000 1000 0x80001000).1 ≠ ERROR_OK
    ∧ (mips32_run_algorithm (algorithm_ops 5 0x80001000 false) algorithm_target [] []
          0x80000000 0x80001000 1000
          { common_magic := MIPS32_COMMON_MAGIC, isa_mode := .MIPS32_ISA_MIPS32 }).retval
        ≠ ERROR_OK :=
  ⟨by decide, rfl,
   ((C10_run_and_wait_status (algorithm_ops 5 0x80001000 true) algorithm_target [] []
      0x80000000 0x80001000 1000
      { common_magic := MIPS32_COMMON_MAGIC, isa_mode := .MIPS32_ISA_MIPS32 }
      (by decide)).1 rfl).2.2.1,
   (C10_run_and_wait_status (algorithm_ops 5 0x80001000 false) algorithm_target [] []
      0x80000000 0x80001000 1000
      { common_magic := MIPS32_COMMON_MAGIC, isa_mode := .MIPS32_ISA_MIPS32 }
      (by decide)).2.1 0x80001000 rfl (Or.inr (by decide)),
   ((C10_run_and_wait_status (algorithm_ops 5 0x80001000 false) algorithm_target [] []
      0x80000000 0x80001000 1000
      { common_magic := MIPS32_COMMON_MAGIC, isa_mode := .MIPS32_ISA_MIPS32 }
      (by decide)).2.2 _ rfl).2 0x80001000 rfl (Or.inr (by decide))⟩

/-! ## C11, C12: `cortex_a9_exec_opcode` -/

/-- A sequence of calls returned only if its first call returned. -/
theorem DapRun.andThen_eq_ret {α β : Type} (r : DapRun α) (k : Int → α → DapRun β)
    (e : Int) (v : β) (h : r.andThen k = .ret e v) :
    ∃ e0 v0, r = .ret e0 v0 ∧ k e0 v0 = .ret e v := by
  cases r with
  | ret e0 v0 => exact ⟨e0, v0, rfl, h⟩
  | starved => exact absurd h (by simp [DapRun.andThen])
  | fault => exact absurd h (by simp [DapRun.andThen])

/-- After a call that returned, the sequence goes on with its status and
value. -/
theorem DapRun.andThen_ret {α β : Type} (e : Int) (v : α) (k : Int → α → DapRun β) :
    (DapRun.ret e v).andThen k = k e v := rfl

/-- A read that returned consumed the first reply and logged the word. -/
theorem mem_ap_read_atomic_u32_eq_ret {W : Type} (t : cortex_a9_target W) (address : Nat)
    (e : Int) (v : Nat × Bool × cortex_a9_target W)
    (h : mem_ap_read_atomic_u32 t address = .ret e v) :
    ∃ r rest, t.replies = r :: rest ∧ e = r.retval ∧ v.1 = r.value ∧ v.2.1 = r.late
      ∧ v.2.2 = { t with replies := rest, log := t.log ++ [.read address r.value] } := by
  unfold mem_ap_read_atomic_u32 at h
  split at h
  · exact absurd h (by simp)
  · rename_i r rest hr
    injection h with h1 h2
    subst h1 h2
    exact ⟨r, rest, hr, rfl, rfl, rfl, rfl⟩

/-- A write that returned consumed the first reply and logged the operation. -/
theorem mem_ap_write_atomic_u32_eq_ret {W : Type} (t : cortex_a9_target W)
    (address value : Nat) (e : Int) (v : cortex_a9_target W)
    (h : mem_ap_write_atomic_u32 t address value = .ret e v) :
    ∃ r rest, t.replies = r :: rest ∧ e = r.retval
      ∧ v = { t with replies := rest, log := t.log ++ [.write address value] } := by
  unfold mem_ap_write_atomic_u32 at h
  split at h
  · exact absurd h (by simp)
  · rename_i r rest hr
    injection h with h1 h2
    subst h1 h2
    exact ⟨r, rest, hr, rfl, rfl⟩

/-- The first loop of `cortex_a9_exec_opcode`: it only reads DSCR, and when it
ends with `ERROR_OK` the value it leaves is the last one read (the value it was
given when it read nothing) and has InstrCompl set. -/
theorem cortex_a9_exec_opcode_wait_ret {W : Type} (c : CpuDbg) (fuel : Nat) :
    ∀ (t : cortex_a9_target W) (dscr : Nat) (e : Int) (d : Nat) (t1 : cortex_a9_target W),
      cortex_a9_exec_opcode_wait c fuel t dscr = .ret e (d, t1) →
      ∃ vals : List Nat,
        t1 = { t with replies := t1.replies,
                      log := t.log ++ vals.map
                        (DapOp.read ((t.debug_base + c.CPUDBG_DSCR) % 2 ^ 32)) }
        ∧ (e = ERROR_OK → d = vals.getLast?.getD dscr ∧ d &&& c.DSCR_INSTR_COMP ≠ 0) := by
  induction fuel with
  | zero => intro t dscr e d t1 h; exact absurd h (by simp [cortex_a9_exec_opcode_wait])
  | succ fuel ih =>
    intro t dscr e d t1 h
    unfold cortex_a9_exec_opcode_wait at h
    by_cases hd : dscr &&& c.DSCR_INSTR_COMP = 0
    · rw [if_pos hd] at h
      obtain ⟨e0, v0, hr, hk⟩ := DapRun.andThen_eq_ret _ _ _ _ h
      obtain ⟨r, rest, hrep, he0, hv, hl, ht⟩ := mem_ap_read_atomic_u32_eq_ret _ _ _ _ hr
      by_cases h1 : e0 ≠ ERROR_OK
      · rw [if_pos h1] at hk
        injection hk with hk1 hk2
        injection hk2 with hk3 hk4
        refine ⟨[r.value], ?_, fun he => absurd (hk1 ▸ he) h1⟩
        rw [← hk4, ht]; rfl
      · rw [if_neg h1] at hk
        by_cases h2 : v0.2.1 = true
        · rw [if_pos h2] at hk
          injection hk with hk1 hk2
          injection hk2 with hk3 hk4
          refine ⟨[r.value], ?_, fun he => ?_⟩
          · rw [← hk4, ht]; rfl
          · rw [← hk1] at he; exact absurd he (by decide)
        · rw [if_neg h2] at hk
          obtain ⟨vals, hf, hok⟩ := ih _ _ _ _ _ hk
          refine ⟨r.value :: vals, ?_, fun he => ?_⟩
          · rw [hf, ht]
            simp [List.append_assoc]
          · obtain ⟨hd1, hd2⟩ := hok he
            refine ⟨?_, hd2⟩
            rw [hd1, hv, List.getLast?_cons]; rfl
    · rw [if_neg hd] at h
      injection h with h1 h2
      injection h2 with h3 h4
      refine ⟨[], ?_, fun _ => ?_⟩
      · rw [← h4]; simp
      · rw [← h3]; exact ⟨rfl, hd⟩

/-- The second loop of `cortex_a9_exec_opcode`: it only reads DSCR, at least
once, and when it ends with `ERROR_OK` the value it leaves is the last one read
and has InstrCompl set. -/
theorem cortex_a9_exec_opcode_done_ret {W : Type} (c : CpuDbg) (fuel : Nat) :
    ∀ (t : cortex_a9_target W) (dscr : Nat) (e : Int) (d : Nat) (t1 : cortex_a9_target W),
      cortex_a9_exec_opcode_done c fuel t dscr = .ret e (d, t1) →
      ∃ (vals : List Nat) (v : Nat),
        t1 = { t with replies := t1.replies,
                      log := t.log ++ (vals ++ [v]).map
                        (DapOp.read ((t.debug_base + c.CPUDBG_DSCR) % 2 ^ 32)) }
        ∧ (e = ERROR_OK → d = v ∧ d &&& c.DSCR_INSTR_COMP ≠ 0) := by
  induction fuel with
  | zero => intro t dscr e d t1 h; exact absurd h (by simp [cortex_a9_exec_opcode_done])
  | succ fuel ih =>
    intro t dscr e d t1 h
    unfold cortex_a9_exec_opcode_done at h
    obtain ⟨e0, v0, hr, hk⟩ := DapRun.andThen_eq_ret _ _ _ _ h
    obtain ⟨r, rest, hrep, he0, hv, hl, ht⟩ := mem_ap_read_atomic_u32_eq_ret _ _ _ _ hr
    by_cases h1 : e0 ≠ ERROR_OK
    · rw [if_pos h1] at hk
      injection hk with hk1 hk2
      injection hk2 with hk3 hk4
      refine ⟨[], r.value, ?_, fun he => absurd (hk1 ▸ he) h1⟩
      rw [← hk4, ht]; rfl
    · rw [if_neg h1] at hk
      by_cases h2 : v0.2.1 = true
      · rw [if_pos h2] at hk
        injection hk with hk1 hk2
        injection hk2 with hk3 hk4
        refine ⟨[], r.value, ?_, fun he => ?_⟩
        · rw [← hk4, ht]; rfl
        · rw [← hk1] at he; exact absurd he (by decide)
      · rw [if_neg h2] at hk
        by_cases h3 : v0.1 &&& c.DSCR_INSTR_COMP = 0
        · rw [if_pos h3] at hk
          obtain ⟨vals, v, hf, hok⟩ := ih _ _ _ _ _ hk
          refine ⟨r.value :: vals, v, ?_, hok⟩
          rw [hf, ht]
          simp [List.append_assoc]
        · rw [if_neg h3] at hk
          injection hk with hk1 hk2
          injection hk2 with hk3 hk4
          refine ⟨[], r.value, ?_, fun _ => ?_⟩
          · rw [← hk4, ht]; rfl
          · rw [← hk3]; exact ⟨hv, h3⟩

/-- C11: whenever `cortex_a9_exec_opcode` returns `ERROR_OK`, the last
transport operation is a read of DSCR whose value has InstrCompl set, and that
value is what `*dscr_p` holds (for a `dscr_p` that is not NULL).  Whatever the
status returned, the operations made are reads of DSCR, then at most one write,
of the opcode to ITR, then reads of DSCR; when the write is made, the latest
DSCR value at that point (the last word read before it, or the caller's hint
when nothing was read, 0 for a NULL `dscr_p`) has InstrCompl set. -/
theorem C11_exec_opcode_instr_compl {W : Type} (c : CpuDbg) (t : cortex_a9_target W)
    (opcode : Nat) (dscr_p : Option Nat) (e : Int) (p : Option Nat) (t1 : cortex_a9_target W)
    (h : cortex_a9_exec_opcode c t opcode dscr_p = .ret e (p, t1)) :
    (e = ERROR_OK →
      ∃ pre v, t1.log = pre ++ [.read ((t.debug_base + c.CPUDBG_DSCR) % 2 ^ 32) v]
        ∧ v &&& c.DSCR_INSTR_COMP ≠ 0 ∧ p = dscr_p.map (fun _ => v))
    ∧ ∃ reads1 : List Nat,
        t1.log = t.log ++ reads1.map (DapOp.read ((t.debug_base + c.CPUDBG_DSCR) % 2 ^ 32))
        ∨ ∃ reads2 : List Nat,
            t1.log = t.log
                ++ reads1.map (DapOp.read ((t.debug_base + c.CPUDBG_DSCR) % 2 ^ 32))
                ++ [.write ((t.debug_base + c.CPUDBG_ITR) % 2 ^ 32) opcode]
                ++ reads2.map (DapOp.read ((t.debug_base + c.CPUDBG_DSCR) % 2 ^ 32))
            ∧ (reads1.getLast?.getD (dscr_p.getD 0)) &&& c.DSCR_INSTR_COMP ≠ 0 := by
  unfold cortex_a9_exec_opcode at h
  obtain ⟨e0, w, hw, hk⟩ := DapRun.andThen_eq_ret _ _ _ _ h
  obtain ⟨reads1, hf1, hok1⟩ := cortex_a9_exec_opcode_wait_ret c _ t _ e0 w.1 w.2 hw
  by_cases h1 : e0 ≠ ERROR_OK
  · rw [if_pos h1] at hk
    injection hk with hk1 hk2
    injection hk2 with hk3 hk4
    refine ⟨fun he => absurd (hk1 ▸ he) h1, reads1, Or.inl ?_⟩
    rw [← hk4, hf1]
  · rw [if_neg h1] at hk
    obtain ⟨hd1, hd2⟩ := hok1 (not_not.mp h1)
    obtain ⟨e1, t2, hwr, hk⟩ := DapRun.andThen_eq_ret _ _ _ _ hk
    obtain ⟨r, rest, hrep, he1, ht2⟩ := mem_ap_write_atomic_u32_eq_ret _ _ _ _ _ hwr
    have hbase : w.2.debug_base = t.debug_base := by rw [hf1]
    have hlog2 : t2.log = t.log
        ++ reads1.map (DapOp.read ((t.debug_base + c.CPUDBG_DSCR) % 2 ^ 32))
        ++ [.write ((t.debug_base + c.CPUDBG_ITR) % 2 ^ 32) opcode] := by
      rw [ht2, hbase]
      show w.2.log ++ _ = _
      rw [hf1]
    have hbase2 : t2.debug_base = t.debug_base := by rw [ht2]; exact hbase
    by_cases h2 : e1 ≠ ERROR_OK
    · rw [if_pos h2] at hk
      injection hk with hk1 hk2
      injection hk2 with hk3 hk4
      refine ⟨fun he => absurd (hk1 ▸ he) h2, reads1, Or.inr ⟨[], ?_, ?_⟩⟩
      · rw [← hk4, hlog2]; simp
      · rw [← hd1]; exact hd2
    · rw [if_neg h2] at hk
      obtain ⟨e2, d, hdn, hk⟩ := DapRun.andThen_eq_ret _ _ _ _ hk
      obtain ⟨vals, v, hf3, hok3⟩ := cortex_a9_exec_opcode_done_ret c _ t2 _ e2 d.1 d.2 hdn
      have hlog3 : d.2.log = t.log
          ++ reads1.map (DapOp.read ((t.debug_base + c.CPUDBG_DSCR) % 2 ^ 32))
          ++ [.write ((t.debug_base + c.CPUDBG_ITR) % 2 ^ 32) opcode]
          ++ (vals ++ [v]).map (DapOp.read ((t.debug_base + c.CPUDBG_DSCR) % 2 ^ 32)) := by
        rw [hf3, hbase2]
        show t2.log ++ _ = _
        rw [hlog2]
      by_cases h3 : e2 ≠ ERROR_OK
      · rw [if_pos h3] at hk
        injection hk with hk1 hk2
        injection hk2 with hk3 hk4
        refine ⟨fun he => absurd (hk1 ▸ he) h3, reads1, Or.inr ⟨vals ++ [v], ?_, ?_⟩⟩
        · rw [← hk4, hlog3]
        · rw [← hd1]; exact hd2
      · rw [if_neg h3] at hk
        injection hk with hk1 hk2
        injection hk2 with hk3 hk4
        obtain ⟨hv1, hv2⟩ := hok3 (not_not.mp h3)
        refine ⟨fun _ => ⟨t.log
            ++ reads1.map (DapOp.read ((t.debug_base + c.CPUDBG_DSCR) % 2 ^ 32))
            ++ [.write ((t.debug_base + c.CPUDBG_ITR) % 2 ^ 32) opcode]
            ++ vals.map (DapOp.read ((t.debug_base + c.CPUDBG_DSCR) % 2 ^ 32)), v, ?_, ?_, ?_⟩,
          reads1, Or.inr ⟨vals ++ [v], ?_, ?_⟩⟩
        · rw [← hk4, hlog3, List.map_append, ← List.append_assoc]; rfl
        · rw [← hv1]; exact hv2
        · rw [← hk3, hv1]
        · rw [← hk4, hlog3]
        · rw [← hd1]; exact hd2

/-- C11 at a run where the hint lacks InstrCompl: one read of DSCR shows it,
the opcode is written, and the read that follows shows it again. -/
theorem C11_exec_opcode_instr_compl_witness :
    ∃ pre v, (a9_target []).log ++ [DapOp.read 0x80000088 0x1000000,
          DapOp.write 0x80000084 0xE1A00000, DapOp.read 0x80000088 0x1000002]
        = pre ++ [.read (((a9_target [⟨0, 0x1000000, false⟩, ⟨0, 0, false⟩,
              ⟨0, 0x1000002, false⟩]).debug_base + armv7_cpudbg.CPUDBG_DSCR) % 2 ^ 32) v]
      ∧ v &&& armv7_cpudbg.DSCR_INSTR_COMP ≠ 0
      ∧ some 0x1000002 = (some 0).map (fun _ => v) :=
  (C11_exec_opcode_instr_compl armv7_cpudbg
    (a9_target [⟨0, 0x1000000, false⟩, ⟨0, 0, false⟩, ⟨0, 0x1000002, false⟩])
    0xE1A00000 (some 0) ERROR_OK (some 0x1000002)
    { a9_target [] with
        log := (a9_target []).log ++ [DapOp.read 0x80000088 0x1000000,
          DapOp.write 0x80000084 0xE1A00000, DapOp.read 0x80000088 0x1000002] }
    rfl).1 rfl

/-- C12: for every opcode, when the caller's hint has InstrCompl set, the ITR
write succeeds and the first DSCR read after it succeeds, within the second,
and shows InstrCompl, `cortex_a9_exec_opcode` makes exactly two transport
operations, the write of the opcode to `debug_base + CPUDBG_ITR` followed by one
read of DSCR, and returns `ERROR_OK` with the word read in `*dscr_p`. -/
theorem C12_exec_opcode_two_operations {W : Type} (c : CpuDbg) (t : cortex_a9_target W)
    (opcode hint : Nat) (w r : DapReply) (rest : List DapReply)
    (hrep : t.replies = w :: r :: rest)
    (hhint : hint &&& c.DSCR_INSTR_COMP ≠ 0)
    (hw : w.retval = ERROR_OK) (hr : r.retval = ERROR_OK) (hlate : r.late = false)
    (hic : r.value &&& c.DSCR_INSTR_COMP ≠ 0) :
    cortex_a9_exec_opcode c t opcode (some hint)
      = .ret ERROR_OK
          (some r.value,
            { t with
                replies := rest,
                log := t.log ++ [.write ((t.debug_base + c.CPUDBG_ITR) % 2 ^ 32) opcode,
                                 .read ((t.debug_base + c.CPUDBG_DSCR) % 2 ^ 32) r.value] }) := by
  unfold cortex_a9_exec_opcode
  rw [hrep]
  simp only [Option.getD_some, List.length_cons]
  unfold cortex_a9_exec_opcode_wait
  rw [if_neg hhint]
  simp only [DapRun.andThen, mem_ap_write_u32, mem_ap_write_atomic_u32, hrep, hw]
  unfold cortex_a9_exec_opcode_done
  simp [DapRun.andThen, mem_ap_read_atomic_u32, hr, hlate, hic, ERROR_OK]

/-- C12 at the NOP `0xE1A00000`. -/
theorem C12_exec_opcode_two_operations_witness :
    cortex_a9_exec_opcode armv7_cpudbg
        (a9_target [⟨0, 0, false⟩, ⟨0, 0x1000002, false⟩]) 0xE1A00000 (some 0x1000000)
      = .ret ERROR_OK
          (some 0x1000002,
            { a9_target [] with
                log := [.write 0x80000084 0xE1A00000, .read 0x80000088 0x1000002] }) :=
  C12_exec_opcode_two_operations armv7_cpudbg
    (a9_target [⟨0, 0, false⟩, ⟨0, 0x1000002, false⟩]) 0xE1A00000 0x1000000
    ⟨0, 0, false⟩ ⟨0, 0x1000002, false⟩ [] rfl (by decide) rfl rfl rfl (by decide)

/-! ## C20: `cortex_a9_dap_write_coreregister_u32` -/

/-- Reads put nothing among the opcodes written to ITR. -/
theorem itr_writes_reads (itr address : Nat) (vals : List Nat) :
    itr_writes itr (vals.map (DapOp.read address)) = [] := by
  induction vals with
  | nil => rfl
  | cons v vs ih => simp [itr_writes]

/-- The opcodes written to ITR in a log put together from two. -/
theorem itr_writes_append (itr : Nat) (l1 l2 : List DapOp) :
    itr_writes itr (l1 ++ l2) = itr_writes itr l1 ++ itr_writes itr l2 := by
  simp [itr_writes, List.filterMap_append]

/-- What a call of `cortex_a9_exec_opcode` that returned leaves: the target
with some replies consumed and the log longer; the opcode is the one word
written to ITR when the status is `ERROR_OK`, and at most that otherwise. -/
theorem cortex_a9_exec_opcode_itr {W : Type} (c : CpuDbg) (t : cortex_a9_target W)
    (opcode : Nat) (dscr_p : Option Nat) (e : Int) (p : Option Nat) (t1 : cortex_a9_target W)
    (h : cortex_a9_exec_opcode c t opcode dscr_p = .ret e (p, t1)) :
    t1 = { t with replies := t1.replies, log := t1.log }
    ∧ (e = ERROR_OK →
        itr_writes ((t.debug_base + c.CPUDBG_ITR) % 2 ^ 32) t1.log
          = itr_writes ((t.debug_base + c.CPUDBG_ITR) % 2 ^ 32) t.log ++ [opcode]) := by
  unfold cortex_a9_exec_opcode at h
  obtain ⟨e0, w, hw, hk⟩ := DapRun.andThen_eq_ret _ _ _ _ h
  obtain ⟨reads1, hf1, -⟩ := cortex_a9_exec_opcode_wait_ret c _ t _ e0 w.1 w.2 hw
  by_cases h1 : e0 ≠ ERROR_OK
  · rw [if_pos h1] at hk
    injection hk with hk1 hk2
    injection hk2 with hk3 hk4
    refine ⟨?_, fun he => absurd (hk1 ▸ he) h1⟩
    rw [← hk4, hf1]
  · rw [if_neg h1] at hk
    obtain ⟨e1, t2, hwr, hk⟩ := DapRun.andThen_eq_ret _ _ _ _ hk
    obtain ⟨r, rest, hrep, he1, ht2⟩ := mem_ap_write_atomic_u32_eq_ret _ _ _ _ _ hwr
    have hbase : w.2.debug_base = t.debug_base := by rw [hf1]
    have hfr2 : t2 = { t with replies := t2.replies, log := t2.log } := by
      rw [ht2, hf1]
    have hlog2 : t2.log = t.log
        ++ reads1.map (DapOp.read ((t.debug_base + c.CPUDBG_DSCR) % 2 ^ 32))
        ++ [.write ((t.debug_base + c.CPUDBG_ITR) % 2 ^ 32) opcode] := by
      rw [ht2, hbase]
      show w.2.log ++ _ = _
      rw [hf1]
    have hbase2 : t2.debug_base = t.debug_base := by rw [ht2]; exact hbase
    by_cases h2 : e1 ≠ ERROR_OK
    · rw [if_pos h2] at hk
      injection hk with hk1 hk2
      injection hk2 with hk3 hk4
      exact ⟨hk4 ▸ hfr2, fun he => absurd (hk1 ▸ he) h2⟩
    · rw [if_neg h2] at hk
      obtain ⟨e2, d, hdn, hk⟩ := DapRun.andThen_eq_ret _ _ _ _ hk
      obtain ⟨vals, v, hf3, -⟩ := cortex_a9_exec_opcode_done_ret c _ t2 _ e2 d.1 d.2 hdn
      have hfr3 : d.2 = { t with replies := d.2.replies, log := d.2.log } := by
        rw [hf3, hfr2]
      have hlog3 : d.2.log = t.log
          ++ reads1.map (DapOp.read ((t.debug_base + c.CPUDBG_DSCR) % 2 ^ 32))
          ++ [.write ((t.debug_base + c.CPUDBG_ITR) % 2 ^ 32) opcode]
          ++ (vals ++ [v]).map (DapOp.read ((t.debug_base + c.CPUDBG_DSCR) % 2 ^ 32)) := by
        rw [hf3, hbase2]
        show t2.log ++ _ = _
        rw [hlog2]
      have hitr : itr_writes ((t.debug_base + c.CPUDBG_ITR) % 2 ^ 32) d.2.log
          = itr_writes ((t.debug_base + c.CPUDBG_ITR) % 2 ^ 32) t.log ++ [opcode] := by
        rw [hlog3, itr_writes_append, itr_writes_append, itr_writes_append, itr_writes_reads,
          itr_writes_reads]
        simp [itr_writes]
      have hd2 : t1 = d.2 := by
        by_cases h3 : e2 ≠ ERROR_OK
        · rw [if_pos h3] at hk
          injection hk with hk1 hk2
          injection hk2 with hk3 hk4
          exact hk4.symm
        · rw [if_neg h3] at hk
          injection hk with hk1 hk2
          injection hk2 with hk3 hk4
          exact hk4.symm
      rw [hd2]
      exact ⟨hfr3, fun _ => hitr⟩

/-- One successful `cortex_a9_exec_opcode` adds its opcode to the opcodes
written to ITR and keeps the debug base. -/
theorem cortex_a9_exec_opcode_step {W : Type} (c : CpuDbg) (t : cortex_a9_target W)
    (opcode : Nat) (dscr_p : Option Nat) (e : Int) (q : Option Nat × cortex_a9_target W)
    (b : Nat) (base ops : List Nat)
    (h : cortex_a9_exec_opcode c t opcode dscr_p = .ret e q) (he : e = ERROR_OK)
    (hb : t.debug_base = b)
    (hl : itr_writes ((b + c.CPUDBG_ITR) % 2 ^ 32) t.log = base ++ ops) :
    q.2.debug_base = b
    ∧ itr_writes ((b + c.CPUDBG_ITR) % 2 ^ 32) q.2.log = base ++ (ops ++ [opcode]) := by
  obtain ⟨hf, hi⟩ := cortex_a9_exec_opcode_itr c t opcode dscr_p e q.1 q.2 h
  refine ⟨by rw [hf]; exact hb, ?_⟩
  have := hi he
  rw [hb, hl] at this
  rw [this, List.append_assoc]

/-- C20: for every register number 0..17, a successful
`cortex_a9_dap_write_coreregister_u32` executes the prefetch-flush opcode
`MCR p15,0,r0,c7,c5,4` as its last instruction if and only if the register is
CPSR (16); for every other register the opcode is not among the instructions
executed.  The opcode builders are parameters: the statement is for encodings
under which the prefetch flush differs from the other instructions the function
issues, and for a DTRRX register that is not ITR. -/
theorem C20_prefetch_flush_only_after_cpsr {W : Type} (c : CpuDbg) (a : ArmOpcodes)
    (t : cortex_a9_target W) (value regnum : Nat) (t1 : cortex_a9_target W)
    (hreg : regnum ≤ 17)
    (hmrc : ∀ Rd, a.ARMV4_5_MCR 15 0 0 7 5 4 ≠ a.ARMV4_5_MRC 14 0 Rd 0 5 0)
    (hmov : a.ARMV4_5_MCR 15 0 0 7 5 4 ≠ 0xE1A0F000)
    (hmsr : ∀ R, a.ARMV4_5_MCR 15 0 0 7 5 4 ≠ a.ARMV4_5_MSR_GP 0 0xF R)
    (hdtr : (t.debug_base + c.CPUDBG_DTRRX) % 2 ^ 32 ≠ (t.debug_base + c.CPUDBG_ITR) % 2 ^ 32)
    (h : cortex_a9_dap_write_coreregister_u32 c a t value (regnum : Int) = .ret ERROR_OK t1) :
    ∃ ops : List Nat,
      itr_writes ((t.debug_base + c.CPUDBG_ITR) % 2 ^ 32) t1.log
        = itr_writes ((t.debug_base + c.CPUDBG_ITR) % 2 ^ 32) t.log ++ ops
      ∧ (ops.getLast? = some (a.ARMV4_5_MCR 15 0 0 7 5 4) ↔ regnum = 16)
      ∧ (regnum ≠ 16 → a.ARMV4_5_MCR 15 0 0 7 5 4 ∉ ops) := by
  have hRd : (((regnum : Int) % 256).toNat) = regnum := by omega
  unfold cortex_a9_dap_write_coreregister_u32 at h
  simp only [hRd] at h
  obtain ⟨e0, r, hr, hk⟩ := DapRun.andThen_eq_ret _ _ _ _ h
  obtain ⟨rp, rest, hrep, he0, hv, hl, ht⟩ := mem_ap_read_atomic_u32_eq_ret _ _ _ _ hr
  by_cases h0 : e0 ≠ ERROR_OK
  · rw [if_pos h0] at hk; injection hk with hk1 hk2; exact absurd hk1 h0
  rw [if_neg h0] at hk
  obtain ⟨e1, p, hp, hk⟩ := DapRun.andThen_eq_ret _ _ _ _ hk
  by_cases h1 : e1 ≠ ERROR_OK
  · rw [if_pos h1] at hk; injection hk with hk1 hk2; exact absurd hk1 h1
  rw [if_neg h1, if_neg (by omega : ¬ regnum > 17)] at hk
  have hS0 : r.2.2.debug_base = t.debug_base
      ∧ itr_writes ((t.debug_base + c.CPUDBG_ITR) % 2 ^ 32) r.2.2.log
        = itr_writes ((t.debug_base + c.CPUDBG_ITR) % 2 ^ 32) t.log ++ [] := by
    rw [ht]
    refine ⟨rfl, ?_⟩
    show itr_writes _ (t.log ++ _) = _
    rw [itr_writes_append]
    simp [itr_writes]
  have hS1 : ∃ ops0 : List Nat, p.2.debug_base = t.debug_base
      ∧ itr_writes ((t.debug_base + c.CPUDBG_ITR) % 2 ^ 32) p.2.log
        = itr_writes ((t.debug_base + c.CPUDBG_ITR) % 2 ^ 32) t.log ++ ops0
      ∧ a.ARMV4_5_MCR 15 0 0 7 5 4 ∉ ops0 := by
    by_cases hfull : r.1 &&& c.DSCR_DTR_RX_FULL ≠ 0
    · rw [if_pos hfull] at hp
      obtain ⟨hb, hi⟩ := cortex_a9_exec_opcode_step c _ _ _ _ _ _ _ _ hp (not_not.mp h1)
        hS0.1 hS0.2
      refine ⟨_, hb, hi, ?_⟩
      simp only [List.nil_append, List.mem_singleton]
      exact hmrc 0
    · rw [if_neg hfull] at hp
      injection hp with hp1 hp2
      rw [← hp2]
      exact ⟨[], hS0.1, hS0.2, by simp⟩
  obtain ⟨ops0, hb1, hi1, hn1⟩ := hS1
  obtain ⟨e2, t2, hw, hk⟩ := DapRun.andThen_eq_ret _ _ _ _ hk
  obtain ⟨wp, rest2, hrep2, he2, ht2⟩ := mem_ap_write_atomic_u32_eq_ret _ _ _ _ _ hw
  by_cases h2 : e2 ≠ ERROR_OK
  · rw [if_pos h2] at hk; injection hk with hk1 hk2; exact absurd hk1 h2
  rw [if_neg h2] at hk
  have hS2 : t2.debug_base = t.debug_base
      ∧ itr_writes ((t.debug_base + c.CPUDBG_ITR) % 2 ^ 32) t2.log
        = itr_writes ((t.debug_base + c.CPUDBG_ITR) % 2 ^ 32) t.log ++ ops0 := by
    rw [ht2]
    refine ⟨hb1, ?_⟩
    show itr_writes _ (p.2.log ++ _) = _
    rw [itr_writes_append, hi1, hb1]
    have hdtr1 : ¬ (t.debug_base + c.CPUDBG_DTRRX) % 4294967296
        = (t.debug_base + c.CPUDBG_ITR) % 4294967296 := by simpa using hdtr
    simp [itr_writes, hdtr1]
  by_cases hlt : regnum < 15
  · rw [if_pos hlt] at hk
    obtain ⟨e3, q, hq, hk⟩ := DapRun.andThen_eq_ret _ _ _ _ hk
    injection hk with hk1 hk2
    obtain ⟨hb, hi⟩ := cortex_a9_exec_opcode_step c _ _ _ _ _ _ _ _ hq hk1 hS2.1 hS2.2
    refine ⟨_, hk2 ▸ hi, ?_, fun _ => ?_⟩
    · rw [List.getLast?_concat]
      constructor
      · intro hx; injection hx with hx; exact absurd hx.symm (hmrc _)
      · intro hx; omega
    · simp only [List.mem_append, List.mem_singleton, not_or]
      exact ⟨hn1, hmrc _⟩
  rw [if_neg hlt] at hk
  by_cases h15 : regnum = 15
  · rw [if_pos h15] at hk
    obtain ⟨e3, q, hq, hk⟩ := DapRun.andThen_eq_ret _ _ _ _ hk
    by_cases h3 : e3 ≠ ERROR_OK
    · rw [if_pos h3] at hk; injection hk with hk1 hk2; exact absurd hk1 h3
    rw [if_neg h3] at hk
    obtain ⟨hb3, hi3⟩ := cortex_a9_exec_opcode_step c _ _ _ _ _ _ _ _ hq (not_not.mp h3)
      hS2.1 hS2.2
    obtain ⟨e4, q1, hq1, hk⟩ := DapRun.andThen_eq_ret _ _ _ _ hk
    injection hk with hk1 hk2
    obtain ⟨hb4, hi4⟩ := cortex_a9_exec_opcode_step c _ _ _ _ _ _ _ _ hq1 hk1 hb3 hi3
    refine ⟨_, hk2 ▸ hi4, ?_, fun _ => ?_⟩
    · rw [List.getLast?_concat]
      constructor
      · intro hx; injection hx with hx; exact absurd hx.symm hmov
      · intro hx; omega
    · simp only [List.mem_append, List.mem_singleton, not_or]
      exact ⟨⟨hn1, hmrc _⟩, hmov⟩
  rw [if_neg h15] at hk
  obtain ⟨e3, q, hq, hk⟩ := DapRun.andThen_eq_ret _ _ _ _ hk
  by_cases h3 : e3 ≠ ERROR_OK
  · rw [if_pos h3] at hk; injection hk with hk1 hk2; exact absurd hk1 h3
  rw [if_neg h3] at hk
  obtain ⟨hb3, hi3⟩ := cortex_a9_exec_opcode_step c _ _ _ _ _ _ _ _ hq (not_not.mp h3)
    hS2.1 hS2.2
  obtain ⟨e4, q1, hq1, hk⟩ := DapRun.andThen_eq_ret _ _ _ _ hk
  by_cases h4 : e4 ≠ ERROR_OK
  · rw [if_pos h4] at hk; injection hk with hk1 hk2; exact absurd hk1 h4
  rw [if_neg h4] at hk
  obtain ⟨hb4, hi4⟩ := cortex_a9_exec_opcode_step c _ _ _ _ _ _ _ _ hq1 (not_not.mp h4) hb3 hi3
  by_cases h16 : regnum = 16
  · rw [if_pos h16] at hk
    obtain ⟨e5, q2, hq2, hk⟩ := DapRun.andThen_eq_ret _ _ _ _ hk
    injection hk with hk1 hk2
    obtain ⟨hb5, hi5⟩ := cortex_a9_exec_opcode_step c _ _ _ _ _ _ _ _ hq2 hk1 hb4 hi4
    refine ⟨_, hk2 ▸ hi5, ?_, fun hne => absurd h16 hne⟩
    rw [List.getLast?_concat]
    exact ⟨fun _ => h16, fun _ => rfl⟩
  · rw [if_neg h16] at hk
    injection hk with hk1 hk2
    refine ⟨_, hk2 ▸ hi4, ?_, fun _ => ?_⟩
    · rw [List.getLast?_concat]
      constructor
      · intro hx; injection hx with hx; exact absurd hx.symm (hmsr _)
      · intro hx; exact absurd hx h16
    · simp only [List.mem_append, List.mem_singleton, not_or]
      exact ⟨⟨hn1, hmrc _⟩, hmsr _⟩

/-- C20 at a write of CPSR with the ARM encodings: the three instructions
executed end with the prefetch flush `0xEE070F95`. -/
theorem C20_prefetch_flush_only_after_cpsr_witness :
    ∃ ops : List Nat,
      itr_writes 0x80000084
          [DapOp.read 0x80000088 0x1000000, .write 0x80000080 0x1D3,
            .write 0x80000084 0xEE100E15, .read 0x80000088 0x1000000,
            .write 0x80000084 0xE12FF000, .read 0x80000088 0x1000000,
            .write 0x80000084 0xEE070F95, .read 0x80000088 0x1000000]
        = itr_writes 0x80000084 [] ++ ops
      ∧ (ops.getLast? = some 0xEE070F95 ↔ 16 = 16)
      ∧ (16 ≠ 16 → 0xEE070F95 ∉ ops) :=
  C20_prefetch_flush_only_after_cpsr armv7_cpudbg arm_encodings
    (a9_target [⟨0, 0x1000000, false⟩, ⟨0, 0, false⟩, ⟨0, 0, false⟩, ⟨0, 0x1000000, false⟩,
      ⟨0, 0, false⟩, ⟨0, 0x1000000, false⟩, ⟨0, 0, false⟩, ⟨0, 0x1000000, false⟩])
    0x1D3 16
    { a9_target [] with
        log := [DapOp.read 0x80000088 0x1000000, .write 0x80000080 0x1D3,
            .write 0x80000084 0xEE100E15, .read 0x80000088 0x1000000,
            .write 0x80000084 0xE12FF000, .read 0x80000088 0x1000000,
            .write 0x80000084 0xEE070F95, .read 0x80000088 0x1000000] }
    (by decide)
    (fun Rd h => by
      have h1 := congrArg (fun x => Nat.testBit x 20) h
      have e1 : Nat.testBit 3993440149 20 = false := by decide
      have e2 : Nat.testBit 3994029589 20 = true := by decide
      simp [arm_encodings, Nat.testBit_or, e1, e2] at h1)
    (by decide) (fun R h => by
      have h1 := congrArg (fun x => Nat.testBit x 24) h
      have e1 : Nat.testBit 3993440149 24 = false := by decide
      have e2 : Nat.testBit 3778015232 24 = true := by decide
      simp [arm_encodings, Nat.testBit_or, e1, e2] at h1)
    (by decide) rfl

/-! ## C13: `cortex_a9_poll` -/

/-- All bits of two masks are set in a word exactly when the bits of each
are. -/
theorem and_or_eq_or_iff (x h r : Nat) :
    x &&& (h ||| r) = h ||| r ↔ x &&& h = h ∧ x &&& r = r := by
  constructor
  · intro e
    constructor
    · apply Nat.eq_of_testBit_eq
      intro i
      have := congrArg (fun n => Nat.testBit n i) e
      simp only [Nat.testBit_and, Nat.testBit_or] at this ⊢
      revert this
      cases x.testBit i <;> cases h.testBit i <;> cases r.testBit i <;> simp
    · apply Nat.eq_of_testBit_eq
      intro i
      have := congrArg (fun n => Nat.testBit n i) e
      simp only [Nat.testBit_and, Nat.testBit_or] at this ⊢
      revert this
      cases x.testBit i <;> cases h.testBit i <;> cases r.testBit i <;> simp
  · intro ⟨e1, e2⟩
    apply Nat.eq_of_testBit_eq
    intro i
    have a1 := congrArg (fun n => Nat.testBit n i) e1
    have a2 := congrArg (fun n => Nat.testBit n i) e2
    simp only [Nat.testBit_and, Nat.testBit_or] at a1 a2 ⊢
    revert a1 a2
    cases x.testBit i <;> cases h.testBit i <;> cases r.testBit i <;> simp

/-- Of two disjoint masks, a word shows exactly the second when it has all bits
of the second and none of the first. -/
theorem and_or_eq_right_iff (x h r : Nat) (hd : h &&& r = 0) :
    x &&& (h ||| r) = r ↔ x &&& h = 0 ∧ x &&& r = r := by
  constructor
  · intro e
    constructor
    · apply Nat.eq_of_testBit_eq
      intro i
      have := congrArg (fun n => Nat.testBit n i) e
      have d := congrArg (fun n => Nat.testBit n i) hd
      simp only [Nat.testBit_and, Nat.testBit_or, Nat.zero_testBit] at this d ⊢
      revert this d
      cases x.testBit i <;> cases h.testBit i <;> cases r.testBit i <;> simp
    · apply Nat.eq_of_testBit_eq
      intro i
      have := congrArg (fun n => Nat.testBit n i) e
      have d := congrArg (fun n => Nat.testBit n i) hd
      simp only [Nat.testBit_and, Nat.testBit_or, Nat.zero_testBit] at this d ⊢
      revert this d
      cases x.testBit i <;> cases h.testBit i <;> cases r.testBit i <;> simp
  · intro ⟨e1, e2⟩
    apply Nat.eq_of_testBit_eq
    intro i
    have a1 := congrArg (fun n => Nat.testBit n i) e1
    have a2 := congrArg (fun n => Nat.testBit n i) e2
    simp only [Nat.testBit_and, Nat.testBit_or, Nat.zero_testBit] at a1 a2 ⊢
    revert a1 a2
    cases x.testBit i <;> cases h.testBit i <;> cases r.testBit i <;> simp

/-- C13, the claim as written fails when debug entry fails: the target was
running, DSCR is read with `CORE_HALTED` and `CORE_RESTARTED` set, the state
becomes halted, `cortex_a9_debug_entry` returns `ERROR_FAIL`, and
`cortex_a9_poll` returns that status without firing `TARGET_EVENT_HALTED`. -/
theorem C13_counterexample :
    ∃ t1, cortex_a9_poll armv7_cpudbg (a9_hooks ERROR_FAIL)
        { a9_target [⟨0, 0x1000003, false⟩] with state := .TARGET_RUNNING }
          = .ret ERROR_FAIL t1
      ∧ t1.state = .TARGET_HALTED ∧ t1.events = [] :=
  ⟨_, rfl, rfl, rfl⟩

/-- C13: for every DSCR value `d` read successfully and every previous target
state, `cortex_a9_poll` stores `d` in `cpudbg_dscr` and decodes the run-mode
bits: `CORE_HALTED` and `CORE_RESTARTED` both set gives state Halted, only
`CORE_RESTARTED` set gives Running, anything else Unknown, each with `ERROR_OK`
and no event.  On a change to Halted from Running or Reset it runs debug entry
and, when debug entry succeeds, fires `TARGET_EVENT_HALTED`; from DebugRunning
it runs debug entry and, when debug entry succeeds, fires
`TARGET_EVENT_DEBUG_HALTED`; when debug entry fails its status is returned and
no event is fired.  From Unknown, or when the state was Halted already, there
is no debug entry and no event. -/
theorem C13_poll_decodes_run_mode {W : Type} (c : CpuDbg) (hk : A9Hooks W)
    (t : cortex_a9_target W) (r : DapReply) (rest : List DapReply)
    (base : cortex_a9_target W)
    (hrep : t.replies = r :: rest) (hok : r.retval = ERROR_OK)
    (hdis : c.DSCR_CORE_HALTED &&& c.DSCR_CORE_RESTARTED = 0)
    (hH : c.DSCR_CORE_HALTED ≠ 0)
    (hbase : base =
      { t with
          replies := rest, cpudbg_dscr := r.value,
          log := t.log ++ [.read ((t.debug_base + c.CPUDBG_DSCR) % 2 ^ 32) r.value] }) :
    -- both bits set
    ((r.value &&& c.DSCR_CORE_HALTED = c.DSCR_CORE_HALTED
        ∧ r.value &&& c.DSCR_CORE_RESTARTED = c.DSCR_CORE_RESTARTED) →
      (t.state = .TARGET_HALTED → cortex_a9_poll c hk t = .ret ERROR_OK base)
      ∧ (t.state = .TARGET_UNKNOWN →
          cortex_a9_poll c hk t = .ret ERROR_OK { base with state := .TARGET_HALTED })
      ∧ (t.state = .TARGET_RUNNING ∨ t.state = .TARGET_RESET →
          cortex_a9_poll c hk t
            = (hk.cortex_a9_debug_entry
                { base with state := .TARGET_HALTED, apsel := swjdp_debugap }).andThen
                fun retval t3 =>
                  if retval ≠ ERROR_OK then .ret retval t3
                  else .ret ERROR_OK
                    { t3 with events := t3.events ++ [.TARGET_EVENT_HALTED],
                              apsel := t.apsel })
      ∧ (t.state = .TARGET_DEBUG_RUNNING →
          cortex_a9_poll c hk t
            = (hk.cortex_a9_debug_entry
                { base with state := .TARGET_HALTED, apsel := swjdp_debugap }).andThen
                fun retval t3 =>
                  if retval ≠ ERROR_OK then .ret retval t3
                  else .ret ERROR_OK
                    { t3 with events := t3.events ++ [.TARGET_EVENT_DEBUG_HALTED],
                              apsel := t.apsel }))
    -- only CORE_RESTARTED set
    ∧ ((r.value &&& c.DSCR_CORE_HALTED = 0
        ∧ r.value &&& c.DSCR_CORE_RESTARTED = c.DSCR_CORE_RESTARTED) →
      cortex_a9_poll c hk t = .ret ERROR_OK { base with state := .TARGET_RUNNING })
    -- any other combination
    ∧ (¬ (r.value &&& c.DSCR_CORE_HALTED = c.DSCR_CORE_HALTED
          ∧ r.value &&& c.DSCR_CORE_RESTARTED = c.DSCR_CORE_RESTARTED) →
       ¬ (r.value &&& c.DSCR_CORE_HALTED = 0
          ∧ r.value &&& c.DSCR_CORE_RESTARTED = c.DSCR_CORE_RESTARTED) →
      cortex_a9_poll c hk t = .ret ERROR_OK { base with state := .TARGET_UNKNOWN }) := by
  have hok1 : ¬ r.retval ≠ ERROR_OK := not_not.mpr hok
  have hpoll : cortex_a9_poll c hk t
      = if DSCR_RUN_MODE c r.value = (c.DSCR_CORE_HALTED ||| c.DSCR_CORE_RESTARTED) then
          if t.state ≠ .TARGET_HALTED then
            if t.state = .TARGET_RUNNING ∨ t.state = .TARGET_RESET then
              (hk.cortex_a9_debug_entry
                { base with state := .TARGET_HALTED, apsel := swjdp_debugap }).andThen
                fun retval t3 =>
                  if retval ≠ ERROR_OK then .ret retval t3
                  else .ret retval
                    { t3 with events := t3.events ++ [.TARGET_EVENT_HALTED],
                              apsel := t.apsel }
            else if t.state = .TARGET_DEBUG_RUNNING then
              (hk.cortex_a9_debug_entry
                { base with state := .TARGET_HALTED, apsel := swjdp_debugap }).andThen
                fun retval t3 =>
                  if retval ≠ ERROR_OK then .ret retval t3
                  else .ret retval
                    { t3 with events := t3.events ++ [.TARGET_EVENT_DEBUG_HALTED],
                              apsel := t.apsel }
            else .ret ERROR_OK { base with state := .TARGET_HALTED }
          else .ret ERROR_OK base
        else if DSCR_RUN_MODE c r.value = c.DSCR_CORE_RESTARTED then
          .ret ERROR_OK { base with state := .TARGET_RUNNING }
        else .ret ERROR_OK { base with state := .TARGET_UNKNOWN } := by
    unfold cortex_a9_poll mem_ap_read_atomic_u32
    simp only [dap_ap_select, dap_ap_get_select, hrep, DapRun.andThen_ret, hok, hbase]
    rw [if_neg (by decide)]
  have hand : ∀ (k : W → Int → cortex_a9_target W → cortex_a9_target W)
      (x : DapRun (cortex_a9_target W)),
      (x.andThen fun retval t3 =>
          if retval ≠ ERROR_OK then .ret retval t3 else .ret retval (k t3.world retval t3))
        = x.andThen fun retval t3 =>
          if retval ≠ ERROR_OK then .ret retval t3 else .ret ERROR_OK (k t3.world ERROR_OK t3) := by
    intro k x
    congr 1
    funext retval t3
    by_cases hr : retval ≠ ERROR_OK
    · rw [if_pos hr, if_pos hr]
    · rw [if_neg hr, if_neg hr, not_not.mp hr]
  have hmode1 := and_or_eq_or_iff r.value c.DSCR_CORE_HALTED c.DSCR_CORE_RESTARTED
  have hmode2 := and_or_eq_right_iff r.value c.DSCR_CORE_HALTED c.DSCR_CORE_RESTARTED hdis
  refine ⟨fun hb => ?_, fun ho => ?_, fun hnb hno => ?_⟩
  · have hm : DSCR_RUN_MODE c r.value = (c.DSCR_CORE_HALTED ||| c.DSCR_CORE_RESTARTED) :=
      hmode1.mpr hb
    rw [hpoll, if_pos hm]
    refine ⟨fun hs => ?_, fun hs => ?_, fun hs => ?_, fun hs => ?_⟩
    · rw [if_neg (not_not.mpr hs)]
    · rw [if_pos (by rw [hs]; decide), if_neg (by rw [hs]; decide),
        if_neg (by rw [hs]; decide)]
    · have hne : t.state ≠ .TARGET_HALTED := by
        rcases hs with hs | hs <;> rw [hs] <;> decide
      rw [if_pos hne, if_pos hs]
      exact hand (fun _ _ t3 => { t3 with events := t3.events ++ [.TARGET_EVENT_HALTED],
                                          apsel := t.apsel }) _
    · rw [if_pos (by rw [hs]; decide), if_neg (by rw [hs]; decide),
        if_pos hs]
      exact hand (fun _ _ t3 => { t3 with events := t3.events ++ [.TARGET_EVENT_DEBUG_HALTED],
                                          apsel := t.apsel }) _
  · have hm : DSCR_RUN_MODE c r.value = c.DSCR_CORE_RESTARTED := hmode2.mpr ho
    have hnm : ¬ DSCR_RUN_MODE c r.value = (c.DSCR_CORE_HALTED ||| c.DSCR_CORE_RESTARTED) := by
      intro h
      have := (hmode1.mp h).1
      rw [ho.1] at this
      exact hH this.symm
    rw [hpoll, if_neg hnm, if_pos hm]
  · have hnm : ¬ DSCR_RUN_MODE c r.value = (c.DSCR_CORE_HALTED ||| c.DSCR_CORE_RESTARTED) :=
      fun h => hnb (hmode1.mp h)
    have hnm2 : ¬ DSCR_RUN_MODE c r.value = c.DSCR_CORE_RESTARTED :=
      fun h => hno (hmode2.mp h)
    rw [hpoll, if_neg hnm, if_neg hnm2]

/-- C13 at a DSCR that shows only `CORE_RESTARTED`: the state becomes
Running. -/
theorem C13_poll_decodes_run_mode_witness :
    cortex_a9_poll armv7_cpudbg (a9_hooks 0) (a9_target [⟨0, 0x1000002, false⟩])
      = .ret ERROR_OK
          { a9_target [] with
              state := .TARGET_RUNNING, cpudbg_dscr := 0x1000002,
              log := [.read 0x80000088 0x1000002] } :=
  (C13_poll_decodes_run_mode armv7_cpudbg (a9_hooks 0) (a9_target [⟨0, 0x1000002, false⟩])
    ⟨0, 0x1000002, false⟩ []
    { a9_target [] with cpudbg_dscr := 0x1000002, log := [.read 0x80000088 0x1000002] }
    rfl rfl (by decide) (by decide) rfl).2.1 ⟨by decide, by decide⟩

/-! ## C16: the AP selected across poll, halt and resume -/

/-- C16, the code leaves the debug AP selected on three return paths.  The
caller had the memory AP (0) selected.  `cortex_a9_halt`: the three accesses
succeed, the poll of DSCR shows the core not halted and the second has elapsed;
the function returns `ERROR_FAIL` with AP 1 selected.  `cortex_a9_resume` in
Jazelle state returns `ERROR_FAIL` with AP 1 selected, and so does a resume
whose first read of DSCR fails.  `cortex_a9_poll`, when debug entry fails,
returns with AP 1 selected.  A `cortex_a9_halt` whose first write fails does
restore AP 0. -/
theorem C16_debug_ap_left_selected :
    (a9_target []).apsel = 0
    ∧ (∃ t1, cortex_a9_halt armv7_cpudbg
          (a9_target [⟨0, 0, false⟩, ⟨0, 0x1000002, false⟩, ⟨0, 0, false⟩,
            ⟨0, 0x1000002, true⟩]) = .ret ERROR_FAIL t1 ∧ t1.apsel = 1)
    ∧ (∃ t1, cortex_a9_resume armv7_cpudbg (a9_hooks 0)
          { a9_target [] with core_state := .ARM_STATE_JAZELLE } 1 0 0 0
            = .ret ERROR_FAIL t1 ∧ t1.apsel = 1)
    ∧ (∃ t1, cortex_a9_resume armv7_cpudbg (a9_hooks 0)
          (a9_target [⟨ERROR_JTAG_DEVICE_ERROR, 0, false⟩]) 1 0 0 0
            = .ret ERROR_JTAG_DEVICE_ERROR t1 ∧ t1.apsel = 1)
    ∧ (∃ t1, cortex_a9_poll armv7_cpudbg (a9_hooks ERROR_FAIL)
          { a9_target [⟨0, 0x1000003, false⟩] with state := .TARGET_RUNNING }
            = .ret ERROR_FAIL t1 ∧ t1.apsel = 1)
    ∧ (∃ t1, cortex_a9_halt armv7_cpudbg (a9_target [⟨ERROR_JTAG_DEVICE_ERROR, 0, false⟩])
            = .ret ERROR_JTAG_DEVICE_ERROR t1 ∧ t1.apsel = 0) :=
  ⟨rfl, ⟨_, rfl, rfl⟩, ⟨_, rfl, rfl⟩, ⟨_, rfl, rfl⟩, ⟨_, rfl, rfl⟩, ⟨_, rfl, rfl⟩⟩

/-! ## C17: the resume PC -/

/-- C17: in `cortex_a9_resume`, with `p` the cached PC when `current` is not 0
and `address` otherwise, the register cache handed to
`cortex_a9_restore_context` has the PC entry set to `p & 0xFFFFFFFC` in ARM
state and to `p | 1` in Thumb or ThumbEE state, marked valid and dirty, and the
function goes on with the restart of the core when the context is restored.  In
Jazelle state the function returns `ERROR_FAIL`; the cached PC is unchanged and
no transport operation is made. -/
theorem C17_resume_pc {W : Type} (c : CpuDbg) (hk : A9Hooks W) (t t0 : cortex_a9_target W)
    (current : Int) (address p : Nat) (handle_breakpoints debug_execution : Int)
    (hp : p = if current ≠ 0 then t.pc.value else address)
    (ht0 : t0 = if debug_execution = 0
                then { t with apsel := swjdp_debugap,
                              world := hk.target_free_all_working_areas t.world }
                else { t with apsel := swjdp_debugap }) :
    (t.core_state = .ARM_STATE_ARM →
      cortex_a9_resume c hk t current address handle_breakpoints debug_execution
        = (hk.cortex_a9_restore_context
            { t0 with pc := { t.pc with value := p &&& 0xFFFFFFFC, dirty := true,
                                        valid := true } }
            handle_breakpoints).andThen
            fun retval t1 =>
              if retval ≠ ERROR_OK then .ret retval t1
              else cortex_a9_resume_restart c hk t.apsel t1 debug_execution)
    ∧ (t.core_state = .ARM_STATE_THUMB ∨ t.core_state = .ARM_STATE_THUMB_EE →
      cortex_a9_resume c hk t current address handle_breakpoints debug_execution
        = (hk.cortex_a9_restore_context
            { t0 with pc := { t.pc with value := p ||| 1, dirty := true, valid := true } }
            handle_breakpoints).andThen
            fun retval t1 =>
              if retval ≠ ERROR_OK then .ret retval t1
              else cortex_a9_resume_restart c hk t.apsel t1 debug_execution)
    ∧ (t.core_state = .ARM_STATE_JAZELLE →
      cortex_a9_resume c hk t current address handle_breakpoints debug_execution
          = .ret ERROR_FAIL t0
        ∧ t0.pc = t.pc ∧ t0.log = t.log ∧ t0.replies = t.replies) := by
  have hpc : t0.pc = t.pc := by
    rw [ht0]; split <;> rfl
  have hcs : t0.core_state = t.core_state := by
    rw [ht0]; split <;> rfl
  have hp1 : (if current = 0 then address else t0.pc.value) = p := by
    rw [hp, hpc]
    by_cases hc : current = 0
    · rw [if_pos hc, if_neg (not_not.mpr hc)]
    · rw [if_neg hc, if_pos hc]
  have hres : cortex_a9_resume c hk t current address handle_breakpoints debug_execution
      = match (match t.core_state with
          | .ARM_STATE_ARM => some (p &&& 0xFFFFFFFC)
          | .ARM_STATE_THUMB => some (p ||| 0x1)
          | .ARM_STATE_THUMB_EE => some (p ||| 0x1)
          | .ARM_STATE_JAZELLE => none : Option Nat) with
        | none => .ret ERROR_FAIL t0
        | some resume_pc =>
          (hk.cortex_a9_restore_context
              { t0 with pc := { t.pc with value := resume_pc, dirty := true, valid := true } }
              handle_breakpoints).andThen
            fun retval t1 =>
              if retval ≠ ERROR_OK then .ret retval t1
              else cortex_a9_resume_restart c hk t.apsel t1 debug_execution := by
    unfold cortex_a9_resume
    simp only [dap_ap_select, dap_ap_get_select]
    rw [← ht0, hp1, hcs, hpc]
  refine ⟨fun hs => ?_, fun hs => ?_, fun hs => ⟨?_, hpc, ?_, ?_⟩⟩
  · rw [hres, hs]
  · rcases hs with hs | hs <;> rw [hres, hs]
  · rw [hres, hs]
  · rw [ht0]; split <;> rfl
  · rw [ht0]; split <;> rfl

/-- C17 at a resume in Thumb state at address `0x8000`: the context restored
has PC `0x8001`; the restore fails here, so the status shows the call was
made. -/
theorem C17_resume_pc_witness :
    cortex_a9_resume armv7_cpudbg
        { a9_hooks 0 with
            cortex_a9_restore_context := fun t _ =>
              .ret (if t.pc = ⟨"pc", 0x8001, true, true, 32⟩ then ERROR_FAIL else ERROR_OK) t }
        { a9_target [] with core_state := .ARM_STATE_THUMB } 0 0x8000 0 0
      = .ret ERROR_FAIL
          { a9_target [] with
              core_state := .ARM_STATE_THUMB, apsel := 1,
              pc := ⟨"pc", 0x8001, true, true, 32⟩ } :=
  (C17_resume_pc armv7_cpudbg
    { a9_hooks 0 with
        cortex_a9_restore_context := fun t _ =>
          .ret (if t.pc = ⟨"pc", 0x8001, true, true, 32⟩ then ERROR_FAIL else ERROR_OK) t }
    { a9_target [] with core_state := .ARM_STATE_THUMB }
    { a9_target [] with core_state := .ARM_STATE_THUMB, apsel := 1 }
    0 0x8000 0x8000 0 0 rfl rfl).2.1 (Or.inl rfl)

/-! ## C14: arming a hardware breakpoint -/

/-- The search loop stops at the lowest-numbered slot that is not in use. -/
theorem cortex_a9_find_brp_lowest (brp_num : Int) :
    ∀ (l : List cortex_a9_brp) (k s : Nat) (brp : cortex_a9_brp),
      l[s]? = some brp → brp.used = 0 →
      (∀ i, i < s → ∃ b, l[i]? = some b ∧ b.used ≠ 0) →
      ((k + s : Nat) : Int) < brp_num →
      cortex_a9_find_brp brp_num l k = some (k + s) := by
  intro l
  induction l with
  | nil => intro k s brp h; simp at h
  | cons b rest ih =>
    intro k s brp hs hfree hlow hnum
    cases s with
    | zero =>
      simp only [List.getElem?_cons_zero, Option.some.injEq] at hs
      subst hs
      unfold cortex_a9_find_brp
      rw [if_neg (fun h => h.1 hfree)]
      rfl
    | succ s =>
      obtain ⟨b0, hb0, hu0⟩ := hlow 0 (by omega)
      simp only [List.getElem?_cons_zero, Option.some.injEq] at hb0
      subst hb0
      unfold cortex_a9_find_brp
      rw [if_pos ⟨hu0, by omega⟩]
      rw [List.getElem?_cons_succ] at hs
      have := ih (k + 1) s brp hs hfree
        (fun i hi => by
          obtain ⟨b1, hb1, hu1⟩ := hlow (i + 1) (by omega)
          rw [List.getElem?_cons_succ] at hb1
          exact ⟨b1, hb1, hu1⟩)
        (by have : k + 1 + s = k + (s + 1) := by omega
            rw [this]; exact hnum)
      rw [this]
      congr 1
      omega

/-- C14: for every hardware breakpoint that is not armed yet, with `s` the
lowest-numbered slot not in use (a slot that carries its own number in `BRPn`)
and both register writes succeeding, `cortex_a9_set_breakpoint` with match mode
`m` writes `a & ~3` to the value register at `BVR_BASE + 4*s`, then
`((m & 7) << 20) | (bas << 5) | (3 << 1) | 1` to the control register at
`BCR_BASE + 4*s`, where `bas` is `3 << (a & 2)` for a 2-byte breakpoint and
`0xF` otherwise; the slot record holds the same value and control and is marked
used, `breakpoint.set` is `s + 1`, and the status is `ERROR_OK`. -/
theorem C14_set_hardware_breakpoint {W : Type} (c : CpuDbg) (a : ArmOpcodes) (m : A9Memory W)
    (t : cortex_a9_target W) (bp : breakpoint) (matchmode s : Nat) (brp : cortex_a9_brp)
    (w1 w2 : DapReply) (rest : List DapReply)
    (hset : bp.set = 0) (htype : bp.type = .BKPT_HARD)
    (hslot : t.brp_list[s]? = some brp) (hfree : brp.used = 0) (hBRPn : brp.BRPn = s)
    (hlow : ∀ i, i < s → ∃ b, t.brp_list[i]? = some b ∧ b.used ≠ 0)
    (hnum : (s : Int) < t.brp_num)
    (hrep : t.replies = w1 :: w2 :: rest)
    (hw1 : w1.retval = ERROR_OK) (hw2 : w2.retval = ERROR_OK) :
    cortex_a9_set_breakpoint c a m t bp matchmode
      = .ret ERROR_OK
          ({ t with
               replies := rest,
               log := t.log ++
                 [.write ((t.debug_base + c.CPUDBG_BVR_BASE + 4 * s) % 2 ^ 32)
                    (bp.address &&& 0xFFFFFFFC)] ++
                 [.write ((t.debug_base + c.CPUDBG_BCR_BASE + 4 * s) % 2 ^ 32)
                    (((matchmode &&& 0x7) <<< 20)
                      ||| ((if bp.length = 2 then 3 <<< (bp.address &&& 0x02) else 0x0F) <<< 5)
                      ||| (3 <<< 1) ||| 1)],
               brp_list := t.brp_list.set s
                 { brp with
                     used := 1, value := bp.address &&& 0xFFFFFFFC,
                     control := ((matchmode &&& 0x7) <<< 20)
                       ||| ((if bp.length = 2 then 3 <<< (bp.address &&& 0x02) else 0x0F) <<< 5)
                       ||| (3 <<< 1) ||| 1 } },
           { bp with set := (s : Int) + 1 }) := by
  have hfind : cortex_a9_find_brp t.brp_num t.brp_list 0 = some s := by
    have := cortex_a9_find_brp_lowest t.brp_num t.brp_list 0 s brp hslot hfree hlow
      (by simpa using hnum)
    simpa using this
  unfold cortex_a9_set_breakpoint
  rw [if_neg (not_not.mpr hset), htype]
  simp only [hfind, if_neg (not_le.mpr hnum), hslot, cortex_a9_dap_write_memap_register_u32,
    mem_ap_write_atomic_u32, hrep, DapRun.andThen_ret, hw1, hw2, hBRPn]
  rw [if_neg (by decide), if_neg (by decide)]

/-- C14 at a 2-byte breakpoint at `0x8002` on a table whose slot 0 is in use:
slot 1 is armed with value `0x8000` and control `0x187`. -/
theorem C14_set_hardware_breakpoint_witness :
    cortex_a9_set_breakpoint armv7_cpudbg arm_encodings no_memory
        { a9_target [⟨0, 0, false⟩, ⟨0, 0, false⟩] with
            brp_num := 2, brp_num_available := 1,
            brp_list := [⟨1, .BRP_NORMAL, 0x4000, 0x1E7, 0⟩, ⟨0, .BRP_NORMAL, 0, 0, 1⟩] }
        ⟨0x8002, 2, .BKPT_HARD, 0, []⟩ 0
      = .ret ERROR_OK
          ({ a9_target [] with
               brp_num := 2, brp_num_available := 1,
               log := [.write 0x80000104 0x8000, .write 0x80000144 0x187],
               brp_list := [⟨1, .BRP_NORMAL, 0x4000, 0x1E7, 0⟩,
                            ⟨1, .BRP_NORMAL, 0x8000, 0x187, 1⟩] },
           ⟨0x8002, 2, .BKPT_HARD, 2, []⟩) :=
  C14_set_hardware_breakpoint armv7_cpudbg arm_encodings no_memory
    { a9_target [⟨0, 0, false⟩, ⟨0, 0, false⟩] with
        brp_num := 2, brp_num_available := 1,
        brp_list := [⟨1, .BRP_NORMAL, 0x4000, 0x1E7, 0⟩, ⟨0, .BRP_NORMAL, 0, 0, 1⟩] }
    ⟨0x8002, 2, .BKPT_HARD, 0, []⟩ 0 1 ⟨0, .BRP_NORMAL, 0, 0, 1⟩
    ⟨0, 0, false⟩ ⟨0, 0, false⟩ [] rfl rfl rfl rfl rfl
    (fun i hi => by
      have h0 : i = 0 := by omega
      subst h0
      exact ⟨_, rfl, by decide⟩)
    (by decide) rfl rfl rfl

/-! ## C15: the slot accounting -/

/-- Replacing a slot changes the number of free slots by what the old and the
new record say. -/
theorem brp_free_set :
    ∀ (l : List cortex_a9_brp) (i : Nat) (old new : cortex_a9_brp), l[i]? = some old →
      brp_free (l.set i new) + (if old.used = 0 then 1 else 0)
        = brp_free l + (if new.used = 0 then 1 else 0) := by
  intro l
  induction l with
  | nil => intro i old new h; simp at h
  | cons b rest ih =>
    intro i old new h
    cases i with
    | zero =>
      simp only [List.getElem?_cons_zero, Option.some.injEq] at h
      subst h
      simp only [List.set_cons_zero, brp_free, List.filter_cons, decide_eq_true_eq]
      split_ifs <;> simp
    | succ i =>
      rw [List.getElem?_cons_succ] at h
      have := ih i old new h
      simp only [List.set_cons_succ, brp_free, List.filter_cons, decide_eq_true_eq] at this ⊢
      split_ifs at this ⊢ <;> simp at this ⊢ <;> omega

/-- What the search loop returns is the index of a slot of the table that is
not in use or has a number that is not below `brp_num`. -/
theorem cortex_a9_find_brp_some (brp_num : Int) :
    ∀ (l : List cortex_a9_brp) (k j : Nat), cortex_a9_find_brp brp_num l k = some j →
      k ≤ j ∧ ∃ b, l[j - k]? = some b ∧ (b.used = 0 ∨ ¬ (j : Int) < brp_num) := by
  intro l
  induction l with
  | nil => intro k j h; simp [cortex_a9_find_brp] at h
  | cons b rest ih =>
    intro k j h
    unfold cortex_a9_find_brp at h
    by_cases hc : b.used ≠ 0 ∧ (k : Int) < brp_num
    · rw [if_pos hc] at h
      obtain ⟨hk, b1, hb1, hu⟩ := ih (k + 1) j h
      refine ⟨by omega, b1, ?_, hu⟩
      have : j - k = (j - (k + 1)) + 1 := by omega
      rw [this, List.getElem?_cons_succ]
      exact hb1
    · rw [if_neg hc] at h
      injection h with h
      subst h
      refine ⟨le_refl _, b, by simp, ?_⟩
      by_cases hu : b.used = 0
      · exact Or.inl hu
      · exact Or.inr (fun hlt => hc ⟨hu, hlt⟩)

/-- The search loop runs past the end of the table only when no slot is
free. -/
theorem cortex_a9_find_brp_none (brp_num : Int) :
    ∀ (l : List cortex_a9_brp) (k : Nat), cortex_a9_find_brp brp_num l k = none →
      brp_free l = 0 := by
  intro l
  induction l with
  | nil => intro k _; rfl
  | cons b rest ih =>
    intro k h
    unfold cortex_a9_find_brp at h
    by_cases hc : b.used ≠ 0 ∧ (k : Int) < brp_num
    · rw [if_pos hc] at h
      have := ih (k + 1) h
      simp only [brp_free, List.filter_cons, decide_eq_true_eq] at this ⊢
      rw [if_neg hc.1]
      exact this
    · rw [if_neg hc] at h
      exact absurd h (by simp)

/-- A write over the transport returns the target with a reply consumed and the
log longer, or stops for lack of replies. -/
theorem mem_ap_write_atomic_u32_cases {W : Type} (t : cortex_a9_target W) (address value : Nat) :
    mem_ap_write_atomic_u32 t address value = .starved
    ∨ ∃ e rest, mem_ap_write_atomic_u32 t address value
        = .ret e { t with replies := rest, log := t.log ++ [.write address value] } := by
  unfold mem_ap_write_atomic_u32
  cases t.replies with
  | nil => exact Or.inl rfl
  | cons r rest => exact Or.inr ⟨r.retval, rest, rfl⟩

/-- A write over the transport does not index any array. -/
theorem mem_ap_write_atomic_u32_ne_fault {W : Type} (t : cortex_a9_target W)
    (address value : Nat) : mem_ap_write_atomic_u32 t address value ≠ .fault := by
  unfold mem_ap_write_atomic_u32
  cases t.replies <;> simp

/-- A sequence of calls indexes no array outside its bounds when neither the
first call nor what follows does. -/
theorem DapRun.andThen_ne_fault {α β : Type} (r : DapRun α) (k : Int → α → DapRun β)
    (hr : r ≠ .fault) (hk : ∀ e v, k e v ≠ .fault) : r.andThen k ≠ .fault := by
  cases r with
  | ret e v => exact hk e v
  | starved => simp [DapRun.andThen]
  | fault => exact absurd rfl hr

/-- Arming a hardware breakpoint that is not armed, on a table with its
`brp_num` slots of which at least one is free: the call indexes no slot outside
the table, and when it returns, whatever the status, one more slot is in
use. -/
theorem cortex_a9_set_breakpoint_hard_free {W : Type} (c : CpuDbg) (a : ArmOpcodes)
    (m : A9Memory W) (t : cortex_a9_target W) (bp : breakpoint) (matchmode : Nat)
    (hlen : (t.brp_list.length : Int) = t.brp_num) (hfree : 1 ≤ brp_free t.brp_list)
    (hset : bp.set = 0) (htype : bp.type = .BKPT_HARD) :
    cortex_a9_set_breakpoint c a m t bp matchmode ≠ .fault
    ∧ ∀ e t1 bp1, cortex_a9_set_breakpoint c a m t bp matchmode = .ret e (t1, bp1) →
        t1.brp_num = t.brp_num ∧ t1.brp_num_available = t.brp_num_available
        ∧ t1.brp_list.length = t.brp_list.length
        ∧ brp_free t1.brp_list + 1 = brp_free t.brp_list := by
  unfold cortex_a9_set_breakpoint
  rw [if_neg (not_not.mpr hset)]
  simp only [htype]
  cases hfind : cortex_a9_find_brp t.brp_num t.brp_list 0 with
  | none =>
    have := cortex_a9_find_brp_none _ _ _ hfind
    omega
  | some s =>
    obtain ⟨-, b, hb, hu⟩ := cortex_a9_find_brp_some _ _ _ _ hfind
    rw [Nat.sub_zero] at hb
    have hslen : s < t.brp_list.length := by
      by_contra hge
      rw [List.getElem?_eq_none (by omega)] at hb
      exact absurd hb (by simp)
    have hsnum : (s : Int) < t.brp_num := by rw [← hlen]; exact_mod_cast hslen
    have hused : b.used = 0 := hu.resolve_right (not_not.mpr hsnum)
    have hcount : ∀ new : cortex_a9_brp, new.used = 1 →
        brp_free (t.brp_list.set s new) + 1 = brp_free t.brp_list := by
      intro new hn
      have := brp_free_set t.brp_list s b new hb
      rw [if_pos hused, hn] at this
      simpa using this
    simp only [if_neg (not_le.mpr hsnum), hb, cortex_a9_dap_write_memap_register_u32]
    constructor
    · apply DapRun.andThen_ne_fault _ _ (mem_ap_write_atomic_u32_ne_fault _ _ _)
      intro e v
      split
      · simp
      · apply DapRun.andThen_ne_fault _ _ (mem_ap_write_atomic_u32_ne_fault _ _ _)
        intro e1 v1
        split <;> simp
    · intro e t1 bp1 h
      obtain ⟨e1, t2, hw1, hk⟩ := DapRun.andThen_eq_ret _ _ _ _ h
      obtain ⟨r1, rest1, -, -, ht2⟩ := mem_ap_write_atomic_u32_eq_ret _ _ _ _ _ hw1
      have hfin : ∀ t3 : cortex_a9_target W,
          t3.brp_num = t2.brp_num → t3.brp_num_available = t2.brp_num_available →
          t3.brp_list = t2.brp_list →
          t3.brp_num = t.brp_num ∧ t3.brp_num_available = t.brp_num_available
          ∧ t3.brp_list.length = t.brp_list.length
          ∧ brp_free t3.brp_list + 1 = brp_free t.brp_list := by
        intro t3 h1 h2 h3
        rw [h1, h2, h3, ht2]
        exact ⟨rfl, rfl, by simp, hcount _ rfl⟩
      by_cases he1 : e1 ≠ ERROR_OK
      · rw [if_pos he1] at hk
        injection hk with hk1 hk2
        injection hk2 with hk3 hk4
        exact hfin t1 (hk3 ▸ rfl) (hk3 ▸ rfl) (hk3 ▸ rfl)
      · rw [if_neg he1] at hk
        obtain ⟨e2, t3, hw2, hk⟩ := DapRun.andThen_eq_ret _ _ _ _ hk
        obtain ⟨r2, rest2, -, -, ht3⟩ := mem_ap_write_atomic_u32_eq_ret _ _ _ _ _ hw2
        have ht1 : t1 = t3 := by
          by_cases he2 : e2 ≠ ERROR_OK
          · rw [if_pos he2] at hk
            injection hk with hk1 hk2
            injection hk2 with hk3 hk4
            exact hk3.symm
          · rw [if_neg he2] at hk
            injection hk with hk1 hk2
            injection hk2 with hk3 hk4
            exact hk3.symm
        rw [ht1]
        exact hfin t3 (ht3 ▸ rfl) (ht3 ▸ rfl) (ht3 ▸ rfl)

/-- Disarming a hardware breakpoint that holds a slot in use, on a table with
its `brp_num` slots: the call indexes no slot outside the table, and when it
returns, whatever the status, one more slot is free. -/
theorem cortex_a9_unset_breakpoint_hard_used {W : Type} (c : CpuDbg) (m : A9Memory W)
    (t : cortex_a9_target W) (bp : breakpoint) (brp : cortex_a9_brp)
    (hset : bp.set ≠ 0) (htype : bp.type = .BKPT_HARD)
    (hlo : 1 ≤ bp.set) (hhi : bp.set ≤ t.brp_num)
    (hslot : t.brp_list[(bp.set - 1).toNat]? = some brp) (hused : brp.used ≠ 0) :
    cortex_a9_unset_breakpoint c m t bp ≠ .fault
    ∧ ∀ e t1 bp1, cortex_a9_unset_breakpoint c m t bp = .ret e (t1, bp1) →
        t1.brp_num = t.brp_num ∧ t1.brp_num_available = t.brp_num_available
        ∧ t1.brp_list.length = t.brp_list.length
        ∧ brp_free t1.brp_list = brp_free t.brp_list + 1 := by
  unfold cortex_a9_unset_breakpoint
  rw [if_neg hset]
  simp only [htype]
  have hrange : ¬ (bp.set - 1 < 0 ∨ bp.set - 1 ≥ t.brp_num) := by omega
  have hcount : ∀ new : cortex_a9_brp, new.used = 0 →
      brp_free (t.brp_list.set (bp.set - 1).toNat new) = brp_free t.brp_list + 1 := by
    intro new hn
    have := brp_free_set t.brp_list _ brp new hslot
    rw [if_neg hused, if_pos hn] at this
    simpa using this
  simp only [if_neg hrange, hslot, cortex_a9_dap_write_memap_register_u32]
  constructor
  · apply DapRun.andThen_ne_fault _ _ (mem_ap_write_atomic_u32_ne_fault _ _ _)
    intro e v
    split
    · simp
    · apply DapRun.andThen_ne_fault _ _ (mem_ap_write_atomic_u32_ne_fault _ _ _)
      intro e1 v1
      split <;> simp
  · intro e t1 bp1 h
    obtain ⟨e1, t2, hw1, hk⟩ := DapRun.andThen_eq_ret _ _ _ _ h
    obtain ⟨r1, rest1, -, -, ht2⟩ := mem_ap_write_atomic_u32_eq_ret _ _ _ _ _ hw1
    have hfin : ∀ t3 : cortex_a9_target W,
        t3.brp_num = t2.brp_num → t3.brp_num_available = t2.brp_num_available →
        t3.brp_list = t2.brp_list →
        t3.brp_num = t.brp_num ∧ t3.brp_num_available = t.brp_num_available
        ∧ t3.brp_list.length = t.brp_list.length
        ∧ brp_free t3.brp_list = brp_free t.brp_list + 1 := by
      intro t3 h1 h2 h3
      rw [h1, h2, h3, ht2]
      exact ⟨rfl, rfl, by simp, hcount _ rfl⟩
    by_cases he1 : e1 ≠ ERROR_OK
    · rw [if_pos he1] at hk
      injection hk with hk1 hk2
      injection hk2 with hk3 hk4
      exact hfin t1 (hk3 ▸ rfl) (hk3 ▸ rfl) (hk3 ▸ rfl)
    · rw [if_neg he1] at hk
      obtain ⟨e2, t3, hw2, hk⟩ := DapRun.andThen_eq_ret _ _ _ _ hk
      obtain ⟨r2, rest2, -, -, ht3⟩ := mem_ap_write_atomic_u32_eq_ret _ _ _ _ _ hw2
      have ht1 : t1 = t3 := by
        by_cases he2 : e2 ≠ ERROR_OK
        · rw [if_pos he2] at hk
          injection hk with hk1 hk2
          injection hk2 with hk3 hk4
          exact hk3.symm
        · rw [if_neg he2] at hk
          injection hk with hk1 hk2
          injection hk2 with hk3 hk4
          exact hk3.symm
      rw [ht1]
      exact hfin t3 (ht3 ▸ rfl) (ht3 ▸ rfl) (ht3 ▸ rfl)

/-- Arming or disarming a software breakpoint indexes no array and leaves the
slot table and its counters alone. -/
theorem cortex_a9_soft_breakpoint_frame {W : Type} (c : CpuDbg) (a : ArmOpcodes)
    (m : A9Memory W) (t : cortex_a9_target W) (bp : breakpoint) (matchmode : Nat)
    (htype : bp.type = .BKPT_SOFT) :
    (cortex_a9_set_breakpoint c a m t bp matchmode ≠ .fault
      ∧ ∀ e t1 bp1, cortex_a9_set_breakpoint c a m t bp matchmode = .ret e (t1, bp1) →
          t1.brp_num = t.brp_num ∧ t1.brp_num_available = t.brp_num_available
          ∧ t1.brp_list = t.brp_list)
    ∧ (cortex_a9_unset_breakpoint c m t bp ≠ .fault
      ∧ ∀ e t1 bp1, cortex_a9_unset_breakpoint c m t bp = .ret e (t1, bp1) →
          t1.brp_num = t.brp_num ∧ t1.brp_num_available = t.brp_num_available
          ∧ t1.brp_list = t.brp_list) := by
  constructor
  · unfold cortex_a9_set_breakpoint
    simp only [htype]
    constructor
    · split_ifs <;> simp
    · intro e t1 bp1 h
      split_ifs at h <;>
      · injection h with h1 h2
        injection h2 with h3 h4
        rw [← h3]
        exact ⟨rfl, rfl, rfl⟩
  · unfold cortex_a9_unset_breakpoint
    simp only [htype]
    constructor
    · split_ifs <;> simp
    · intro e t1 bp1 h
      split_ifs at h <;>
      · injection h with h1 h2
        injection h2 with h3 h4
        rw [← h3]
        exact ⟨rfl, rfl, rfl⟩

/-- C18, the code leaves a cache line of the range alone.  A write of two words
at address 60 to a halted target with both caches enabled, every operation
succeeding: the range `[60, 68)` overlaps the lines `[0, 64)` and `[64, 128)`,
the function returns `ERROR_OK`, and the only operations issued are ICIMVAU and
DCIMVAC with address 60: none has an address in the line `[64, 128)`. -/
theorem C18_second_cache_line_not_invalidated :
    ∃ t1, cortex_a9_write_phys_memory arm_encodings a9_dpm 8 (a9_target []) 60 4 2
          (some [1, 0, 0, 0, 2, 0, 0, 0]) = some (ERROR_OK, t1)
      ∧ t1.dpm_log = [(0xEE070F35, 60), (0xEE070F36, 60)]
      ∧ (60 ≤ 64 ∧ 64 < 60 + 4 * 2)
      ∧ ∀ op ∈ t1.dpm_log, ¬ (64 ≤ op.2 ∧ op.2 < 128) :=
  ⟨_, rfl, rfl, by decide, by decide⟩

/-! ## C21, C22: checksum and blank check -/

/-- C21, the code when the algorithm runner fails: the working area is given at
`area` and `target_run_algorithm` returns the status `e`; for every `e`, also
`ERROR_TARGET_TIMEOUT`, `mips32_checksum_memory` and `mips32_blank_check_memory`
return `ERROR_OK`, and when `e` is an error nothing is written to `*checksum`
or `*blank`. -/
theorem C21_run_failure_is_reported_as_success (area address count : Nat) (e : Int) :
    (mips32_checksum_memory (algo_host area e) [] address count).1 = ERROR_OK
    ∧ (mips32_checksum_memory (algo_host area e) [] address count).2.1
        = (if e ≠ ERROR_OK then none else some address)
    ∧ (mips32_blank_check_memory (algo_host area e) [] address count).1 = ERROR_OK
    ∧ (mips32_blank_check_memory (algo_host area e) [] address count).2.1
        = (if e ≠ ERROR_OK then none else some 0xff)
    ∧ ERROR_TARGET_TIMEOUT ≠ ERROR_OK := by
  refine ⟨?_, ?_, ?_, ?_, by decide⟩
  · unfold mips32_checksum_memory
    simp only [algo_host]
    rw [if_neg (by decide)]
    split <;> rfl
  · unfold mips32_checksum_memory
    simp only [algo_host]
    rw [if_neg (by decide)]
    split <;> rfl
  · unfold mips32_blank_check_memory
    simp only [algo_host]
    rw [if_neg (by decide)]
    split <;> rfl
  · unfold mips32_blank_check_memory
    simp only [algo_host]
    rw [if_neg (by decide)]
    split <;> rfl

/-- C22, the exit points handed to the algorithm runner, for a working area at
`0x80001000`: `mips32_checksum_memory` uploads 23 words and passes the address
of its last word, the SDBBP, `0x80001000 + 88`; `mips32_blank_check_memory`
uploads 6 words and passes `0x80001000 + 22`, which is not the address
`0x80001000 + 20` of its SDBBP, and is not the address of a word. -/
theorem C22_exit_point_of_blank_check (address count : Nat) (e : Int) :
    mips_crc_code.length = 23 ∧ mips_crc_code.getLast? = some 0x7000003F
    ∧ (mips32_checksum_memory (algo_host 0x80001000 e) [] address count).2.2
        = [(0x80001000, 0x80001000 + 4 * (23 - 1))]
    ∧ erase_check_code.length = 6 ∧ erase_check_code.getLast? = some 0x7000003F
    ∧ (mips32_blank_check_memory (algo_host 0x80001000 e) [] address count).2.2
        = [(0x80001000, 0x80001000 + 22)]
    ∧ 0x80001000 + 22 ≠ 0x80001000 + 4 * (6 - 1)
    ∧ (0x80001000 + 22) % 4 = 2 := by
  refine ⟨rfl, rfl, ?_, rfl, rfl, ?_, by decide, by decide⟩
  · unfold mips32_checksum_memory
    simp only [algo_host]
    rw [if_neg (by decide)]
    split <;> rfl
  · unfold mips32_blank_check_memory
    simp only [algo_host]
    rw [if_neg (by decide)]
    split <;> rfl

/-! ## C29: `isa_mode` across `mips32_run_algorithm` -/

set_option maxRecDepth 20000 in
/-- C29, the code on its error paths: the target is in MIPS32 mode and the
algorithm asks for MIPS16e.  When the target does not halt in time and is
halted by force, and when it halts at `0x80001000` with the exit point at
`0x80002000`, `mips32_run_algorithm` returns `ERROR_TARGET_TIMEOUT` and leaves
`isa_mode` at MIPS16e; when the run succeeds `isa_mode` is MIPS32 again. -/
theorem C29_isa_mode_left_switched_on_error :
    algorithm_target.isa_mode = .MIPS32_ISA_MIPS32
    ∧ (mips32_run_algorithm (algorithm_ops 5 0x80001000 false) algorithm_target [] []
          0x80000000 0x80001000 1000
          { common_magic := MIPS32_COMMON_MAGIC, isa_mode := .MIPS32_ISA_MIPS16E }).retval
        = ERROR_TARGET_TIMEOUT
    ∧ (mips32_run_algorithm (algorithm_ops 5 0x80001000 false) algorithm_target [] []
          0x80000000 0x80001000 1000
          { common_magic := MIPS32_COMMON_MAGIC,
            isa_mode := .MIPS32_ISA_MIPS16E }).target.isa_mode
        = .MIPS32_ISA_MIPS16E
    ∧ (mips32_run_algorithm (algorithm_ops 5 0x80001000 true) algorithm_target [] []
          0x80000000 0x80002000 1000
          { common_magic := MIPS32_COMMON_MAGIC, isa_mode := .MIPS32_ISA_MIPS16E }).retval
        = ERROR_TARGET_TIMEOUT
    ∧ (mips32_run_algorithm (algorithm_ops 5 0x80001000 true) algorithm_target [] []
          0x80000000 0x80002000 1000
          { common_magic := MIPS32_COMMON_MAGIC,
            isa_mode := .MIPS32_ISA_MIPS16E }).target.isa_mode
        = .MIPS32_ISA_MIPS16E
    ∧ (mips32_run_algorithm (algorithm_ops 5 0x80001000 true) algorithm_target [] []
          0x80000000 0x80001000 1000
          { common_magic := MIPS32_COMMON_MAGIC, isa_mode := .MIPS32_ISA_MIPS16E }).retval
        = ERROR_OK
    ∧ (mips32_run_algorithm (algorithm_ops 5 0x80001000 true) algorithm_target [] []
          0x80000000 0x80001000 1000
          { common_magic := MIPS32_COMMON_MAGIC,
            isa_mode := .MIPS32_ISA_MIPS16E }).target.isa_mode
        = .MIPS32_ISA_MIPS32 :=
  ⟨rfl, rfl, rfl, rfl, rfl, rfl, rfl⟩

/-! ## C30: `mips32_enable_interrupts` -/

/-- Clearing the bits of a 32-bit mask leaves none of them. -/
theorem and_not_mask_and (d i : Nat) (hi : i < 2 ^ 32) :
    (d &&& (0xFFFFFFFF ^^^ i)) &&& i = 0 := by
  apply Nat.eq_of_testBit_eq
  intro k
  have hm : (0xFFFFFFFF : Nat).testBit k = decide (k < 32) :=
    Nat.testBit_two_pow_sub_one 32 k
  simp only [Nat.testBit_and, Nat.testBit_xor, Nat.zero_testBit, hm]
  by_cases hk : k < 32
  · simp [hk]
  · have : i.testBit k = false :=
      Nat.testBit_lt_two_pow (lt_of_lt_of_le hi (Nat.pow_le_pow_right (by decide) (by omega)))
    simp [this]

/-- Setting the bits of a 32-bit mask changes no other bit. -/
theorem or_mask_and_not (d i : Nat) (hi : i < 2 ^ 32) :
    (d ||| i) &&& (0xFFFFFFFF ^^^ i) = d &&& (0xFFFFFFFF ^^^ i) := by
  apply Nat.eq_of_testBit_eq
  intro k
  have hm : (0xFFFFFFFF : Nat).testBit k = decide (k < 32) :=
    Nat.testBit_two_pow_sub_one 32 k
  simp only [Nat.testBit_and, Nat.testBit_or, Nat.testBit_xor, hm]
  by_cases hk : k < 32
  · cases d.testBit k <;> cases i.testBit k <;> simp [hk]
  · have : i.testBit k = false :=
      Nat.testBit_lt_two_pow (lt_of_lt_of_le hi (Nat.pow_le_pow_right (by decide) (by omega)))
    simp [this]

/-- Setting the bits of a mask sets them. -/
theorem or_mask_and (d i : Nat) : (d ||| i) &&& i = i := by
  apply Nat.eq_of_testBit_eq
  intro k
  simp only [Nat.testBit_and, Nat.testBit_or]
  cases d.testBit k <;> cases i.testBit k <;> rfl

/-- C30: for every DCR value `d` read successfully and every `enable`, with the
write succeeding, `mips32_enable_interrupts` returns `ERROR_OK` and leaves in
DCR a value `v` (the value it writes, or `d` when it does not write) whose INTE
bit is set exactly when `enable` is not 0 and whose other bits are those of
`d`; it writes DCR exactly when the INTE bit of `d` differs from the one asked
for; and a second call with the same argument, reading `v`, only reads. -/
theorem C30_enable_interrupts (e : EjtagRegs) (bus : TargetBus) (enable : Int) (d : Nat)
    (hread : bus.read_u32 e.EJTAG_DCR = (ERROR_OK, d))
    (hwrite : ∀ v, bus.write_u32 e.EJTAG_DCR v = ERROR_OK)
    (hI : e.EJTAG_DCR_INTE < 2 ^ 32) (hI0 : e.EJTAG_DCR_INTE ≠ 0) :
    ∃ v : Nat,
      (v &&& e.EJTAG_DCR_INTE ≠ 0 ↔ enable ≠ 0)
      ∧ v &&& (0xFFFFFFFF ^^^ e.EJTAG_DCR_INTE) = d &&& (0xFFFFFFFF ^^^ e.EJTAG_DCR_INTE)
      ∧ mips32_enable_interrupts e bus enable
          = (ERROR_OK,
              if (d &&& e.EJTAG_DCR_INTE ≠ 0 ↔ enable ≠ 0) then [.read e.EJTAG_DCR]
              else [.read e.EJTAG_DCR, .write e.EJTAG_DCR v])
      ∧ (¬ (d &&& e.EJTAG_DCR_INTE ≠ 0 ↔ enable ≠ 0) → v ≠ d)
      ∧ ((d &&& e.EJTAG_DCR_INTE ≠ 0 ↔ enable ≠ 0) → v = d)
      ∧ ∀ bus2 : TargetBus, bus2.read_u32 e.EJTAG_DCR = (ERROR_OK, v) →
          mips32_enable_interrupts e bus2 enable = (ERROR_OK, [.read e.EJTAG_DCR]) := by
  have hnoop : ∀ (b : TargetBus) (x : Nat), b.read_u32 e.EJTAG_DCR = (ERROR_OK, x) →
      (x &&& e.EJTAG_DCR_INTE ≠ 0 ↔ enable ≠ 0) →
      mips32_enable_interrupts e b enable = (ERROR_OK, [.read e.EJTAG_DCR]) := by
    intro b x hb hx
    unfold mips32_enable_interrupts
    simp only [hb]
    rw [if_neg (by decide)]
    by_cases hen : enable ≠ 0
    · rw [if_pos hen, if_neg (hx.mpr hen)]
    · have hx0 : ¬ (x &&& e.EJTAG_DCR_INTE ≠ 0) := fun h => hen (hx.mp h)
      rw [if_neg hen, if_neg hx0]
  by_cases hsame : (d &&& e.EJTAG_DCR_INTE ≠ 0 ↔ enable ≠ 0)
  · refine ⟨d, hsame, rfl, ?_, fun h => absurd hsame h, fun _ => rfl, fun bus2 h2 => ?_⟩
    · rw [if_pos hsame]
      exact hnoop bus d hread hsame
    · exact hnoop bus2 d h2 hsame
  · by_cases hen : enable ≠ 0
    · have hd0 : d &&& e.EJTAG_DCR_INTE = 0 := by
        by_contra h
        exact hsame ⟨fun _ => hen, fun _ => h⟩
      have hv : ((d ||| e.EJTAG_DCR_INTE) &&& e.EJTAG_DCR_INTE ≠ 0 ↔ enable ≠ 0) := by
        rw [or_mask_and]
        exact ⟨fun _ => hen, fun _ => hI0⟩
      refine ⟨d ||| e.EJTAG_DCR_INTE, hv, or_mask_and_not d _ hI, ?_, fun _ hvd => ?_,
        fun h => absurd h hsame, fun bus2 h2 => hnoop bus2 _ h2 hv⟩
      · rw [if_neg hsame]
        unfold mips32_enable_interrupts
        simp only [hread, hwrite]
        rw [if_neg (by decide), if_pos hen, if_pos hd0]
        simp
      · have := or_mask_and d e.EJTAG_DCR_INTE
        rw [hvd, hd0] at this
        exact hI0 this.symm
    · have hd1 : d &&& e.EJTAG_DCR_INTE ≠ 0 := by
        intro h0
        exact hsame ⟨fun h1 => absurd h0 h1, fun h1 => absurd h1 hen⟩
      have hv : ((d &&& (0xFFFFFFFF ^^^ e.EJTAG_DCR_INTE)) &&& e.EJTAG_DCR_INTE ≠ 0
          ↔ enable ≠ 0) := by
        rw [and_not_mask_and d _ hI]
        exact ⟨fun h => absurd rfl h, fun h => absurd h hen⟩
      refine ⟨d &&& (0xFFFFFFFF ^^^ e.EJTAG_DCR_INTE), hv, ?_, ?_, fun _ hvd => ?_,
        fun h => absurd h hsame, fun bus2 h2 => hnoop bus2 _ h2 hv⟩
      · rw [Nat.and_assoc, Nat.and_self]
      · rw [if_neg hsame]
        unfold mips32_enable_interrupts
        simp only [hread, hwrite]
        rw [if_neg (by decide), if_neg hen, if_pos hd1]
        simp
      · have := and_not_mask_and d e.EJTAG_DCR_INTE hI
        rw [hvd] at this
        exact hd1 this

/-- C30 at a DCR of `0x30000` with INTE at bit 4: enabling writes `0x30010`,
and a call that reads `0x30010` only reads. -/
theorem C30_enable_interrupts_witness :
    ∃ v : Nat,
      (v &&& 0x10 ≠ 0 ↔ (1 : Int) ≠ 0)
      ∧ v &&& (0xFFFFFFFF ^^^ 0x10) = 0x30000 &&& (0xFFFFFFFF ^^^ 0x10)
      ∧ mips32_enable_interrupts
            { EJTAG_DCR := 0xFF300000, EJTAG_IBS := 0xFF301000, EJTAG_DBS := 0xFF302000,
              EJTAG_DCR_IB := 0x10000, EJTAG_DCR_DB := 0x20000, EJTAG_DCR_INTE := 0x10 }
            { read_u32 := fun _ => (0, 0x30000), write_u32 := fun _ _ => 0 } 1
          = (ERROR_OK,
              if (0x30000 &&& 0x10 ≠ 0 ↔ (1 : Int) ≠ 0) then [.read 0xFF300000]
              else [.read 0xFF300000, .write 0xFF300000 v])
      ∧ (¬ (0x30000 &&& 0x10 ≠ 0 ↔ (1 : Int) ≠ 0) → v ≠ 0x30000)
      ∧ ((0x30000 &&& 0x10 ≠ 0 ↔ (1 : Int) ≠ 0) → v = 0x30000)
      ∧ ∀ bus2 : TargetBus, bus2.read_u32 0xFF300000 = (ERROR_OK, v) →
          mips32_enable_interrupts
              { EJTAG_DCR := 0xFF300000, EJTAG_IBS := 0xFF301000, EJTAG_DBS := 0xFF302000,
                EJTAG_DCR_IB := 0x10000, EJTAG_DCR_DB := 0x20000, EJTAG_DCR_INTE := 0x10 }
              bus2 1
            = (ERROR_OK, [.read 0xFF300000]) :=
  C30_enable_interrupts
    { EJTAG_DCR := 0xFF300000, EJTAG_IBS := 0xFF301000, EJTAG_DBS := 0xFF302000,
      EJTAG_DCR_IB := 0x10000, EJTAG_DCR_DB := 0x20000, EJTAG_DCR_INTE := 0x10 }
    { read_u32 := fun _ => (0, 0x30000), write_u32 := fun _ _ => 0 } 1
    0x30000 rfl (fun _ => rfl) (by decide) (by decide)

/-! ## C27: termination of the cache-line loops -/

/-- With the bound at `0xFFFFFFFF` and every operation succeeding, a walk that
is at a multiple of 64 never leaves the loop: no number of passes suffices. -/
theorem cortex_a9_invalidate_lines_spins (opcode : Nat) (fuel : Nat) :
    ∀ (t : cortex_a9_target Unit) (cacheline : Nat), cacheline % 64 = 0 → cacheline < 2 ^ 32 →
      cortex_a9_invalidate_lines a9_dpm opcode 0xFFFFFFFF fuel t cacheline = none := by
  induction fuel with
  | zero => intro t cacheline _ _; rfl
  | succ fuel ih =>
    intro t cacheline h64 hlt
    unfold cortex_a9_invalidate_lines
    rw [if_pos (by omega)]
    simp only [a9_dpm]
    rw [if_neg (by decide)]
    exact ih _ _ (by omega) (Nat.mod_lt _ (by decide))

/-- C27, the code at the top of the address space: a write of 63 bytes at
`0xFFFFFFC0` to a halted target with the I-cache enabled, every operation
succeeding.  The bound `address + size*count` is `0xFFFFFFFF`, and the walk
goes from `0xFFFFFFC0` to 0 and on through the multiples of 64, all of them
below the bound: whatever the number of passes allowed, the function has not
returned, where `ceil(63/64) = 1` operation is all the range needs. -/
theorem C27_cache_line_loop_does_not_terminate (fuel : Nat) (buffer : List Nat) :
    cortex_a9_write_phys_memory arm_encodings a9_dpm fuel (a9_target []) 0xFFFFFFC0 1 63
        (some buffer) = none
    ∧ (0xFFFFFFC0 + 1 * 63) % 2 ^ 32 = 0xFFFFFFFF
    ∧ (1 * 63 + 63) / 64 = 1 := by
  refine ⟨?_, by decide, by decide⟩
  have key : ∀ (opcode : Nat) (t : cortex_a9_target Unit),
      cortex_a9_invalidate_lines a9_dpm opcode 4294967295 fuel t 4294967232 = none :=
    fun opcode t => cortex_a9_invalidate_lines_spins opcode fuel t _ (by decide) (by decide)
  have hp : ∀ w, a9_dpm.prepare w = (ERROR_OK, w) := fun _ => rfl
  have hu8 : ∀ w b n x, a9_dpm.mem_ap_write_buf_u8 w b n x = (ERROR_OK, w) :=
    fun _ _ _ _ => rfl
  simp [cortex_a9_write_phys_memory, key, hp, hu8, a9_target, dap_ap_select,
    dap_ap_get_select]

/-! ## C28: the search for a free breakpoint register pair -/

/-- On slots that are all in use and numbered below `brp_num`, the search loop
goes on to the index past the last slot. -/
theorem cortex_a9_find_brp_all_used (brp_num : Int) :
    ∀ (l : List cortex_a9_brp) (k : Nat), (∀ b ∈ l, b.used ≠ 0) →
      ((k + l.length : Nat) : Int) ≤ brp_num →
      cortex_a9_find_brp brp_num l k = none := by
  intro l
  induction l with
  | nil => intro k _ _; rfl
  | cons b rest ih =>
    intro k hu hk
    unfold cortex_a9_find_brp
    have hb : b.used ≠ 0 := hu b (List.mem_cons_self _ _)
    have hlt : (k : Int) < brp_num := by
      simp only [List.length_cons] at hk
      omega
    rw [if_pos ⟨hb, hlt⟩]
    exact ih (k + 1) (fun x hx => hu x (List.mem_cons_of_mem _ hx))
      (by simp only [List.length_cons] at hk
          have : k + 1 + rest.length = k + (rest.length + 1) := by omega
          rw [this]; exact hk)

/-- C28, the code when every slot is in use: for every number `n` of slots, on
a table of `n` slots that are all in use, the search of
`cortex_a9_set_breakpoint` for a hardware breakpoint that is not armed reads
`brp_list[n]`, the entry past the last slot, before it compares the index with
`brp_num`: the call indexes the table outside its bounds instead of returning
`ERROR_TARGET_RESOURCE_NOT_AVAILABLE`. -/
theorem C28_search_reads_past_the_table (c : CpuDbg) (a : ArmOpcodes) (m : A9Memory Unit)
    (n address length matchmode : Nat) :
    cortex_a9_set_breakpoint c a m
        { a9_target [] with
            brp_num := n, brp_num_available := 0,
            brp_list := (List.range n).map
              (fun i => { used := 1, type := .BRP_NORMAL, value := 0x4000, control := 0x1E7,
                          BRPn := i }) }
        ⟨address, length, .BKPT_HARD, 0, []⟩ matchmode
      = .fault := by
  unfold cortex_a9_set_breakpoint
  rw [if_neg (not_not.mpr rfl)]
  simp only
  rw [cortex_a9_find_brp_all_used _ _ 0
    (by intro b hb
        simp only [List.mem_map] at hb
        obtain ⟨i, -, hi⟩ := hb
        rw [← hi]
        show (1 : Int) ≠ 0
        decide)
    (by simp)]

/-! ## C23: the upper bound of the range tests -/

/-- C23, the code at the first address past each buffer: two input parameters,
two output parameters and three code words are declared, and the arrays have
exactly that many words.  The addresses `PRACC_PARAM_IN + 8`,
`PRACC_PARAM_OUT + 8` and `PRACC_TEXT + 12` are accepted by the range tests of
`mips32_pracc_exec_read`, the first two also by those of
`mips32_pracc_exec_write`, and give the index 2, 2 and 3, which is the number of
words declared and not below it: the arrays are indexed outside their
bounds. -/
theorem C23_range_tests_accept_one_word_too_many :
    mips32_pracc_exec_read
        { local_iparam := [1, 2], num_iparam := 2, local_oparam := [3, 4], num_oparam := 2,
          code := [7, 8, 9], code_len := 3, stack := List.replicate 32 0, stack_offset := 0 }
        (MIPS32_PRACC_PARAM_IN + 8) = .fault
    ∧ mips32_pracc_exec_read
        { local_iparam := [1, 2], num_iparam := 2, local_oparam := [3, 4], num_oparam := 2,
          code := [7, 8, 9], code_len := 3, stack := List.replicate 32 0, stack_offset := 0 }
        (MIPS32_PRACC_PARAM_OUT + 8) = .fault
    ∧ mips32_pracc_exec_read
        { local_iparam := [1, 2], num_iparam := 2, local_oparam := [3, 4], num_oparam := 2,
          code := [7, 8, 9], code_len := 3, stack := List.replicate 32 0, stack_offset := 0 }
        (MIPS32_PRACC_TEXT + 12) = .fault
    ∧ mips32_pracc_exec_write
        { local_iparam := [1, 2], num_iparam := 2, local_oparam := [3, 4], num_oparam := 2,
          code := [7, 8, 9], code_len := 3, stack := List.replicate 32 0, stack_offset := 0 }
        (MIPS32_PRACC_PARAM_IN + 8) 5 = .fault
    ∧ mips32_pracc_exec_write
        { local_iparam := [1, 2], num_iparam := 2, local_oparam := [3, 4], num_oparam := 2,
          code := [7, 8, 9], code_len := 3, stack := List.replicate 32 0, stack_offset := 0 }
        (MIPS32_PRACC_PARAM_OUT + 8) 5 = .fault
    ∧ (MIPS32_PRACC_PARAM_IN + 8 - MIPS32_PRACC_PARAM_IN) / 4 = 2
    ∧ (MIPS32_PRACC_PARAM_OUT + 8 - MIPS32_PRACC_PARAM_OUT) / 4 = 2
    ∧ (MIPS32_PRACC_TEXT + 12 - MIPS32_PRACC_TEXT) / 4 = 3
    ∧ mips32_pracc_exec_read
        { local_iparam := [1, 2, 6], num_iparam := 2, local_oparam := [3, 4], num_oparam := 2,
          code := [7, 8, 9], code_len := 3, stack := List.replicate 32 0, stack_offset := 0 }
        (MIPS32_PRACC_PARAM_IN + 8)
      = .ret ERROR_OK
          ({ local_iparam := [1, 2, 6], num_iparam := 2, local_oparam := [3, 4],
             num_oparam := 2, code := [7, 8, 9], code_len := 3,
             stack := List.replicate 32 0, stack_offset := 0 }, some 6) := by
  refine ⟨by decide, by decide, by decide, by decide, by decide, by decide, by decide,
    by decide, by decide⟩

/-! ## C24: the bounds of the debug stack -/

/-- C24, the code on the two inputs of the claim: there is no test of the
stack offset.  A run of `mips32_pracc_exec` whose first request is a processor
read at `PRACC_STACK` pops the empty stack, which indexes `stack[-1]`; a run of
32 processor writes at `PRACC_STACK` stays inside the array, and a run of 33
pushes on the full stack, which indexes `stack[32]` (the write at offset 32 on
its own does the same): the array of 32 words is accessed out of bounds. -/
theorem C24_stack_access_out_of_bounds :
    mips32_pracc_exec [pracc_load MIPS32_PRACC_STACK] 1 [7] 0 [] 0 [] 1 = .fault
    ∧ mips32_pracc_exec (List.replicate 32 (pracc_store MIPS32_PRACC_STACK 9))
        1 [7] 0 [] 0 [] 1 ≠ .fault
    ∧ mips32_pracc_exec (List.replicate 33 (pracc_store MIPS32_PRACC_STACK 9))
        1 [7] 0 [] 0 [] 1 = .fault
    ∧ mips32_pracc_exec_write
        { local_iparam := [], num_iparam := 0, local_oparam := [], num_oparam := 0,
          code := [7], code_len := 1, stack := List.replicate 32 9, stack_offset := 32 }
        MIPS32_PRACC_STACK 9 = .fault := by
  refine ⟨by decide, by decide, by decide, by decide⟩

/-- A write that is served without leaving an array keeps the debug stack
within its array. -/
theorem exec_write_stack_ok (ctx ctx1 : mips32_pracc_context) (a d : Nat) (retval : Int)
    (hok : pracc_stack_ok ctx) (h : mips32_pracc_exec_write ctx a d = .ret retval ctx1) :
    pracc_stack_ok ctx1 := by
  obtain ⟨h0, h32, hlen⟩ := hok
  unfold mips32_pracc_exec_write at h
  split_ifs at h with c1 c2 c3 c4 c5 c6 <;> cases h
  · exact ⟨h0, h32, hlen⟩
  · exact ⟨h0, h32, hlen⟩
  · refine ⟨by show 0 ≤ ctx.stack_offset + 1; omega, ?_, by simp [hlen]⟩
    show ctx.stack_offset + 1 ≤ 32
    have := c6.2
    omega
  · exact ⟨h0, h32, hlen⟩

/-- A read that is served without leaving an array keeps the debug stack within
its array. -/
theorem exec_read_stack_ok (ctx ctx1 : mips32_pracc_context) (a : Nat) (retval : Int)
    (w : Option Nat) (hok : pracc_stack_ok ctx)
    (h : mips32_pracc_exec_read ctx a = .ret retval (ctx1, w)) :
    pracc_stack_ok ctx1 := by
  obtain ⟨h0, h32, hlen⟩ := hok
  unfold mips32_pracc_exec_read at h
  split_ifs at h with c1 c2 c3 c4 c5 <;> (try split at h) <;> cases h
  · exact ⟨h0, h32, hlen⟩
  · exact ⟨h0, h32, hlen⟩
  · exact ⟨h0, h32, hlen⟩
  · exact ⟨by show 0 ≤ ctx.stack_offset - 1; omega,
      by show ctx.stack_offset - 1 ≤ 32; omega, hlen⟩
  · exact ⟨h0, h32, hlen⟩

/-- One iteration that does not leave an array keeps the debug stack within its
array. -/
theorem pracc_body_stack_ok (cycle : Int) (st st1 : PraccLoop) (r : PraccRequest)
    (hok : pracc_stack_ok st.ctx)
    (h : pracc_body cycle st r = .next st1 ∨ ∃ rv, pracc_body cycle st r = .stop rv st1) :
    pracc_stack_ok st1.ctx := by
  unfold pracc_body at h
  by_cases hp : r.pracc = true
  · by_cases hw : r.prnw = true
    · cases hx : mips32_pracc_exec_write st.ctx r.address r.data with
      | fault => simp [wait_for_pracc_rw, hp, hw, hx, ERROR_OK] at h
      | ret rv ctx =>
        have ho := exec_write_stack_ok _ _ _ _ _ hok hx
        simp only [wait_for_pracc_rw, hp, hw, hx, if_true, ne_eq, not_true_eq_false,
          if_false] at h
        split_ifs at h <;> rcases h with h | ⟨rv1, h⟩ <;> cases h <;> exact ho
    · have hw0 : r.prnw = false := by simpa using hw
      simp only [wait_for_pracc_rw, hp, hw0, if_true, ne_eq, not_true_eq_false,
        if_false, Bool.false_eq_true] at h
      by_cases ht : r.address = MIPS32_PRACC_TEXT ∧ ¬ st.pass = 0
      · rw [if_pos ht] at h
        rcases h with h | ⟨rv1, h⟩ <;> cases h
        exact hok
      · rw [if_neg ht] at h
        cases hx : mips32_pracc_exec_read st.ctx r.address with
        | fault => simp [hx] at h
        | ret rv p =>
          obtain ⟨ctx, word⟩ := p
          have ho := exec_read_stack_ok _ _ _ _ _ hok hx
          simp only [hx] at h
          split_ifs at h <;> rcases h with h | ⟨rv1, h⟩ <;> cases h <;> exact ho
  · have hp0 : r.pracc = false := by simpa using hp
    simp [wait_for_pracc_rw, hp0, ERROR_OK, ERROR_JTAG_DEVICE_ERROR] at h
    subst h
    exact hok

/-- A run of the loop that does not leave an array keeps the debug stack within
its array, whether it has returned or is still polling. -/
theorem pracc_loop_stack_ok (cycle : Int) (reqs : List PraccRequest) :
    ∀ st : PraccLoop, pracc_stack_ok st.ctx →
      (∀ st1, pracc_loop cycle st reqs = .running st1 → pracc_stack_ok st1.ctx)
      ∧ (∀ rv st1 rest, pracc_loop cycle st reqs = .returned rv st1 rest →
          pracc_stack_ok st1.ctx) := by
  induction reqs with
  | nil =>
    intro st hok
    refine ⟨fun st1 h => ?_, fun rv st1 rest h => ?_⟩
    · simp only [pracc_loop] at h
      cases h
      exact hok
    · simp [pracc_loop] at h
  | cons x xs ih =>
    intro st hok
    rw [pracc_loop_cons]
    cases hb : pracc_body cycle st x with
    | fault => exact ⟨fun st1 h => (by cases h), fun rv st1 rest h => (by cases h)⟩
    | stop rv st2 =>
      refine ⟨fun st1 h => (by cases h), fun rv1 st1 rest h => ?_⟩
      cases h
      exact pracc_body_stack_ok cycle st _ x hok (Or.inr ⟨_, hb⟩)
    | next st2 =>
      exact ih st2 (pracc_body_stack_ok cycle st st2 x hok (Or.inl hb))

/-- In every run of `mips32_pracc_exec`, for any sequence of target
requests, as long as no access has left an array (in particular no processor
read at `PRACC_STACK` found the debug stack empty and no processor write at
`PRACC_STACK` found it full), the stack offset is within 0..32, whether the run
has returned or is still polling.  With no buffer range reaching `PRACC_STACK`,
a write there with the offset below 32 stores the word in `stack[offset]`,
offset in 0..31, and a read there with the offset above 0 is answered from
`stack[offset - 1]`, offset - 1 in 0..31. -/
theorem pracc_stack_offset_within_bounds (reqs : List PraccRequest) (code_len : Nat)
    (code : List Nat) (num_param_in : Nat) (param_in : List Nat) (num_param_out : Nat)
    (param_out : List Nat) (cycle : Int) :
    (∀ st, mips32_pracc_exec reqs code_len code num_param_in param_in num_param_out param_out
          cycle = .running st →
        0 ≤ st.ctx.stack_offset ∧ st.ctx.stack_offset ≤ 32 ∧ st.ctx.stack.length = 32)
    ∧ (∀ rv st rest, mips32_pracc_exec reqs code_len code num_param_in param_in num_param_out
          param_out cycle = .returned rv st rest →
        0 ≤ st.ctx.stack_offset ∧ st.ctx.stack_offset ≤ 32 ∧ st.ctx.stack.length = 32)
    ∧ (∀ (ctx : mips32_pracc_context) (w : Nat),
        ctx.num_iparam < 2048 → ctx.num_oparam < 1536 → ctx.stack.length = 32 →
        0 ≤ ctx.stack_offset → ctx.stack_offset < 32 →
        mips32_pracc_exec_write ctx MIPS32_PRACC_STACK w
          = .ret ERROR_OK { ctx with stack := ctx.stack.set ctx.stack_offset.toNat w,
                                     stack_offset := ctx.stack_offset + 1 }
        ∧ ctx.stack_offset.toNat < 32)
    ∧ (∀ (ctx : mips32_pracc_context),
        ctx.num_iparam < 2048 → ctx.num_oparam < 1536 → ctx.code_len < 3968 →
        ctx.stack.length = 32 → 0 < ctx.stack_offset → ctx.stack_offset ≤ 32 →
        ∃ v, ctx.stack[(ctx.stack_offset - 1).toNat]? = some v
          ∧ mips32_pracc_exec_read ctx MIPS32_PRACC_STACK
              = .ret ERROR_OK ({ ctx with stack_offset := ctx.stack_offset - 1 }, some v)
          ∧ (ctx.stack_offset - 1).toNat < 32) := by
  have hinit : pracc_stack_ok
      (pracc_init code_len code num_param_in param_in num_param_out param_out).ctx :=
    ⟨le_refl _, by simp [pracc_init], by simp [pracc_init]⟩
  have hl := pracc_loop_stack_ok cycle reqs _ hinit
  refine ⟨fun st h => hl.1 st h, fun rv st rest h => hl.2 rv st rest h, ?_, ?_⟩
  · intro ctx w hin hout hlen h0 h32
    exact ⟨exec_write_stack ctx w hin hout h0 (by rw [hlen]; omega), by omega⟩
  · intro ctx hin hout hcode hlen h0 h32
    have hi : (ctx.stack_offset - 1).toNat < ctx.stack.length := by rw [hlen]; omega
    refine ⟨ctx.stack[(ctx.stack_offset - 1).toNat], List.getElem?_eq_getElem hi, ?_,
      by omega⟩
    exact exec_read_stack ctx _ hin hout hcode (by omega) (List.getElem?_eq_getElem hi)

/-- A run that pushes two words and pops one: it is still polling with the
offset at 1. -/
theorem pracc_stack_offset_within_bounds_example :
    (0 : Int) ≤ 1 ∧ (1 : Int) ≤ 32 ∧ (7 :: 8 :: List.replicate 30 0).length = 32 :=
  (pracc_stack_offset_within_bounds
    [pracc_store MIPS32_PRACC_STACK 7, pracc_store MIPS32_PRACC_STACK 8,
      pracc_load MIPS32_PRACC_STACK] 1 [5] 0 [] 0 [] 1).1
    { ctx := { local_iparam := [], num_iparam := 0, local_oparam := [], num_oparam := 0,
               code := [5], code_len := 1, stack := 7 :: 8 :: List.replicate 30 0,
               stack_offset := 1 },
      pass := 0, sent := [8] }
    (by decide)

/-! ## C25, C26: the element count and the block address of the reads -/

/-- A run in which the processor fetches the debug vector twice in a row:
`mips32_pracc_exec` answers the first fetch with `code[0]` and returns
`ERROR_OK` on the second. -/
theorem pracc_exec_vector_twice (c0 : Nat) (cs : List Nat) (code_len num_param_in : Nat)
    (param_in : List Nat) (num_param_out : Nat) (param_out : List Nat)
    (rest : List PraccRequest) (hfit : MIPS32_PRACC_TEXT + code_len * 4 < 2 ^ 32) :
    mips32_pracc_exec (pracc_fetch 0 :: pracc_fetch 0 :: rest) code_len (c0 :: cs)
        num_param_in param_in num_param_out param_out 1
      = .returned ERROR_OK
          { ctx := (pracc_init code_len (c0 :: cs) num_param_in param_in num_param_out
                      param_out).ctx,
            pass := 2, sent := [c0] } rest := by
  have hc : (1 : Int) ≠ 0 := by decide
  unfold mips32_pracc_exec pracc_init
  rw [pracc_loop_fetch_vector 1 hc c0]; dsimp only
  rw [pracc_loop_exit 1 _ _ Nat.one_ne_zero]
  all_goals first
    | rfl
    | exact hfit
    | simp

/-- A run in which the processor fetches the debug vector, reads the two input
parameters and fetches the debug vector again: the words shifted out are
`code[0]`, `param_in[0]` and `param_in[1]`. -/
theorem pracc_exec_params_read (c0 : Nat) (cs : List Nat) (code_len p0 p1 : Nat)
    (num_param_out : Nat) (param_out : List Nat)
    (rest : List PraccRequest) (hfit : MIPS32_PRACC_TEXT + code_len * 4 < 2 ^ 32) :
    mips32_pracc_exec
        (pracc_fetch 0 :: pracc_load MIPS32_PRACC_PARAM_IN
          :: pracc_load (MIPS32_PRACC_PARAM_IN + 4) :: pracc_fetch 0 :: rest)
        code_len (c0 :: cs) 2 [p0, p1] num_param_out param_out 1
      = .returned ERROR_OK
          { ctx := (pracc_init code_len (c0 :: cs) 2 [p0, p1] num_param_out param_out).ctx,
            pass := 2, sent := [c0, p0, p1] } rest := by
  have hc : (1 : Int) ≠ 0 := by decide
  unfold mips32_pracc_exec pracc_init
  rw [pracc_loop_fetch_vector 1 hc c0]; dsimp only
  rw [pracc_loop_load_in 1 hc MIPS32_PRACC_PARAM_IN 0 p0]; dsimp only
  rw [pracc_loop_load_in 1 hc (MIPS32_PRACC_PARAM_IN + 4) 1 p1]; dsimp only
  rw [pracc_loop_exit 1 _ _ Nat.one_ne_zero]
  all_goals first
    | rfl
    | exact hfit
    | simp [MIPS32_PRACC_TEXT, MIPS32_PRACC_PARAM_IN, MIPS32_PRACC_PARAM_OUT]

/-- C26, the code for more than `0x400` elements: with `count = 0x401`, in a
run where the processor fetches the debug vector, reads the two input
parameters and fetches the debug vector again, `mips32_pracc_read_mem8` and
`mips32_pracc_read_mem16` answer the read of `param_in[1]`, the element count
of the snippet, with `0x400` and not with `count`; they copy `count` words of
their local array `param_out` to `buf` all the same and return `ERROR_OK`. -/
theorem C26_element_count_is_capped (asm : Mips32Asm) (addr : Nat) (buf : List Nat)
    (rest : List PraccRequest) :
    mips32_pracc_read_mem8 asm
        (pracc_fetch 0 :: pracc_load MIPS32_PRACC_PARAM_IN
          :: pracc_load (MIPS32_PRACC_PARAM_IN + 4) :: pracc_fetch 0 :: rest)
        addr 0x401 buf
      = .ret ERROR_OK
          (((List.replicate 0x401 0).take 0x401).map (fun w => w % 2 ^ 8) ++ buf.drop 0x401)
          [asm.MTC0 15 31 0, addr, 0x400] rest
    ∧ mips32_pracc_read_mem16 asm
        (pracc_fetch 0 :: pracc_load MIPS32_PRACC_PARAM_IN
          :: pracc_load (MIPS32_PRACC_PARAM_IN + 4) :: pracc_fetch 0 :: rest)
        addr 0x401 buf
      = .ret ERROR_OK
          (((List.replicate 0x401 0).take 0x401).map (fun w => w % 2 ^ 16) ++ buf.drop 0x401)
          [asm.MTC0 15 31 0, addr, 0x400] rest
    ∧ 0x400 ≠ 0x401 := by
  refine ⟨?_, ?_, by decide⟩
  · unfold mips32_pracc_read_mem8
    simp only [mips32_pracc_read_mem8_code, List.length]
    rw [if_pos (by decide)]
    rw [pracc_exec_params_read _ _ _ _ _ _ _ _ (by decide)]
    rfl
  · unfold mips32_pracc_read_mem16
    simp only [mips32_pracc_read_mem16_code, List.length]
    rw [if_pos (by decide)]
    rw [pracc_exec_params_read _ _ _ _ _ _ _ _ (by decide)]
    rfl

/-- One pass of the loop of `mips32_pracc_read_mem32` whose block returns
`ERROR_OK`: the loop goes on with `count - blocksize` words, at
`addr + blocksize`. -/
theorem mips32_pracc_read_mem32_loop_block (asm : Mips32Asm) (count : Nat)
    (reqs : List PraccRequest) (addr : Nat) (buf : List Nat) (bytesread : Nat)
    (sent : List Nat) (st : PraccLoop) (rest : List PraccRequest) (hcount : 0 < count)
    (hexec : mips32_pracc_exec reqs (mips32_pracc_read_mem32_code asm).length
        (mips32_pracc_read_mem32_code asm) 2 [addr, if count > 0x400 then 0x400 else count]
        (if count > 0x400 then 0x400 else count) (buf.drop bytesread) 1
      = .returned ERROR_OK st rest) :
    mips32_pracc_read_mem32_loop asm count reqs addr buf bytesread sent
      = mips32_pracc_read_mem32_loop asm (count - (if count > 0x400 then 0x400 else count)) rest
          ((addr + (if count > 0x400 then 0x400 else count)) % 2 ^ 32)
          (buf.take bytesread ++ st.ctx.local_oparam)
          (bytesread + (if count > 0x400 then 0x400 else count)) (sent ++ st.sent) := by
  rw [mips32_pracc_read_mem32_loop, dif_pos hcount]
  dsimp only
  erw [hexec]
  dsimp only
  rw [if_neg (not_not.mpr rfl)]

/-- The loop of `mips32_pracc_read_mem32` with no word left returns
`ERROR_OK`. -/
theorem mips32_pracc_read_mem32_loop_done (asm : Mips32Asm) (reqs : List PraccRequest)
    (addr : Nat) (buf : List Nat) (bytesread : Nat) (sent : List Nat) :
    mips32_pracc_read_mem32_loop asm 0 reqs addr buf bytesread sent
      = .ret ERROR_OK buf sent reqs := by
  rw [mips32_pracc_read_mem32_loop, dif_neg (Nat.lt_irrefl 0)]

/-- Claim C25, evaluated on the code: a read of `0x401` words is made of two
blocks; `mips32_pracc_read_mem32` hands the second block the address
`addr + 0x400` in `param_in[0]` (the address is advanced by the number of
words of the block, not by its `4 * 0x400` bytes), and that word differs from
`addr + 4 * 0x400` for every 32-bit wrap of the address. -/
theorem C25_second_block_address (asm : Mips32Asm) (addr : Nat) (buf : List Nat)
    (rest : List PraccRequest) :
    mips32_pracc_read_mem32 asm
        (pracc_fetch 0 :: pracc_fetch 0
          :: pracc_fetch 0 :: pracc_load MIPS32_PRACC_PARAM_IN
          :: pracc_load (MIPS32_PRACC_PARAM_IN + 4) :: pracc_fetch 0 :: rest)
        addr 0x401 buf
      = .ret ERROR_OK buf
          [asm.MTC0 15 31 0, asm.MTC0 15 31 0, (addr + 0x400) % 2 ^ 32, 1] rest
    ∧ (addr + 0x400) % 2 ^ 32 ≠ (addr + 4 * 0x400) % 2 ^ 32 := by
  refine ⟨?_, by omega⟩
  have hfit : MIPS32_PRACC_TEXT + (mips32_pracc_read_mem32_code asm).length * 4 < 2 ^ 32 := by
    simp [mips32_pracc_read_mem32_code, MIPS32_PRACC_TEXT]
  have h1 : mips32_pracc_exec
      (pracc_fetch 0 :: pracc_fetch 0
          :: pracc_fetch 0 :: pracc_load MIPS32_PRACC_PARAM_IN
          :: pracc_load (MIPS32_PRACC_PARAM_IN + 4) :: pracc_fetch 0 :: rest)
      (mips32_pracc_read_mem32_code asm).length (mips32_pracc_read_mem32_code asm) 2
      [addr, if 0x401 > 0x400 then 0x400 else 0x401]
      (if 0x401 > 0x400 then 0x400 else 0x401) (buf.drop 0) 1 = .returned ERROR_OK _ _ :=
    pracc_exec_vector_twice _ _ _ _ _ _ _ _ hfit
  unfold mips32_pracc_read_mem32
  rw [mips32_pracc_read_mem32_loop_block asm 0x401 _ addr buf 0 [] _ _ (by decide) h1]
  rw [if_pos (show (0x401 : Nat) > 0x400 by decide)]
  simp only [pracc_init, List.take_zero, List.drop_zero, List.nil_append, Nat.zero_add,
    show (1025 - 1024 : Nat) = 1 from rfl]
  have h2 : mips32_pracc_exec
      (pracc_fetch 0 :: pracc_load MIPS32_PRACC_PARAM_IN
          :: pracc_load (MIPS32_PRACC_PARAM_IN + 4) :: pracc_fetch 0 :: rest)
      (mips32_pracc_read_mem32_code asm).length (mips32_pracc_read_mem32_code asm) 2
      [(addr + 1024) % 2 ^ 32, if 1 > 0x400 then 0x400 else 1]
      (if 1 > 0x400 then 0x400 else 1) (buf.drop 1024) 1 = .returned ERROR_OK _ _ :=
    pracc_exec_params_read _ _ _ _ _ _ _ _ hfit
  rw [mips32_pracc_read_mem32_loop_block asm 1 _ _ buf 1024 _ _ _ (by decide) h2]
  rw [if_neg (show ¬ ((1 : Nat) > 0x400) by decide)]
  simp only [pracc_init, List.take_append_drop, List.cons_append, List.nil_append,
    show (1 - 1 : Nat) = 0 from rfl]
  rw [mips32_pracc_read_mem32_loop_done]

end OpenOCD
